import Mathlib

/-! LlamaCore: conversation state, rollback and generation of `FLlamaInternal`,
and the task queues of its wrapper `FLlamaNative`.

A shallow embedding of `Private/Internal/LlamaInternal.cpp` and of the parts of
`Private/LlamaNative.cpp` that load a model, queue tasks and impersonate messages.

* The engine object is the record `FLlamaInternal`; every member function is a
  function from the record to `Option` of the new record (and a return value).
  `none` stands for an execution that does not return: an uncaught C++
  exception (`std::length_error`, `std::out_of_range`), a null handle being
  dereferenced, an integer division by zero, or a read outside a buffer.
* The llama.cpp runtime is an external collaborator.  Its open behaviour (chat
  formatting, tokenizer, sampler, decode failures) is the parameter `Env`; the
  fixed part of its API contract (position bookkeeping of the sequence memory,
  how the formatted chat is copied into the caller's buffer) is written out as
  definitions named after the API functions.
* Callbacks are recorded in `trace`, in call order, when the handler is bound.
  Timing values (duration, tokens per second) are floating point and left out.
-/

namespace LlamaCore

/-! ## Data model -/

/-- Role of a chat message (`EChatTemplateRole`). -/
inductive EChatTemplateRole where
  | User
  | Assistant
  | System
  | Unknown
deriving DecidableEq, Repr

/-- Token id (`llama_token`). -/
abbrev llama_token := Int

/-- The byte `'\0'`. -/
def NUL : Char := Char.ofNat 0

/-- Chat message handed to llama.cpp: role name and content, both C strings. -/
structure llama_chat_message where
  role : List Char
  content : List Char
deriving DecidableEq, Repr

/-- Live llama context: its size `n_ctx` and the tokens held by sequence 0 of its
memory, the token at list index `i` sitting at position `i`. -/
structure llama_context where
  n_ctx : Nat
  seq0 : List llama_token
deriving DecidableEq, Repr

/-- The fields of `FLLMModelAdvancedParams` the engine reads after sampler set-up,
and the two its wrapper reads for partial sentences.
`PromptProcessingPacingSleep` is a float in the source; only its comparison with
zero is used, so it is kept as a number of microseconds. -/
structure FLLMModelAdvancedParams where
  PromptProcessingPacingSleep : Nat := 0
  PromptProcessingPacingSplitN : Int := 4
  bUseCommonSampler : Bool := true
  bEmbeddingMode : Bool := false
  bEmitPartials : Bool := true
  PartialsSeparators : List (List Char) := []
deriving DecidableEq, Repr

/-- Chat template chosen by the caller (`FJinjaChatTemplate`). -/
structure FJinjaChatTemplate where
  TemplateSource : List Char := []
  Jinja : List Char := []
deriving DecidableEq, Repr

/-- The fields of `FLLMModelParams` the engine and its wrapper read (the sampling
values only configure the sampler, whose draws are part of `Env`). -/
structure FLLMModelParams where
  CustomChatTemplate : FJinjaChatTemplate := {}
  MaxContextLength : Int := 4096
  Advanced : FLLMModelAdvancedParams := {}
  SystemPrompt : List Char := "You are a helpful assistant.".toList
  bAutoInsertSystemPromptOnLoad : Bool := true
deriving DecidableEq, Repr

/-- One callback invocation. -/
inductive Event where
  | TokenGenerated (TokenPiece : List Char)
  | PromptProcessed (TokensProcessed : Int) (ForRole : EChatTemplateRole)
  | GenerationComplete (Response : List Char) (Tokens : Int)
  | Error (ErrorCode : Int)
deriving DecidableEq, Repr

/-- The engine object.  A handle field is `true` (or `some`) when the pointer is
non-null; a callback field is `true` when the `TFunction` is bound. -/
structure FLlamaInternal where
  LlamaModel : Bool := false
  Context : Option llama_context := none
  Sampler : Bool := false
  CommonSampler : Bool := false
  OnTokenGenerated : Bool := false
  OnPromptProcessed : Bool := false
  OnGenerationComplete : Bool := false
  OnError : Bool := false
  Messages : List llama_chat_message := []
  ContextHistory : List Char := []
  Template : List Char := []
  TemplateSource : List Char := []
  LastLoadedParams : FLLMModelParams := {}
  bIsModelLoaded : Bool := false
  FilledContextCharLength : Int := 0
  bGenerationActive : Bool := false
  trace : List Event := []
deriving DecidableEq, Repr

/-! ## The llama.cpp runtime -/

/-- What the chat formatter of llama.cpp produces for a template, a message list
and the add-assistant flag: the formatted text, whose length fits the `int32`
return value, or a failure, reported as the negative number `-(code + 1)`. -/
inductive ChatFormat where
  | text (formatted : List Char) (fits : formatted.length < 2 ^ 31)
  | failure (code : Nat)

/-- Open behaviour of the runtime and of the other threads.

* `chat_format tmpl chat add_ass`: formatting done by `llama_chat_apply_template`;
  `tmpl = none` is the null template pointer.
* `tokenize text add_special`: the tokens `llama_tokenize` yields.
* `vocab_is_eog`, `token_to_piece`: `llama_vocab_is_eog`, `common_token_to_piece`.
* `decode_fails cache batch`: `llama_decode` returns nonzero for this batch.
* `sample cache k`: the token drawn by the `k`-th sampling of a `Generate` call.
* `model_load_from_file`: `llama_model_load_from_file` returns a model.
* `init_from_model n`: `llama_init_from_model` asked for `n_ctx = n` fails
  (`none`) or returns a context, whose `llama_n_ctx` is the value given.
* `model_chat_template name`: `llama_model_chat_template(model, name)`; `none`
  as argument is the null name, `none` as result the null pointer.
* `stop_requested k`: another thread calls `StopGeneration` after the engine
  last wrote or read `bGenerationActive` and before the `k`-th evaluation of
  the loop condition of `Generate` (`k = 0` is the first evaluation, so
  `stop_requested (k + 1)` is a stop arriving during iteration `k`). -/
structure Env where
  chat_format : Option (List Char) → List llama_chat_message → Bool → ChatFormat
  tokenize : List Char → Bool → List llama_token
  vocab_is_eog : llama_token → Bool
  token_to_piece : llama_token → List Char
  decode_fails : List llama_token → List llama_token → Bool
  sample : List llama_token → Nat → llama_token
  stop_requested : Nat → Bool
  model_load_from_file : Bool
  init_from_model : Int → Option Nat
  model_chat_template : Option (List Char) → Option (List Char)

/-- Conversion of an `int32` to `size_t` (usual arithmetic conversions). -/
def size_t_of_int32 (i : Int) : Nat := (i % 2 ^ 64).toNat

/-- Conversion of a `size_t` to `int32` (two's complement truncation). -/
def int32_of_size_t (n : Nat) : Int := ((n : Int) + 2 ^ 31) % 2 ^ 32 - 2 ^ 31

/-- The value `std::vector<char>::max_size()`. -/
def vector_max_size : Nat := 2 ^ 63 - 1

/-- The call `std::vector<char>::resize(n)`: throws `std::length_error` above
`max_size()`, otherwise truncates or pads with zero bytes. -/
def vector_resize (v : List Char) (n : Nat) : Option (List Char) :=
  if n > vector_max_size then none
  else some (v.take n ++ List.replicate (n - v.length) NUL)

/-- The constructor `std::string(data + first, data + last)` on a buffer: the bytes
in `[first, last)`; the range has to lie inside the buffer. -/
def std_string (buf : List Char) (first last : Int) : Option (List Char) :=
  if 0 ≤ first ∧ first ≤ last ∧ last ≤ (buf.length : Int) then
    some ((buf.drop first.toNat).take (last - first).toNat)
  else none

/-- The call `std::string::substr(pos)`: throws `std::out_of_range` when
`pos > size()`. -/
def substr (str : List Char) (pos : Nat) : Option (List Char) :=
  if pos > str.length then none else some (str.drop pos)

/-- The C string `str.c_str()` as copied by `_strdup`: the bytes before the first
zero byte. -/
def c_str (str : List Char) : List Char := str.takeWhile (fun c => c != NUL)

/-- The copy `strncpy(buf, formatted, length)` with `length = buf.size()`: at most
`length` bytes of the text, the rest of the buffer zero filled. -/
def strncpy (buf formatted : List Char) : List Char :=
  (formatted ++ List.replicate (buf.length - formatted.length) NUL).take buf.length

/-- The API call `llama_chat_apply_template(tmpl, chat, n_msg, add_ass, buf, length)`
with `length = buf.size()`: returns the full length of the formatted chat and
copies what fits into the buffer; on failure returns the negative code and leaves
the buffer alone. -/
def llama_chat_apply_template (env : Env) (tmpl : Option (List Char))
    (chat : List llama_chat_message) (add_ass : Bool) (buf : List Char) : Int × List Char :=
  match env.chat_format tmpl chat add_ass with
  | ChatFormat.text formatted _ => ((formatted.length : Int), strncpy buf formatted)
  | ChatFormat.failure code => (-((code : Int) + 1), buf)

/-- The API call `llama_memory_seq_pos_max(mem, 0)`: the largest position present in
sequence 0, and `-1` when the sequence is empty. -/
def llama_memory_seq_pos_max (ctx : llama_context) : Int := (ctx.seq0.length : Int) - 1

/-- The API call `llama_memory_seq_rm(mem, 0, p0, -1)`: removes the positions in
`[p0, inf)`, a negative `p0` standing for `0`. -/
def llama_memory_seq_rm (ctx : llama_context) (p0 : Int) : llama_context :=
  { ctx with seq0 := ctx.seq0.take p0.toNat }

/-- The API call `llama_memory_clear(mem, false)`. -/
def llama_memory_clear (ctx : llama_context) : llama_context :=
  { ctx with seq0 := [] }

/-- The API call `llama_decode(ctx, llama_batch_get_one(tokens, n))`: `none` for a
nonzero return (the memory is left as it was), otherwise the batch is stored at
the positions following the last one. -/
def llama_decode (env : Env) (ctx : llama_context) (batch : List llama_token) :
    Option llama_context :=
  if env.decode_fails ctx.seq0 batch then none
  else some { ctx with seq0 := ctx.seq0 ++ batch }

/-! ## Member functions of `FLlamaInternal` -/

/-- Source: `FLlamaInternal::RoleForEnum`. -/
def RoleForEnum (Role : EChatTemplateRole) : List Char :=
  if Role = EChatTemplateRole.User then ['u', 's', 'e', 'r']
  else if Role = EChatTemplateRole.Assistant then
    ['a', 's', 's', 'i', 's', 't', 'a', 'n', 't']
  else if Role = EChatTemplateRole.System then ['s', 'y', 's', 't', 'e', 'm']
  else ['u', 'n', 'k', 'n', 'o', 'w', 'n']

/-- Source: `FLlamaInternal::EmitErrorMessage`; the log line is not modelled. -/
def EmitErrorMessage (s : FLlamaInternal) (ErrorCode : Int) : FLlamaInternal :=
  if s.OnError then { s with trace := s.trace ++ [Event.Error ErrorCode] } else s

/-- Source: `FLlamaInternal::StopGeneration`. -/
def StopGeneration (s : FLlamaInternal) : FLlamaInternal :=
  { s with bGenerationActive := false }

/-- Source: `FLlamaInternal::IsGenerating`. -/
def IsGenerating (s : FLlamaInternal) : Bool := s.bGenerationActive

/-- Source: `FLlamaInternal::IsModelLoaded`. -/
def IsModelLoaded (s : FLlamaInternal) : Bool := s.bIsModelLoaded

/-- Source: `FLlamaInternal::MaxContext`. -/
def MaxContext (s : FLlamaInternal) : Int :=
  match s.Context with
  | some ctx => (ctx.n_ctx : Int)
  | none => 0

/-- Source: `FLlamaInternal::UsedContext`. -/
def UsedContext (s : FLlamaInternal) : Int :=
  match s.Context with
  | some ctx => llama_memory_seq_pos_max ctx
  | none => 0

/-- Source: `FLlamaInternal::ApplyTemplateFromMessagesToBuffer`.  Returns the engine
(an error may have been emitted), the buffer and the returned length.  The probe
call passes `templatePtr` (null for an empty template), the second call passes
`InTemplate.c_str()`.  `NewLen > ToBuffer.size()` compares an `int32` with a
`size_t`, so `NewLen` is converted to `size_t`, and so it is for `resize`. -/
def ApplyTemplateFromMessagesToBuffer (env : Env) (s : FLlamaInternal)
    (InTemplate : List Char) (FromMessages : List llama_chat_message)
    (ToBuffer : List Char) (bAddAssistantBoS : Bool) :
    Option (FLlamaInternal × List Char × Int) :=
  let templatePtr : Option (List Char) :=
    if InTemplate.length = 0 then none else some InTemplate
  let r := llama_chat_apply_template env templatePtr FromMessages bAddAssistantBoS ToBuffer
  let NewLen := r.1
  let ToBuffer := r.2
  if size_t_of_int32 NewLen > ToBuffer.length then
    match vector_resize ToBuffer (size_t_of_int32 NewLen) with
    | none => none
    | some ToBuffer =>
      let r := llama_chat_apply_template env (some InTemplate) FromMessages
        bAddAssistantBoS ToBuffer
      some (s, r.2, r.1)
  else
    if NewLen < 0 then some (EmitErrorMessage s 101, ToBuffer, NewLen)
    else some (s, ToBuffer, NewLen)

/-- Source: `FLlamaInternal::ApplyTemplateToContextHistory`. -/
def ApplyTemplateToContextHistory (env : Env) (s : FLlamaInternal)
    (bAddAssistantBOS : Bool) : Option (FLlamaInternal × Int) :=
  match ApplyTemplateFromMessagesToBuffer env s s.Template s.Messages s.ContextHistory
      bAddAssistantBOS with
  | none => none
  | some (s, ToBuffer, NewLen) => some ({ s with ContextHistory := ToBuffer }, NewLen)

/-- Source: `FLlamaInternal::RollbackContextHistoryByTokens`. -/
def RollbackContextHistoryByTokens (s : FLlamaInternal) (NTokensToErase : Int) :
    Option FLlamaInternal :=
  match s.Context with
  | none => none
  | some ctx =>
    let TokensUsed := llama_memory_seq_pos_max ctx
    some { s with Context := some (llama_memory_seq_rm ctx (TokensUsed - NTokensToErase)) }

/-- Source: `FLlamaInternal::RollbackContextHistoryByMessages`. -/
def RollbackContextHistoryByMessages (env : Env) (s : FLlamaInternal)
    (NMessagesToErase : Int) : Option FLlamaInternal :=
  if !s.bIsModelLoaded then some s
  else
    let s := if IsGenerating s then StopGeneration s else s
    let s :=
      if size_t_of_int32 NMessagesToErase ≤ s.Messages.length then
        { s with Messages :=
            s.Messages.take (s.Messages.length - size_t_of_int32 NMessagesToErase) }
      else s
    match std_string s.ContextHistory 0 s.FilledContextCharLength with
    | none => none
    | some FullPrompt =>
      match ApplyTemplateToContextHistory env s false with
      | none => none
      | some (s, NewLen) =>
        match std_string s.ContextHistory 0 NewLen with
        | none => none
        | some FormattedPrompt =>
          match substr FullPrompt FormattedPrompt.length with
          | none => none
          | some PromptToRemove =>
            if !s.LlamaModel then none
            else
              let NPromptTokens : Int := ((env.tokenize PromptToRemove false).length : Int)
              match RollbackContextHistoryByTokens s NPromptTokens with
              | none => none
              | some s =>
                let s := { s with FilledContextCharLength := NewLen }
                match vector_resize s.ContextHistory
                    (size_t_of_int32 s.FilledContextCharLength) with
                | none => none
                | some ContextHistory => some { s with ContextHistory := ContextHistory }

/-- Source: `FLlamaInternal::ResetContextHistory`. -/
def ResetContextHistory (env : Env) (s : FLlamaInternal) (bKeepSystemsPrompt : Bool) :
    Option FLlamaInternal :=
  if !s.bIsModelLoaded then some s
  else
    let s := if IsGenerating s then StopGeneration s else s
    if bKeepSystemsPrompt then
      if s.Messages.length > 1 then
        RollbackContextHistoryByMessages env s (int32_of_size_t (s.Messages.length - 1))
      else some s
    else
      match s.Context with
      | none => none
      | some ctx =>
        some { s with
          ContextHistory := []
          Messages := []
          Context := some (llama_memory_clear ctx)
          FilledContextCharLength := 0 }

/-- The range constructor `std::vector<llama_token>(begin + first, begin + last)`;
the range has to lie inside the vector. -/
def vector_range (v : List llama_token) (first last : Int) : Option (List llama_token) :=
  if 0 ≤ first ∧ first ≤ last ∧ last ≤ (v.length : Int) then
    some ((v.drop first.toNat).take (last - first).toNat)
  else none

/-- How the paced loop of `ProcessPrompt` ends: it ran through all batches, or it
left the function with a return value. -/
inductive PacedExit where
  | done (s : FLlamaInternal)
  | returned (s : FLlamaInternal) (value : Int)

/-- The `for (int32 i = 0; i < BatchCount; i++)` loop of `ProcessPrompt`; the first
argument counts the iterations still to run.  In `NContextUsed +
BatchTokens.size() > NContext` the `size_t` operand makes the whole comparison
unsigned. -/
def ProcessPromptPaced (env : Env) (TokensPerBatch Remainder : Int)
    (PromptTokens : List llama_token) :
    Nat → Int → Int → FLlamaInternal → Option PacedExit
  | 0, _, _, s => some (PacedExit.done s)
  | n + 1, i, StartIndex, s =>
    let CurrentBatchSize : Int := TokensPerBatch + (if i < Remainder then 1 else 0)
    match vector_range PromptTokens StartIndex (StartIndex + CurrentBatchSize) with
    | none => none
    | some BatchTokens =>
      match s.Context with
      | none => none
      | some ctx =>
        let NContext : Int := (ctx.n_ctx : Int)
        let NContextUsed : Int := llama_memory_seq_pos_max ctx
        if (size_t_of_int32 NContextUsed + BatchTokens.length) % 2 ^ 64
            > size_t_of_int32 NContext then
          some (PacedExit.returned (EmitErrorMessage s 22) 0)
        else
          match llama_decode env ctx BatchTokens with
          | none =>
            some (PacedExit.returned (EmitErrorMessage s 23)
              (int32_of_size_t BatchTokens.length))
          | some ctx =>
            ProcessPromptPaced env TokensPerBatch Remainder PromptTokens n (i + 1)
              (StartIndex + CurrentBatchSize) { s with Context := some ctx }

/-- The tail of `ProcessPrompt` after the batches were decoded. -/
def ProcessPromptDone (s : FLlamaInternal) (NPromptTokens : Int)
    (Role : EChatTemplateRole) : FLlamaInternal × Int :=
  let s :=
    if s.OnPromptProcessed then
      { s with trace := s.trace ++ [Event.PromptProcessed NPromptTokens Role] }
    else s
  (s, NPromptTokens)

/-- Source: `FLlamaInternal::ProcessPrompt`.  The second `llama_tokenize` call gets a
buffer of exactly the size the first call asked for, so it returns that size
and the branch emitting error 21 is not taken.  `TotalTokens / BatchCount` is
the truncating C++ division and is undefined for a zero split count. -/
def ProcessPrompt (env : Env) (s : FLlamaInternal) (Prompt : List Char)
    (Role : EChatTemplateRole) : Option (FLlamaInternal × Int) :=
  if !s.LlamaModel then none
  else
    match s.Context with
    | none => none
    | some ctx =>
      let IsFirst : Bool := llama_memory_seq_pos_max ctx == 0
      let PromptTokens := env.tokenize Prompt IsFirst
      let NPromptTokens : Int := (PromptTokens.length : Int)
      if s.LastLoadedParams.Advanced.PromptProcessingPacingSleep = 0 then
        let NContext : Int := (ctx.n_ctx : Int)
        let NContextUsed : Int := llama_memory_seq_pos_max ctx
        if NContextUsed + NPromptTokens > NContext then
          some (EmitErrorMessage s 22, 0)
        else
          match llama_decode env ctx PromptTokens with
          | none => some (EmitErrorMessage s 23, NPromptTokens)
          | some ctx => some (ProcessPromptDone { s with Context := some ctx } NPromptTokens Role)
      else
        let BatchCount : Int := s.LastLoadedParams.Advanced.PromptProcessingPacingSplitN
        let TotalTokens : Int := (PromptTokens.length : Int)
        if BatchCount = 0 then none
        else
          let TokensPerBatch : Int := Int.tdiv TotalTokens BatchCount
          let Remainder : Int := Int.tmod TotalTokens BatchCount
          match ProcessPromptPaced env TokensPerBatch Remainder PromptTokens
              BatchCount.toNat 0 0 s with
          | none => none
          | some (PacedExit.returned s value) => some (s, value)
          | some (PacedExit.done s) => some (ProcessPromptDone s NPromptTokens Role)

/-- How the `while (bGenerationActive)` loop of `Generate` ends: the loop is left
(condition false, or `break` with `bEOGExit`), or the function returns from
inside the loop with the response so far, after emitting `ErrorCode` (31 for a
full context, 32 for a failed decode). -/
inductive LoopExit where
  | finished (s : FLlamaInternal) (Response : List Char) (NDecoded : Int) (bEOGExit : Bool)
  | returned (s : FLlamaInternal) (Response : List Char) (ErrorCode : Int)

/-- The `while (bGenerationActive)` loop of `Generate`.  The first argument is fuel,
`k` numbers the evaluation of the loop condition.  A stop requested by another
thread is applied where the engine next reads the flag (the loop condition) or
hands it back to its caller (the return on a full context). -/
def GenerateLoop (env : Env) (NContext NContextUsed : Int) :
    Nat → Nat → FLlamaInternal → List Char → Int → Option LoopExit
  | 0, _, _, _, _ => none
  | fuel + 1, k, s, Response, NDecoded =>
    let s := if env.stop_requested k then StopGeneration s else s
    if !s.bGenerationActive then some (LoopExit.finished s Response NDecoded false)
    else if !(s.CommonSampler || s.Sampler) then none
    else
      match s.Context with
      | none => none
      | some ctx =>
        let NewTokenId := env.sample ctx.seq0 k
        if env.vocab_is_eog NewTokenId then
          some (LoopExit.finished s Response NDecoded true)
        else
          let Piece := env.token_to_piece NewTokenId
          let Response := Response ++ Piece
          let NDecoded := NDecoded + 1
          if NContextUsed + NDecoded > NContext then
            let s := EmitErrorMessage s 31
            let s := if env.stop_requested (k + 1) then StopGeneration s else s
            some (LoopExit.returned s Response 31)
          else
            let s :=
              if s.OnTokenGenerated then
                { s with trace := s.trace ++ [Event.TokenGenerated Piece] }
              else s
            match llama_decode env ctx [NewTokenId] with
            | none =>
              let s := { s with bGenerationActive := false }
              some (LoopExit.returned (EmitErrorMessage s 32) Response 32)
            | some ctx =>
              GenerateLoop env NContext NContextUsed fuel (k + 1)
                { s with Context := some ctx } Response NDecoded

/-- The first part of `Generate`, up to the point where the loop is left or the
function returns from inside it.  The loop is run with fuel
`NContext - NContextUsed + 1`, which it never uses up (`GenerateLoop_fuel`). -/
def GenerateRun (env : Env) (s : FLlamaInternal) (Prompt : List Char) : Option LoopExit :=
  let s := { s with bGenerationActive := true }
  let processed : Option FLlamaInternal :=
    if Prompt.length ≠ 0 then
      match ProcessPrompt env s Prompt EChatTemplateRole.Unknown with
      | none => none
      | some (s, _) => some s
    else some s
  match processed with
  | none => none
  | some s =>
    if !s.LlamaModel then none
    else
      match s.Context with
      | none => none
      | some ctx =>
        let NContext : Int := (ctx.n_ctx : Int)
        let NContextUsed : Int := llama_memory_seq_pos_max ctx
        GenerateLoop env NContext NContextUsed ((NContext - NContextUsed).toNat + 1) 0 s [] 0

/-- The part of `Generate` after the loop was left. -/
def GenerateFinish (env : Env) (s : FLlamaInternal) (Response : List Char)
    (NDecoded : Int) (bAppendToMessageHistory : Bool) :
    Option (FLlamaInternal × List Char) :=
  let s := { s with bGenerationActive := false }
  let synced : Option FLlamaInternal :=
    if bAppendToMessageHistory then
      let s := { s with Messages := s.Messages ++
        [{ role := RoleForEnum EChatTemplateRole.Assistant, content := c_str Response }] }
      match ApplyTemplateToContextHistory env s false with
      | none => none
      | some (s, NewLen) => some { s with FilledContextCharLength := NewLen }
    else some s
  match synced with
  | none => none
  | some s =>
    let s :=
      if s.OnGenerationComplete then
        { s with trace := s.trace ++ [Event.GenerationComplete Response NDecoded] }
      else s
    some (s, Response)

/-- Source: `FLlamaInternal::Generate`. -/
def Generate (env : Env) (s : FLlamaInternal) (Prompt : List Char)
    (bAppendToMessageHistory : Bool) : Option (FLlamaInternal × List Char) :=
  match GenerateRun env s Prompt with
  | none => none
  | some (LoopExit.returned s Response _) => some (s, Response)
  | some (LoopExit.finished s Response NDecoded _) =>
    GenerateFinish env s Response NDecoded bAppendToMessageHistory

/-- Source: `FLlamaInternal::InsertTemplatedPrompt`. -/
def InsertTemplatedPrompt (env : Env) (s : FLlamaInternal) (Prompt : List Char)
    (Role : EChatTemplateRole) (bAddAssistantBoS : Bool) (bGenerateReply : Bool) :
    Option (FLlamaInternal × List Char) :=
  if !s.bIsModelLoaded then some (s, [])
  else
    let rendered : Option (FLlamaInternal × Int) :=
      if Prompt.length ≠ 0 then
        let s := { s with Messages := s.Messages ++
          [{ role := RoleForEnum Role, content := c_str Prompt }] }
        ApplyTemplateToContextHistory env s bAddAssistantBoS
      else some (s, s.FilledContextCharLength)
    match rendered with
    | none => none
    | some (s, NewLen) =>
      if NewLen < 0 then some (s, [])
      else
        let processed : Option FLlamaInternal :=
          if NewLen > 0 then
            match std_string s.ContextHistory s.FilledContextCharLength NewLen with
            | none => none
            | some FormattedPrompt =>
              match ProcessPrompt env s FormattedPrompt Role with
              | none => none
              | some (s, _) => some s
          else some s
        match processed with
        | none => none
        | some s =>
          let s := { s with FilledContextCharLength := NewLen }
          if bGenerateReply then Generate env s [] true
          else some (s, [])

/-- Source: `FLlamaInternal::InsertRawPrompt`.  On an unloaded engine the source
executes `return 0;`, which builds the returned `std::string` from a null
pointer; that does not return normally. -/
def InsertRawPrompt (env : Env) (s : FLlamaInternal) (Prompt : List Char)
    (bGenerateReply : Bool) : Option (FLlamaInternal × List Char) :=
  if !s.bIsModelLoaded then none
  else
    match ProcessPrompt env s Prompt EChatTemplateRole.Unknown with
    | none => none
    | some (s, _) =>
      let s := { s with ContextHistory := s.ContextHistory ++ Prompt }
      if bGenerateReply then
        match Generate env s [] false with
        | none => none
        | some (s, Response) =>
          some ({ s with ContextHistory := s.ContextHistory ++ Response }, [])
      else some (s, [])

/-- Source: `FLlamaInternal::ResumeGeneration`. -/
def ResumeGeneration (env : Env) (s : FLlamaInternal) :
    Option (FLlamaInternal × List Char) :=
  Generate env s [] true

/-- Source: `FLlamaInternal::UnloadModel`. -/
def UnloadModel (s : FLlamaInternal) : FLlamaInternal :=
  { s with
    Sampler := false
    Context := none
    LlamaModel := false
    CommonSampler := false
    ContextHistory := []
    bIsModelLoaded := false }

/-- The comparison of two `FString`s that ignores case: `FString::Equals(Other,
ESearchCase::IgnoreCase)`, and also `operator==` and `operator!=` of `FString`,
which compare with `Stricmp` (letters `A` to `Z` are folded to lower case). -/
def EqualsIgnoreCase (a b : List Char) : Bool :=
  a.map Char.toLower == b.map Char.toLower

/-- Source: `FLlamaInternal::LoadModelFromParams` (the regular initialisation; the
`common_init` branch is under `if (false)`).  Returns the engine and the
success flag. -/
def LoadModelFromParams (env : Env) (s : FLlamaInternal) (InModelParams : FLLMModelParams) :
    FLlamaInternal × Bool :=
  let s := { s with LastLoadedParams := InModelParams }
  let s := { s with LlamaModel := env.model_load_from_file }
  if !s.LlamaModel then (EmitErrorMessage s 10, false)
  else
    let s := { s with Context :=
      match env.init_from_model InModelParams.MaxContextLength with
      | none => none
      | some n => some { n_ctx := n, seq0 := [] } }
    if s.Context.isNone then (EmitErrorMessage s 11, false)
    else
      let s :=
        if !InModelParams.Advanced.bEmbeddingMode then
          let s :=
            if InModelParams.Advanced.bUseCommonSampler then { s with CommonSampler := true }
            else s
          { s with Sampler := true }
        else s
      let s := { s with
        Template := []
        TemplateSource := InModelParams.CustomChatTemplate.TemplateSource }
      let s :=
        if InModelParams.CustomChatTemplate.Jinja.length ≠ 0 then
          let s := { s with Template := InModelParams.CustomChatTemplate.Jinja }
          if InModelParams.CustomChatTemplate.TemplateSource.length = 0 then
            { s with TemplateSource := "Custom Jinja".toList }
          else s
        else if InModelParams.CustomChatTemplate.TemplateSource.length ≠ 0 ∧
            EqualsIgnoreCase InModelParams.CustomChatTemplate.TemplateSource
              "tokenizer.chat_template".toList = false then
          match env.model_chat_template (some InModelParams.CustomChatTemplate.TemplateSource) with
          | some TemplatePtr => { s with Template := TemplatePtr }
          | none => s
        else s
      let s :=
        if InModelParams.Advanced.bEmbeddingMode then
          { s with
            Template := []
            TemplateSource := "embedding mode, templates not used".toList }
        else if s.Template.length = 0 then
          match env.model_chat_template none with
          | some TemplatePtr =>
            { s with
              Template := TemplatePtr
              TemplateSource := "tokenizer.chat_template".toList }
          | none => s
        else s
      let s := { s with FilledContextCharLength := 0 }
      ({ s with bIsModelLoaded := true }, true)


/-! ## Specification side and a concrete runtime -/

/-- The runtime formats `chat` under template `InTemplate` to the text `t`, both for
the template pointer of the probe call of `ApplyTemplateFromMessagesToBuffer`
(null when the template is empty) and for the pointer of its second call. -/
def Renders (env : Env) (InTemplate : List Char) (chat : List llama_chat_message)
    (add_ass : Bool) (t : List Char) : Prop :=
  (∃ h, env.chat_format (if InTemplate.length = 0 then none else some InTemplate)
    chat add_ass = ChatFormat.text t h) ∧
  (∃ h, env.chat_format (some InTemplate) chat add_ass = ChatFormat.text t h)

/-- Spec side of the rendering claims: the length obtained by rendering a message
list from scratch, that is into a fresh empty buffer, with the active template. -/
def RenderFromScratch (env : Env) (s : FLlamaInternal) (chat : List llama_chat_message)
    (add_ass : Bool) : Option Int :=
  match ApplyTemplateFromMessagesToBuffer env s s.Template chat [] add_ass with
  | none => none
  | some (_, _, NewLen) => some NewLen

/-- Number of tokens held by sequence 0 of the context memory. -/
def CachedTokens (s : FLlamaInternal) : List llama_token :=
  match s.Context with
  | some ctx => ctx.seq0
  | none => []

/-- Text of a simple append-only chat format: every message contributes
`role:content;` and the assistant opening is `assistant:`. -/
def demo_render (chat : List llama_chat_message) (add_ass : Bool) : List Char :=
  (chat.map (fun m => m.role ++ [':'] ++ m.content ++ [';'])).flatten
    ++ (if add_ass then RoleForEnum EChatTemplateRole.Assistant ++ [':'] else [])

/-- A well-behaved runtime for the concrete evaluations: the chat format is
`demo_render` for every template, every character is one token, token 0 ends
the generation, the sampler replays `reply` and then draws token 0, another
thread requests stops as given by `stops`, and a decode fails exactly when the
memory would hold more than `cap` tokens. -/
def demo_env (reply : List llama_token) (stops : Nat → Bool) (cap : Nat) : Env where
  chat_format := fun _ chat add_ass =>
    if h : (demo_render chat add_ass).length < 2 ^ 31 then
      ChatFormat.text (demo_render chat add_ass) h
    else ChatFormat.failure 0
  tokenize := fun text _ => text.map (fun c => (c.toNat : Int))
  vocab_is_eog := fun t => t == 0
  token_to_piece := fun t => [Char.ofNat t.toNat]
  decode_fails := fun cache batch => decide (cap < cache.length + batch.length)
  sample := fun _ k => reply.getD k 0
  stop_requested := stops
  model_load_from_file := true
  init_from_model := fun n => some n.toNat
  model_chat_template := fun _ => some ['t']

/-- No stop request from another thread. -/
def no_stop : Nat → Bool := fun _ => false

/-- The runtime of the examples: the reply is `ok`, nobody stops the generation. -/
def demo : Env := demo_env [111, 107] no_stop 64

/-- The prompt `hello`. -/
def hello : List Char := ['h', 'e', 'l', 'l', 'o']

/-- A freshly constructed engine with all four callbacks bound. -/
def demo_fresh : FLlamaInternal :=
  { OnTokenGenerated := true, OnPromptProcessed := true, OnGenerationComplete := true,
    OnError := true }

/-- The engine after a successful load with a context of 64 positions. -/
def demo_loaded : FLlamaInternal :=
  (LoadModelFromParams demo (UnloadModel demo_fresh) { MaxContextLength := 64 }).1

/-- The engine after `hello` was inserted as User (assistant opening added, no reply). -/
def demo_inserted : FLlamaInternal :=
  match InsertTemplatedPrompt demo demo_loaded hello EChatTemplateRole.User true false with
  | some (s, _) => s
  | none => demo_loaded

/-- The engine after `hello` was inserted as User without assistant opening and
without reply. -/
def demo_inserted_plain : FLlamaInternal :=
  match InsertTemplatedPrompt demo demo_loaded hello EChatTemplateRole.User false false with
  | some (s, _) => s
  | none => demo_loaded

/-- The engine after `hello` was inserted as User and the reply `ok` was generated. -/
def demo_replied : FLlamaInternal :=
  match InsertTemplatedPrompt demo demo_loaded hello EChatTemplateRole.User true true with
  | some (s, _) => s
  | none => demo_loaded

/-- The engine `demo_replied` after a forced reload: `UnloadModel`, then
`LoadModelFromParams`, as `FLlamaNative::LoadModel` runs them. -/
def demo_reloaded : FLlamaInternal :=
  (LoadModelFromParams demo (UnloadModel demo_replied) { MaxContextLength := 64 }).1


/-- The engine after a successful load with a context of only 8 positions. -/
def demo_small : FLlamaInternal :=
  (LoadModelFromParams demo (UnloadModel demo_fresh) { MaxContextLength := 8 }).1

/-- The raw prompt `ab`. -/
def raw_ab : List Char := ['a', 'b']

/-- The raw prompt `0123456789`. -/
def raw_digits : List Char := ['0', '1', '2', '3', '4', '5', '6', '7', '8', '9']

/-- The engine loaded with 8 positions in paced mode (prompts split in 2 batches),
after the raw prompt `ab` was inserted: two positions of the cache are used. -/
def demo_paced : FLlamaInternal :=
  match InsertRawPrompt demo
      (LoadModelFromParams demo (UnloadModel demo_fresh)
        { MaxContextLength := 8,
          Advanced := { PromptProcessingPacingSleep := 1000,
                        PromptProcessingPacingSplitN := 2 } }).1
      raw_ab false with
  | some (s, _) => s
  | none => demo_fresh

/-- The engine the loop exit hands on. -/
def LoopExit.state : LoopExit → FLlamaInternal
  | LoopExit.finished s _ _ _ => s
  | LoopExit.returned s _ _ => s

/-- The fields of the engine other than the context handle, the callback trace and
the generation flag. -/
def conversation (s : FLlamaInternal) : FLlamaInternal :=
  { s with Context := none, trace := [], bGenerationActive := false }

/-- The invocations of the generation-complete callback recorded in a trace, each
with the response text and the token count it was given. -/
def completions : List Event → List (List Char × Int)
  | [] => []
  | Event.GenerationComplete Response Tokens :: rest => (Response, Tokens) :: completions rest
  | _ :: rest => completions rest

/-- The raw prompt `abcd`. -/
def raw_abcd : List Char := ['a', 'b', 'c', 'd']

/-- The engine after a successful load with a context of only 4 positions. -/
def demo_loaded_four : FLlamaInternal :=
  (LoadModelFromParams demo (UnloadModel demo_fresh) { MaxContextLength := 4 }).1

/-- The engine loaded with 4 positions after the raw prompt `abcd` was inserted:
the cache holds 4 tokens. -/
def demo_full : FLlamaInternal :=
  match InsertRawPrompt demo demo_loaded_four raw_abcd false with
  | some (s, _) => s
  | none => demo_fresh

/-- A stop request arriving during the first iteration (iteration 0) of the loop. -/
def stop_in_first : Nat → Bool := fun k => k == 1

/-- The runtime `demo` with a stop requested during the first iteration. -/
def demo_stopped : Env := demo_env [111, 107] stop_in_first 64

/-- The runtime with a stop requested during the first iteration and a memory of 4
cells, so that a decode into the full cache of `demo_full` fails. -/
def demo_stopped_tight : Env := demo_env [111, 107] stop_in_first 4

/-- The runtime `demo` with a memory of 4 cells: a decode into the full cache of
`demo_full` fails. -/
def demo_tight : Env := demo_env [111, 107] no_stop 4

/-- The runtime `demo` with a vocabulary whose token 0 is the byte token of the zero
byte and whose token 2 ends the generation; the sampler replays `a`, the zero
byte, `b` and then the end of generation. -/
def demo_nul : Env :=
  { demo_env [97, 0, 98, 2] no_stop 64 with vocab_is_eog := fun t => t == 2 }

/-- The engine the paced loop hands on. -/
def PacedExit.state : PacedExit → FLlamaInternal
  | PacedExit.done s => s
  | PacedExit.returned s _ => s

/-- The User message `hello`. -/
def hello_message : llama_chat_message :=
  { role := RoleForEnum EChatTemplateRole.User, content := hello }

/-- Whether the loop was left by the `break` on an end-of-generation token. -/
def LoopExit.bEOGExit : LoopExit → Bool
  | LoopExit.finished _ _ _ e => e
  | LoopExit.returned _ _ _ => false

/-- Spec side of the template selection at load time, in the words of the
priority order: embedding mode forces the empty template; otherwise the custom
text, then the template found under a source name that is not empty and is not
the string `tokenizer.chat_template`, then the default template embedded in
the model. -/
def TemplateAsClaimed (env : Env) (P : FLLMModelParams) : List Char :=
  if P.Advanced.bEmbeddingMode then []
  else if P.CustomChatTemplate.Jinja ≠ [] then P.CustomChatTemplate.Jinja
  else
    let named : Option (List Char) :=
      if P.CustomChatTemplate.TemplateSource ≠ [] ∧
          P.CustomChatTemplate.TemplateSource ≠ "tokenizer.chat_template".toList then
        env.model_chat_template (some P.CustomChatTemplate.TemplateSource)
      else none
    match named with
    | some t => t
    | none => (env.model_chat_template none).getD []

/-- Spec side of the template selection at load time with the two refinements:
the source name is compared with `tokenizer.chat_template` ignoring case, and a
template found under the name is used only when it is a non-empty text. -/
def TemplateByPriority (env : Env) (P : FLLMModelParams) : List Char :=
  if P.Advanced.bEmbeddingMode then []
  else if P.CustomChatTemplate.Jinja ≠ [] then P.CustomChatTemplate.Jinja
  else
    let named : List Char :=
      if P.CustomChatTemplate.TemplateSource ≠ [] ∧
          EqualsIgnoreCase P.CustomChatTemplate.TemplateSource
            "tokenizer.chat_template".toList = false then
        (env.model_chat_template (some P.CustomChatTemplate.TemplateSource)).getD []
      else []
    if named ≠ [] then named
    else (env.model_chat_template none).getD []

/-- Spec side of the buffer invariant: `0 <= FilledLength <= len(RenderedBuffer)`. -/
def FilledWithinBuffer (s : FLlamaInternal) : Prop :=
  0 ≤ s.FilledContextCharLength ∧ s.FilledContextCharLength ≤ (s.ContextHistory.length : Int)

instance (s : FLlamaInternal) : Decidable (FilledWithinBuffer s) := by
  unfold FilledWithinBuffer; infer_instance

/-- The runtime `demo` with a chat formatter that supports no template: every
call of `llama_chat_apply_template` reports `-1`. -/
def demo_unsupported : Env :=
  { demo with chat_format := fun _ _ _ => ChatFormat.failure 0 }

/-- A model file that carries the templates `d` (default), `n` (under the name
`tool_use`), `c` (under the name `Tokenizer.Chat_Template`) and the empty text
(under the name `blank`), and nothing else. -/
def demo_named : Env :=
  { demo with model_chat_template := fun name =>
      if name = none then some ['d']
      else if name = some "tool_use".toList then some ['n']
      else if name = some "Tokenizer.Chat_Template".toList then some ['c']
      else if name = some "blank".toList then some []
      else none }

/-! ## The wrapper `FLlamaNative`

`FLlamaNative` owns one `FLlamaInternal`, a queue of tasks for the background
thread and a queue of tasks for the game thread.  A task is a closure in the
source; here it is a value naming the place that builds the closure together
with what the closure captures.  Callbacks of the consumer are `Bool` fields
(`true` when bound) and every invocation is appended to `delivered`.  Timings
and speeds (floats) are left out. -/

/-- Open behaviour of the `FString` class of the engine: `Contains text sub` is
`text.Contains(sub)` and `TrimStartAndEnd` the method of that name. -/
structure FStringLib where
  Contains : List Char → List Char → Bool
  TrimStartAndEnd : List Char → List Char

/-- One message of the structured chat history (`FStructuredChatMessage`). -/
structure FStructuredChatMessage where
  Role : EChatTemplateRole := EChatTemplateRole.Assistant
  Content : List Char := []
deriving DecidableEq, Repr

/-- A prompt handed to the wrapper (`FLlamaChatPrompt`). -/
structure FLlamaChatPrompt where
  Prompt : List Char := []
  Role : EChatTemplateRole := EChatTemplateRole.User
  bAddAssistantBOS : Bool := false
  bGenerateReply : Bool := true
deriving DecidableEq, Repr

/-- The snapshot kept on the game thread (`FLLMModelState`); `ChatHistory` is the
array `ChatHistory.History`. -/
structure FLLMModelState where
  bModelIsLoaded : Bool := false
  ContextHistory : List Char := []
  ChatHistory : List FStructuredChatMessage := []
  ContextUsed : Int := 0
  LastRole : EChatTemplateRole := EChatTemplateRole.Unknown
  ChatTemplateInUse : FJinjaChatTemplate := {}
deriving DecidableEq, Repr

/-- The closures handed to `EnqueueBGTask`: by `LoadModel`, by
`InsertTemplatedPrompt` and by `SyncModelStateToInternal` (whose argument is the
used context its state update stores, `none` for a null update). -/
inductive BGTask where
  | LoadModel (ParamsAtLoad : FLLMModelParams) (ModelLoadedCallback : Bool)
  | InsertTemplatedPrompt (ThreadSafePrompt : FLlamaChatPrompt) (OnResponseFinished : Bool)
  | SyncModelState (AdditionalGTStateUpdates : Option Int)
deriving DecidableEq, Repr

/-- The closures handed to `EnqueueGTTask`: by the four listeners hooked to the
internal engine, by the sync action and by the two exits of the load task. -/
inductive GTTask where
  | TokenGenerated (Token : List Char) (Partial : List Char)
  | ResponseGenerated (ResponseString : List Char) (Partial : List Char)
  | PromptProcessed (TokensProcessed : Int) (RoleProcessed : EChatTemplateRole)
  | Error (ErrorCode : Int)
  | SyncModelState (ChatHistory : List FStructuredChatMessage) (ContextHistory : List Char)
      (AdditionalGTStateUpdates : Option Int)
  | ModelLoaded (TemplateString : List Char) (TemplateSource : List Char)
      (ModelLoadedCallback : Bool)
  | ModelLoadFailed (ModelLoadedCallback : Bool)
deriving DecidableEq, Repr

/-- A queued task (`FLLMThreadTask`). -/
structure FLLMThreadTask (α : Type) where
  TaskId : Int
  TaskFunction : α
deriving DecidableEq, Repr

/-- One invocation of a callback of the consumer of `FLlamaNative`. -/
inductive NativeEvent where
  | TokenGenerated (Token : List Char)
  | PartialGenerated (Partial : List Char)
  | ResponseGenerated (Response : List Char)
  | PromptProcessed (TokensProcessed : Int) (ForRole : EChatTemplateRole)
  | Error (ErrorCode : Int)
  | ModelStateChanged (UpdatedModelState : FLLMModelState)
  | ModelLoadedCallback (StatusCode : Int)
deriving DecidableEq, Repr

/-- The wrapper object.  `Internal` is the engine it owns, with the four listeners
its constructor hooks up.  `ThreadsStarted` counts the threads spawned by
`StartLLMThread`. -/
structure FLlamaNative where
  OnTokenGenerated : Bool := false
  OnPartialGenerated : Bool := false
  OnResponseGenerated : Bool := false
  OnPromptProcessed : Bool := false
  OnError : Bool := false
  OnModelStateChanged : Bool := false
  ModelParams : FLLMModelParams := {}
  ModelState : FLLMModelState := {}
  bModelLoadInitiated : Bool := false
  ImpersonationTokenCount : Int := 0
  CombinedPieceText : List Char := []
  CombinedTextOnPartialEmit : List Char := []
  BackgroundTasks : List (FLLMThreadTask BGTask) := []
  GameThreadTasks : List (FLLMThreadTask GTTask) := []
  bThreadIsActive : Bool := false
  bThreadShouldRun : Bool := false
  TaskIdCounter : Int := 0
  Internal : FLlamaInternal :=
    { OnTokenGenerated := true, OnPromptProcessed := true, OnGenerationComplete := true,
      OnError := true }
  ThreadsStarted : Nat := 0
  delivered : List NativeEvent := []
deriving DecidableEq, Repr

/-- Source: `FLlamaString::ToUE`; the conversion reads the C string. -/
def ToUE (String : List Char) : List Char := c_str String

/-- Source: `FLlamaString::ToStd`; the conversion reads the C string. -/
def ToStd (String : List Char) : List Char := c_str String

/-- Source: `FLlamaString::IsSentenceEndingPunctuation`. -/
def IsSentenceEndingPunctuation (C : Char) : Bool :=
  C == '.' || C == '!' || C == '?'

/-- The two loops of `GetLastSentence`, which walk down from index `bound - 1` to
index 0 and stop at the first sentence-ending punctuation. -/
def LastPunctuationBelow (InputString : List Char) : Nat → Option Nat
  | 0 => none
  | i + 1 =>
    if IsSentenceEndingPunctuation (InputString.getD i ' ') then some i
    else LastPunctuationBelow InputString i

/-- Source: `FLlamaString::GetLastSentence`. -/
def GetLastSentence (lib : FStringLib) (InputString : List Char) : List Char :=
  match LastPunctuationBelow InputString InputString.length with
  | none => InputString
  | some LastPunctuationIndex =>
    let StartIndex : Nat :=
      match LastPunctuationBelow InputString LastPunctuationIndex with
      | none => 0
      | some PrecedingPunctuationIndex => PrecedingPunctuationIndex + 1
    lib.TrimStartAndEnd
      ((InputString.drop StartIndex).take (LastPunctuationIndex - StartIndex + 1))

/-- A consumer callback is invoked. -/
def FLlamaNative.call (n : FLlamaNative) (e : NativeEvent) : FLlamaNative :=
  { n with delivered := n.delivered ++ [e] }

/-- Source: `FLlamaNative::StartLLMThread`: sets `bThreadShouldRun` and spawns a
thread; the body of the thread runs later. -/
def FLlamaNative.StartLLMThread (n : FLlamaNative) : FLlamaNative :=
  { n with bThreadShouldRun := true, ThreadsStarted := n.ThreadsStarted + 1 }

/-- The first statement a thread spawned by `StartLLMThread` executes:
`bThreadIsActive = true`. -/
def FLlamaNative.LLMThreadEntry (n : FLlamaNative) : FLlamaNative :=
  { n with bThreadIsActive := true }

/-- Source: `FLlamaNative::GetNextTaskId`. -/
def FLlamaNative.GetNextTaskId (n : FLlamaNative) : FLlamaNative × Int :=
  ({ n with TaskIdCounter := n.TaskIdCounter + 1 }, n.TaskIdCounter + 1)

/-- Source: `FLlamaNative::EnqueueBGTask`. -/
def FLlamaNative.EnqueueBGTask (n : FLlamaNative) (TaskFunction : BGTask) : FLlamaNative :=
  let n := if !n.bThreadIsActive then n.StartLLMThread else n
  let r := n.GetNextTaskId
  { r.1 with BackgroundTasks :=
      r.1.BackgroundTasks ++ [{ TaskId := r.2, TaskFunction := TaskFunction }] }

/-- Source: `FLlamaNative::EnqueueGTTask`. -/
def FLlamaNative.EnqueueGTTask (n : FLlamaNative) (TaskFunction : GTTask)
    (LinkedTaskId : Int) : FLlamaNative :=
  let r := if LinkedTaskId = -1 then n.GetNextTaskId else (n, LinkedTaskId)
  { r.1 with GameThreadTasks :=
      r.1.GameThreadTasks ++ [{ TaskId := r.2, TaskFunction := TaskFunction }] }

/-- Source: `FLlamaNative::IsModelLoaded`. -/
def FLlamaNative.IsModelLoaded (n : FLlamaNative) : Bool :=
  LlamaCore.IsModelLoaded n.Internal

/-- Source: `FLlamaNative::IsGenerating`. -/
def FLlamaNative.IsGenerating (n : FLlamaNative) : Bool :=
  LlamaCore.IsGenerating n.Internal

/-- Source: `FLlamaNative::UsedContextLength`. -/
def FLlamaNative.UsedContextLength (n : FLlamaNative) : Int :=
  UsedContext n.Internal

/-- Source: `FLlamaNative::RawContextHistory`: the returned length and the string
written to `OutContextString`, which is the part of the buffer before its first
zero byte. -/
def FLlamaNative.RawContextHistory (n : FLlamaNative) (OutContextString : List Char) :
    Int × List Char :=
  if n.IsGenerating then (-1, OutContextString)
  else if n.Internal.ContextHistory.length = 0 then (0, OutContextString)
  else
    (((c_str n.Internal.ContextHistory).length : Int), c_str n.Internal.ContextHistory)

/-- Source: `FLlamaNative::GetStructuredChatHistory`: the history written to
`OutChatHistory`. -/
def FLlamaNative.GetStructuredChatHistory (n : FLlamaNative)
    (OutChatHistory : List FStructuredChatMessage) : List FStructuredChatMessage :=
  if n.IsGenerating then OutChatHistory
  else
    n.Internal.Messages.map (fun Msg =>
      let RoleStr := c_str Msg.role
      { Role :=
          if EqualsIgnoreCase RoleStr "system".toList then EChatTemplateRole.System
          else if EqualsIgnoreCase RoleStr "user".toList then EChatTemplateRole.User
          else if EqualsIgnoreCase RoleStr "assistant".toList then EChatTemplateRole.Assistant
          else EChatTemplateRole.Assistant
        Content := c_str Msg.content })

/-- The closure `BGSyncAction` of `SyncModelStateToInternal`. -/
def FLlamaNative.BGSyncAction (n : FLlamaNative) (AdditionalGTStateUpdates : Option Int)
    (TaskId : Int) : FLlamaNative :=
  let ChatHistory := n.GetStructuredChatHistory []
  let ContextHistory := (n.RawContextHistory []).2
  n.EnqueueGTTask (GTTask.SyncModelState ChatHistory ContextHistory AdditionalGTStateUpdates)
    TaskId

/-- Source: `FLlamaNative::SyncModelStateToInternal`; `bIsInGameThread` is the value
of `IsInGameThread()`. -/
def FLlamaNative.SyncModelStateToInternal (n : FLlamaNative) (bIsInGameThread : Bool)
    (AdditionalGTStateUpdates : Option Int) : FLlamaNative :=
  if bIsInGameThread then n.EnqueueBGTask (BGTask.SyncModelState AdditionalGTStateUpdates)
  else
    let r := n.GetNextTaskId
    r.1.BGSyncAction AdditionalGTStateUpdates r.2

/-- The listener the constructor hooks to `Internal->OnTokenGenerated`. -/
def FLlamaNative.InternalOnTokenGenerated (lib : FStringLib) (n : FLlamaNative)
    (TokenPiece : List Char) : FLlamaNative :=
  let Token := ToUE TokenPiece
  let n := { n with CombinedPieceText := n.CombinedPieceText ++ Token }
  let Partial : List Char :=
    if n.ModelParams.Advanced.bEmitPartials then
      let bSplitFound :=
        n.ModelParams.Advanced.PartialsSeparators.any (fun Separator => lib.Contains Token Separator)
      if bSplitFound then GetLastSentence lib n.CombinedPieceText else []
    else []
  let n :=
    if n.ModelParams.Advanced.bEmitPartials ∧ Partial.length ≠ 0 then
      { n with CombinedTextOnPartialEmit := n.CombinedPieceText }
    else n
  if n.OnTokenGenerated then n.EnqueueGTTask (GTTask.TokenGenerated Token Partial) (-1)
  else n

/-- The listener the constructor hooks to `Internal->OnGenerationComplete`. -/
def FLlamaNative.InternalOnGenerationComplete (lib : FStringLib) (n : FLlamaNative)
    (Response : List Char) : FLlamaNative :=
  let UsedContext := n.UsedContextLength
  let n := n.SyncModelStateToInternal false (some UsedContext)
  let Partial : List Char :=
    if n.ModelParams.Advanced.bEmitPartials ∧
        n.CombinedTextOnPartialEmit.length ≠ n.CombinedPieceText.length then
      GetLastSentence lib n.CombinedPieceText
    else []
  let n := { n with CombinedPieceText := [], CombinedTextOnPartialEmit := [] }
  let ResponseString := ToUE Response
  n.EnqueueGTTask (GTTask.ResponseGenerated ResponseString Partial) (-1)

/-- The listener the constructor hooks to `Internal->OnPromptProcessed`. -/
def FLlamaNative.InternalOnPromptProcessed (n : FLlamaNative) (TokensProcessed : Int)
    (RoleProcessed : EChatTemplateRole) : FLlamaNative :=
  let UsedContext := n.UsedContextLength
  let n := n.SyncModelStateToInternal false (some UsedContext)
  n.EnqueueGTTask (GTTask.PromptProcessed TokensProcessed RoleProcessed) (-1)

/-- The listener the constructor hooks to `Internal->OnError`. -/
def FLlamaNative.InternalOnError (n : FLlamaNative) (ErrorCode : Int) : FLlamaNative :=
  n.EnqueueGTTask (GTTask.Error ErrorCode) (-1)

/-- The listener that one callback invocation of the internal engine runs. -/
def FLlamaNative.InternalCallback (lib : FStringLib) (n : FLlamaNative) : Event → FLlamaNative
  | Event.TokenGenerated TokenPiece => n.InternalOnTokenGenerated lib TokenPiece
  | Event.PromptProcessed TokensProcessed ForRole =>
    n.InternalOnPromptProcessed TokensProcessed ForRole
  | Event.GenerationComplete Response _ => n.InternalOnGenerationComplete lib Response
  | Event.Error ErrorCode => n.InternalOnError ErrorCode

/-- The wrapper after a call into the internal engine that left the engine in
state `after`: the listeners run, in order, for the callbacks invoked during the
call.  The two listeners that read the engine find the state the call left,
which is the state at the time of the callback where the call writes neither
the messages, the buffer, the context memory nor the generation flag after it
(so for the calls of the load task). -/
def FLlamaNative.Listen (lib : FStringLib) (n : FLlamaNative) (after : FLlamaInternal) :
    FLlamaNative :=
  (after.trace.drop n.Internal.trace.length).foldl (fun n e => n.InternalCallback lib e)
    { n with Internal := after }

/-- Source: `FLlamaNative::LoadModel`, run on the game thread; `ModelLoadedCallback`
tells whether the callback is bound.  Invoking an unbound callback does not
return. -/
def FLlamaNative.LoadModel (n : FLlamaNative) (bForceReload : Bool)
    (ModelLoadedCallback : Bool) : Option FLlamaNative :=
  if n.IsModelLoaded && !bForceReload then
    if ModelLoadedCallback then some (n.call (NativeEvent.ModelLoadedCallback 0)) else none
  else
    let n := { n with bModelLoadInitiated := true }
    let ParamsAtLoad := n.ModelParams
    some (n.EnqueueBGTask (BGTask.LoadModel ParamsAtLoad ModelLoadedCallback))

/-- The closure `LoadModel` enqueues for the background thread, run with task id
`TaskId`. -/
def FLlamaNative.LoadModelTask (env : Env) (lib : FStringLib) (n : FLlamaNative)
    (ParamsAtLoad : FLLMModelParams) (ModelLoadedCallback : Bool) (TaskId : Int) :
    Option FLlamaNative :=
  let n := n.Listen lib (UnloadModel n.Internal)
  let r := LoadModelFromParams env n.Internal ParamsAtLoad
  let n := n.Listen lib r.1
  let bSuccess := r.2
  if bSuccess then
    let TemplateString := ToUE n.Internal.Template
    let TemplateSource := ToUE n.Internal.TemplateSource
    let inserted : Option FLlamaNative :=
      if ParamsAtLoad.bAutoInsertSystemPromptOnLoad then
        match InsertTemplatedPrompt env n.Internal (ToStd ParamsAtLoad.SystemPrompt)
            EChatTemplateRole.System false false with
        | none => none
        | some r => some (n.Listen lib r.1)
      else some n
    match inserted with
    | none => none
    | some n =>
      some (n.EnqueueGTTask
        (GTTask.ModelLoaded TemplateString TemplateSource ModelLoadedCallback) TaskId)
  else
    some (n.EnqueueGTTask (GTTask.ModelLoadFailed ModelLoadedCallback) TaskId)

/-- The bodies of the closures handed to `EnqueueGTTask`, run on the game thread. -/
def FLlamaNative.RunGTTask (n : FLlamaNative) : GTTask → FLlamaNative
  | GTTask.TokenGenerated Token Partial =>
    let n := if n.OnTokenGenerated then n.call (NativeEvent.TokenGenerated Token) else n
    if n.OnPartialGenerated ∧ Partial.length ≠ 0 then
      n.call (NativeEvent.PartialGenerated Partial)
    else n
  | GTTask.ResponseGenerated ResponseString Partial =>
    let n :=
      if n.OnPartialGenerated ∧ Partial.length ≠ 0 then
        n.call (NativeEvent.PartialGenerated Partial)
      else n
    if n.OnResponseGenerated then n.call (NativeEvent.ResponseGenerated ResponseString) else n
  | GTTask.PromptProcessed TokensProcessed RoleProcessed =>
    if n.OnPromptProcessed then
      n.call (NativeEvent.PromptProcessed TokensProcessed RoleProcessed)
    else n
  | GTTask.Error ErrorCode =>
    if n.OnError then n.call (NativeEvent.Error ErrorCode) else n
  | GTTask.SyncModelState ChatHistory ContextHistory AdditionalGTStateUpdates =>
    let n := { n with ModelState :=
      { n.ModelState with ChatHistory := ChatHistory, ContextHistory := ContextHistory } }
    let n :=
      match n.ModelState.ChatHistory.getLast? with
      | some Last => { n with ModelState := { n.ModelState with LastRole := Last.Role } }
      | none => n
    let n :=
      match AdditionalGTStateUpdates with
      | some UsedContext => { n with ModelState := { n.ModelState with ContextUsed := UsedContext } }
      | none => n
    if n.OnModelStateChanged then n.call (NativeEvent.ModelStateChanged n.ModelState) else n
  | GTTask.ModelLoaded TemplateString TemplateSource ModelLoadedCallback =>
    let ChatTemplate : FJinjaChatTemplate :=
      { TemplateSource := TemplateSource, Jinja := TemplateString }
    let n := { n with ModelState :=
      { n.ModelState with ChatTemplateInUse := ChatTemplate, bModelIsLoaded := true } }
    let n := { n with bModelLoadInitiated := false }
    let n :=
      if n.OnModelStateChanged then n.call (NativeEvent.ModelStateChanged n.ModelState) else n
    if ModelLoadedCallback then n.call (NativeEvent.ModelLoadedCallback 0) else n
  | GTTask.ModelLoadFailed ModelLoadedCallback =>
    let n := { n with bModelLoadInitiated := false }
    if ModelLoadedCallback then n.call (NativeEvent.ModelLoadedCallback 15) else n

/-- Source: `FLlamaNative::OnGameThreadTick`: runs the queued game-thread tasks in
the order they were enqueued. -/
def FLlamaNative.OnGameThreadTick (n : FLlamaNative) : FLlamaNative :=
  n.GameThreadTasks.foldl (fun n Task => n.RunGTTask Task.TaskFunction)
    { n with GameThreadTasks := [] }

/-- Source: `FLlamaNative::InsertTemplatedPrompt`, run on the game thread. -/
def FLlamaNative.InsertTemplatedPrompt (n : FLlamaNative) (Prompt : FLlamaChatPrompt)
    (OnResponseFinished : Bool) : FLlamaNative :=
  if !n.IsModelLoaded && !n.bModelLoadInitiated then n
  else
    let ThreadSafePrompt := Prompt
    n.EnqueueBGTask (BGTask.InsertTemplatedPrompt ThreadSafePrompt OnResponseFinished)

/-- Source: `FLlamaNative::ImpersonateTemplatedPrompt`. -/
def FLlamaNative.ImpersonateTemplatedPrompt (n : FLlamaNative) (Prompt : FLlamaChatPrompt) :
    FLlamaNative :=
  if n.IsModelLoaded then
    let ModifiedPrompt := { Prompt with bGenerateReply := false }
    n.InsertTemplatedPrompt ModifiedPrompt false
  else
    let Message : FStructuredChatMessage := { Role := Prompt.Role, Content := Prompt.Prompt }
    let n := { n with ModelState :=
      { n.ModelState with ChatHistory := n.ModelState.ChatHistory ++ [Message] } }
    let n :=
      if n.OnModelStateChanged then n.call (NativeEvent.ModelStateChanged n.ModelState) else n
    if Message.Role = EChatTemplateRole.Assistant then
      if n.OnResponseGenerated then n.call (NativeEvent.ResponseGenerated Prompt.Prompt) else n
    else n

/-- First part of `FLlamaNative::ImpersonateTemplatedToken`: the token starts a new
message or extends the last one; returns the wrapper and `CurrentReplyText`. -/
def FLlamaNative.ImpersonatedMessage (n : FLlamaNative) (Token : List Char)
    (Role : EChatTemplateRole) : FLlamaNative × List Char :=
  let bLastRoleWasMatchingRole : Bool :=
    match n.ModelState.ChatHistory.getLast? with
    | some Message => Message.Role == Role
    | none => false
  if !bLastRoleWasMatchingRole then
    let Message : FStructuredChatMessage := { Role := Role, Content := Token }
    ({ n with
        ModelState := { n.ModelState with ChatHistory := n.ModelState.ChatHistory ++ [Message] }
        ImpersonationTokenCount := 1 },
      Token)
  else
    match n.ModelState.ChatHistory.getLast? with
    | some Message =>
      let Message := { Message with Content := Message.Content ++ Token }
      ({ n with
          ModelState := { n.ModelState with
            ChatHistory := n.ModelState.ChatHistory.dropLast ++ [Message] }
          ImpersonationTokenCount := n.ImpersonationTokenCount + 1 },
        Message.Content)
    | none => (n, [])

/-- Second part of `FLlamaNative::ImpersonateTemplatedToken`: the partial sentence
and the token callbacks. -/
def FLlamaNative.ImpersonatedTokenCallbacks (lib : FStringLib) (n : FLlamaNative)
    (Token : List Char) (CurrentReplyText : List Char) : FLlamaNative :=
  let Partial : List Char :=
    if n.ModelParams.Advanced.bEmitPartials then
      let bSplitFound :=
        n.ModelParams.Advanced.PartialsSeparators.any (fun Separator => lib.Contains Token Separator)
      if bSplitFound then GetLastSentence lib CurrentReplyText else []
    else []
  if n.OnTokenGenerated then
    let n := n.call (NativeEvent.TokenGenerated Token)
    if n.OnPartialGenerated ∧ Partial.length ≠ 0 then
      n.call (NativeEvent.PartialGenerated Partial)
    else n
  else n

/-- Last part of `FLlamaNative::ImpersonateTemplatedToken`, run when `bEoS` is set:
the state change and the response callback. -/
def FLlamaNative.ImpersonatedEndOfStream (n : FLlamaNative) (CurrentReplyText : List Char) :
    FLlamaNative :=
  let n := { n with ImpersonationTokenCount := 0 }
  let n := { n with ModelState := { n.ModelState with LastRole := EChatTemplateRole.Assistant } }
  let n :=
    if n.OnModelStateChanged then n.call (NativeEvent.ModelStateChanged n.ModelState) else n
  if n.OnResponseGenerated then n.call (NativeEvent.ResponseGenerated CurrentReplyText) else n

/-- Source: `FLlamaNative::ImpersonateTemplatedToken`. -/
def FLlamaNative.ImpersonateTemplatedToken (lib : FStringLib) (n : FLlamaNative)
    (Token : List Char) (Role : EChatTemplateRole) (bEoS : Bool) : FLlamaNative :=
  let r := n.ImpersonatedMessage Token Role
  let n := r.1.ImpersonatedTokenCallbacks lib Token r.2
  if bEoS then n.ImpersonatedEndOfStream r.2 else n

/-- A runtime whose model file cannot be loaded. -/
def demo_no_model : Env := { demo with model_load_from_file := false }

/-- A runtime whose model loads but whose context cannot be created. -/
def demo_no_context : Env := { demo with init_from_model := fun _ => none }

/-- A string library for the examples: `Contains` looks for the text at every
offset, `TrimStartAndEnd` drops the blanks at both ends. -/
def demo_lib : FStringLib where
  Contains := fun text sub => (List.range (text.length + 1)).any (fun i => sub.isPrefixOf (text.drop i))
  TrimStartAndEnd := fun t =>
    ((t.dropWhile (fun c => c == ' ')).reverse.dropWhile (fun c => c == ' ')).reverse

/-- A freshly constructed wrapper whose consumer has bound every callback. -/
def native_fresh : FLlamaNative :=
  { OnTokenGenerated := true, OnPartialGenerated := true, OnResponseGenerated := true,
    OnPromptProcessed := true, OnError := true, OnModelStateChanged := true }

/-- The wrapper after `LoadModel` was called with a bound callback, the worker
thread started and ran the load task on `demo`, and the game thread ticked. -/
def native_loaded : FLlamaNative :=
  match native_fresh.LoadModel false true with
  | none => native_fresh
  | some n =>
    let n := n.LLMThreadEntry
    match n.BackgroundTasks with
    | [] => native_fresh
    | Task :: rest =>
      match FLlamaNative.LoadModelTask demo demo_lib { n with BackgroundTasks := rest }
          n.ModelParams true Task.TaskId with
      | none => native_fresh
      | some n => n.OnGameThreadTick

/-- The wrapper after `LoadModel` was called with a bound callback, the worker
thread started, took the load task from its queue and ran it on a runtime whose
model file cannot be loaded. -/
def native_load_failed : Option FLlamaNative :=
  match native_fresh.LoadModel false true with
  | none => none
  | some n =>
    let n := n.LLMThreadEntry
    match n.BackgroundTasks with
    | [] => none
    | Task :: rest =>
      FLlamaNative.LoadModelTask demo_no_model demo_lib { n with BackgroundTasks := rest }
        n.ModelParams true Task.TaskId

/-- The text handed to the per-token callback, in call order: the concatenation of
the pieces of the `TokenGenerated` events of a trace. -/
def streamed : List Event → List Char
  | [] => []
  | Event.TokenGenerated TokenPiece :: rest => TokenPiece ++ streamed rest
  | _ :: rest => streamed rest

/-- The runtime `demo` with the formatter of llama.cpp for template names: the null
template pointer selects the built-in default format, the empty template string
names no known format and is answered with `-1`. -/
def demo_chatml : Env :=
  { demo with chat_format := fun tmpl chat add_ass =>
      if tmpl = some [] then ChatFormat.failure 0
      else demo.chat_format tmpl chat add_ass }

/-- The texts handed to the partial callback of the consumer, in call order. -/
def partials : List NativeEvent → List (List Char)
  | [] => []
  | NativeEvent.PartialGenerated Partial :: rest => Partial :: partials rest
  | _ :: rest => partials rest

/-- Source: `FLlamaNative::SetModelParams`. -/
def FLlamaNative.SetModelParams (n : FLlamaNative) (Params : FLLMModelParams) : FLlamaNative :=
  { n with ModelParams := Params }

/-- The loaded wrapper with the separators `.`, `?`, `!` that `LlamaComponent` and
`LlamaSubsystem` configure. -/
def native_partials : FLlamaNative :=
  native_loaded.SetModelParams { Advanced := { PartialsSeparators := [['.'], ['?'], ['!']] } }

/-- The wrapper `native_partials` after the background thread generated the pieces
`Hi.` and ` How are` and completed with the response `Hi. How are`: the two
token listeners and the completion listener have run. -/
def native_generated : FLlamaNative :=
  ((native_partials.InternalOnTokenGenerated demo_lib ['H', 'i', '.']).InternalOnTokenGenerated
    demo_lib [' ', 'H', 'o', 'w', ' ', 'a', 'r', 'e']).InternalOnGenerationComplete demo_lib
    ['H', 'i', '.', ' ', 'H', 'o', 'w', ' ', 'a', 'r', 'e']

/-- Spec side of the paced split: the sizes of the sub-batches number `i`, `i + 1`,
..., `i + n - 1` when every sub-batch has `q` tokens and the first `r` of them
one more. -/
def PacedSizes (q r : Nat) : Nat → Nat → List Nat
  | 0, _ => []
  | n + 1, i => (q + if i < r then 1 else 0) :: PacedSizes q r n (i + 1)

/-- Spec side of the paced split: a token sequence cut into consecutive pieces of
the given sizes. -/
def SplitBySizes (tokens : List llama_token) : List Nat → List (List llama_token)
  | [] => []
  | k :: ks => tokens.take k :: SplitBySizes (tokens.drop k) ks

/-- Spec side of the paced split: the `N` sub-batches of a prompt of `T` tokens,
`T / N` tokens each and one more in the first `T % N`. -/
def PacedBatches (tokens : List llama_token) (N : Nat) : List (List llama_token) :=
  SplitBySizes tokens (PacedSizes (tokens.length / N) (tokens.length % N) N 0)

/-- Spec side of the paced split: the given batches are submitted in order, each
after the context check of the paced loop; a failed check or decode ends the
submission with the return value of `ProcessPrompt`. -/
def SubmitBatches (env : Env) : List (List llama_token) → FLlamaInternal → Option PacedExit
  | [], s => some (PacedExit.done s)
  | BatchTokens :: rest, s =>
    match s.Context with
    | none => none
    | some ctx =>
      if (size_t_of_int32 (llama_memory_seq_pos_max ctx) + BatchTokens.length) % 2 ^ 64
          > size_t_of_int32 (ctx.n_ctx : Int) then
        some (PacedExit.returned (EmitErrorMessage s 22) 0)
      else
        match llama_decode env ctx BatchTokens with
        | none =>
          some (PacedExit.returned (EmitErrorMessage s 23)
            (int32_of_size_t BatchTokens.length))
        | some ctx => SubmitBatches env rest { s with Context := some ctx }

/-- Spec side of `FString::TrimStartAndEnd`: the characters `ws` holds for are
dropped at both ends. -/
def TrimWhitespace (ws : Char → Bool) (x : List Char) : List Char :=
  ((x.dropWhile ws).reverse.dropWhile ws).reverse

/-! ## Lemmas -/

theorem size_t_of_int32_natCast (n : Nat) (h : n < 2 ^ 64) :
    size_t_of_int32 (n : Int) = n := by
  unfold size_t_of_int32
  have h2 : ((n : Int)) % 2 ^ 64 = (n : Int) :=
    Int.emod_eq_of_lt (by omega) (by exact_mod_cast h)
  rw [h2]
  simp

theorem strncpy_length (buf t : List Char) : (strncpy buf t).length = buf.length := by
  unfold strncpy
  simp
  omega

theorem strncpy_of_le (buf t : List Char) (h : t.length ≤ buf.length) :
    strncpy buf t = t ++ List.replicate (buf.length - t.length) NUL := by
  unfold strncpy
  apply List.take_of_length_le
  simp
  omega

theorem strncpy_of_eq (buf t : List Char) (h : buf.length = t.length) :
    strncpy buf t = t := by
  rw [strncpy_of_le buf t (by omega), h]
  simp

theorem llama_chat_apply_template_text (env : Env) (tmpl : Option (List Char))
    (chat : List llama_chat_message) (b : Bool) (buf t : List Char)
    (h : ∃ ht, env.chat_format tmpl chat b = ChatFormat.text t ht) :
    llama_chat_apply_template env tmpl chat b buf = ((t.length : Int), strncpy buf t) := by
  obtain ⟨ht, h⟩ := h
  unfold llama_chat_apply_template
  rw [h]

theorem Renders_length_lt (env : Env) (T : List Char) (chat : List llama_chat_message)
    (b : Bool) (t : List Char) (h : Renders env T chat b t) : t.length < 2 ^ 31 := by
  obtain ⟨⟨ht, _⟩, _⟩ := h
  exact ht

/-- Under `Renders`, the template is applied without failure: the returned length is
the length of the text and the buffer holds the text, zero padded to the old
buffer size. -/
theorem ApplyTemplateFromMessagesToBuffer_renders (env : Env) (s : FLlamaInternal)
    (T : List Char) (chat : List llama_chat_message) (buf : List Char) (b : Bool)
    (t : List Char) (h : Renders env T chat b t) :
    ApplyTemplateFromMessagesToBuffer env s T chat buf b
      = some (s, t ++ List.replicate (buf.length - t.length) NUL, (t.length : Int)) := by
  have hlt := Renders_length_lt env T chat b t h
  obtain ⟨h1, h2⟩ := h
  have hsz : size_t_of_int32 (t.length : Int) = t.length :=
    size_t_of_int32_natCast _ (by omega)
  unfold ApplyTemplateFromMessagesToBuffer
  simp only [llama_chat_apply_template_text env _ chat b _ t h1, hsz, strncpy_length]
  by_cases hgt : t.length > buf.length
  · have hres : vector_resize (strncpy buf t) t.length
        = some ((strncpy buf t).take t.length
            ++ List.replicate (t.length - (strncpy buf t).length) NUL) := by
      unfold vector_resize
      have : ¬ t.length > vector_max_size := by
        unfold vector_max_size
        omega
      simp [this]
    simp only [hgt, if_true, hres]
    rw [llama_chat_apply_template_text env _ chat b _ t h2]
    have hl : ((strncpy buf t).take t.length
        ++ List.replicate (t.length - (strncpy buf t).length) NUL).length = t.length := by
      simp [strncpy_length]
      omega
    rw [strncpy_of_eq _ t hl]
    have : buf.length - t.length = 0 := by omega
    simp [this]
  · have hneg : ¬ ((t.length : Int) < 0) := by omega
    simp only [hgt, if_false, hneg]
    rw [strncpy_of_le buf t (by omega)]



theorem stop_if_generating (s : FLlamaInternal) :
    (if IsGenerating s = true then StopGeneration s else s)
      = { s with bGenerationActive := false } := by
  unfold IsGenerating StopGeneration
  cases h : s.bGenerationActive
  · cases s
    simp_all
  · simp

theorem std_string_zero (buf : List Char) (last : Int) (h0 : 0 ≤ last)
    (h : last ≤ (buf.length : Int)) :
    std_string buf 0 last = some (buf.take last.toNat) := by
  unfold std_string
  simp [h0, h]

theorem vector_resize_fit (v t : List Char) (pad : List Char) (hv : v = t ++ pad)
    (ht : t.length < 2 ^ 31) : vector_resize v t.length = some t := by
  unfold vector_resize
  have : ¬ t.length > vector_max_size := by
    unfold vector_max_size
    omega
  subst hv
  simp [this]

/-- The state `RollbackContextHistoryByMessages` produces when the new rendering
fits under the filled part of the buffer. -/
theorem RollbackContextHistoryByMessages_eq (env : Env) (s : FLlamaInternal) (n : Int)
    (ctx : llama_context) (t : List Char)
    (hl : s.bIsModelLoaded = true) (hm : s.LlamaModel = true) (hc : s.Context = some ctx)
    (hn0 : 0 ≤ n) (hn32 : n < 2 ^ 31) (hn : n ≤ (s.Messages.length : Int))
    (hr : Renders env s.Template (s.Messages.take (s.Messages.length - n.toNat)) false t)
    (hfit : (t.length : Int) ≤ s.FilledContextCharLength)
    (hbuf : s.FilledContextCharLength ≤ (s.ContextHistory.length : Int)) :
    RollbackContextHistoryByMessages env s n = some { s with
      bGenerationActive := false
      Messages := s.Messages.take (s.Messages.length - n.toNat)
      Context := some (llama_memory_seq_rm ctx (llama_memory_seq_pos_max ctx -
        ((env.tokenize ((s.ContextHistory.take s.FilledContextCharLength.toNat).drop
          t.length) false).length : Int)))
      FilledContextCharLength := (t.length : Int)
      ContextHistory := t } := by
  have hlt := Renders_length_lt env _ _ _ t hr
  have hsz : size_t_of_int32 n = n.toNat := by
    have h := size_t_of_int32_natCast n.toNat (by omega)
    rwa [Int.toNat_of_nonneg hn0] at h
  have hszt : size_t_of_int32 (t.length : Int) = t.length :=
    size_t_of_int32_natCast _ (by omega)
  have hle : n.toNat ≤ s.Messages.length := by omega
  unfold RollbackContextHistoryByMessages
  simp only [hl, Bool.not_true, Bool.false_eq_true, if_false, stop_if_generating, hsz, hle,
    if_true]
  rw [std_string_zero _ _ (by omega) hbuf]
  simp only [ApplyTemplateToContextHistory]
  rw [ApplyTemplateFromMessagesToBuffer_renders env _ _ _ _ false t hr]
  simp only []
  rw [std_string_zero _ _ (by omega) (by simp)]
  have htake : (t ++ List.replicate (s.ContextHistory.length - t.length) NUL).take
      ((t.length : Int)).toNat = t := by
    simp
  simp only [htake]
  have hsub : substr (s.ContextHistory.take s.FilledContextCharLength.toNat) t.length
      = some ((s.ContextHistory.take s.FilledContextCharLength.toNat).drop t.length) := by
    unfold substr
    have : ¬ t.length > (s.ContextHistory.take s.FilledContextCharLength.toNat).length := by
      simp
      omega
    simp only [this, if_false]
  simp only [hsub, hm, Bool.not_true, Bool.false_eq_true, if_false,
    RollbackContextHistoryByTokens, hc, hszt]
  rw [vector_resize_fit _ t _ rfl hlt]


theorem RollbackContextHistoryByMessages_stopped (env : Env) (s : FLlamaInternal) (n : Int)
    (hl : s.bIsModelLoaded = true) :
    RollbackContextHistoryByMessages env { s with bGenerationActive := false } n
      = RollbackContextHistoryByMessages env s n := by
  unfold RollbackContextHistoryByMessages
  simp only [stop_if_generating, hl, Bool.not_true, Bool.false_eq_true, if_false]

theorem int32_of_size_t_small (n : Nat) (h : n < 2 ^ 31) : int32_of_size_t n = (n : Int) := by
  unfold int32_of_size_t
  omega


theorem EmitErrorMessage_eq (s : FLlamaInternal) (code : Int) :
    EmitErrorMessage s code
      = { s with trace := s.trace ++ (if s.OnError then [Event.Error code] else []) } := by
  unfold EmitErrorMessage
  cases h : s.OnError
  · cases s
    simp_all
  · simp

/-- In single-batch mode a prompt that does not fit is rejected before any decode:
error 22 is emitted, 0 is returned and nothing else changes. -/
theorem ProcessPrompt_single_overflow (env : Env) (s : FLlamaInternal) (ctx : llama_context)
    (Prompt : List Char) (Role : EChatTemplateRole)
    (hm : s.LlamaModel = true) (hc : s.Context = some ctx)
    (hpace : s.LastLoadedParams.Advanced.PromptProcessingPacingSleep = 0)
    (hover : UsedContext s + ((env.tokenize Prompt (UsedContext s == 0)).length : Int)
      > MaxContext s) :
    ProcessPrompt env s Prompt Role = some (EmitErrorMessage s 22, 0) := by
  unfold UsedContext MaxContext at hover
  rw [hc] at hover
  simp only at hover
  unfold ProcessPrompt
  simp only [hm, Bool.not_true, Bool.false_eq_true, if_false, hc, hpace, if_true, hover]

theorem take_drop_append (t pad : List Char) (k : Nat) (hk : k ≤ t.length) :
    ((t ++ pad).drop k).take (t.length - k) = t.drop k := by
  rw [List.drop_append_of_le_length hk, List.take_append_of_le_length (by simp)]
  apply List.take_of_length_le
  simp



theorem std_string_of_rendered (t pad : List Char) (first : Int) (h0 : 0 ≤ first)
    (h : first ≤ (t.length : Int)) :
    std_string (t ++ pad) first (t.length : Int) = some (t.drop first.toNat) := by
  unfold std_string
  have h3 : (t.length : Int) ≤ ((t ++ pad).length : Int) := by simp
  simp only [h0, h, h3, and_self, if_true]
  have : ((t.length : Int) - first).toNat = t.length - first.toNat := by omega
  rw [this, take_drop_append t pad first.toNat (by omega)]

/-- What `InsertTemplatedPrompt` does with a non-empty prompt whose newly rendered
text does not fit the context (single-batch mode). -/
theorem InsertTemplatedPrompt_overflow (env : Env) (s : FLlamaInternal) (ctx : llama_context)
    (Prompt : List Char) (Role : EChatTemplateRole) (b g : Bool) (t : List Char)
    (hl : s.bIsModelLoaded = true) (hm : s.LlamaModel = true) (hc : s.Context = some ctx)
    (hp : Prompt.length ≠ 0)
    (hpace : s.LastLoadedParams.Advanced.PromptProcessingPacingSleep = 0)
    (hr : Renders env s.Template
      (s.Messages ++ [{ role := RoleForEnum Role, content := c_str Prompt }]) b t)
    (hpos : 0 < t.length) (hf0 : 0 ≤ s.FilledContextCharLength)
    (hf : s.FilledContextCharLength ≤ (t.length : Int))
    (hover : UsedContext s + ((env.tokenize (t.drop s.FilledContextCharLength.toNat)
      (UsedContext s == 0)).length : Int) > MaxContext s) :
    InsertTemplatedPrompt env s Prompt Role b g =
      (if g then
        Generate env { s with
          Messages := s.Messages ++ [{ role := RoleForEnum Role, content := c_str Prompt }]
          ContextHistory := t ++ List.replicate (s.ContextHistory.length - t.length) NUL
          trace := s.trace ++ (if s.OnError then [Event.Error 22] else [])
          FilledContextCharLength := (t.length : Int) } [] true
      else
        some ({ s with
          Messages := s.Messages ++ [{ role := RoleForEnum Role, content := c_str Prompt }]
          ContextHistory := t ++ List.replicate (s.ContextHistory.length - t.length) NUL
          trace := s.trace ++ (if s.OnError then [Event.Error 22] else [])
          FilledContextCharLength := (t.length : Int) }, [])) := by
  unfold InsertTemplatedPrompt
  rw [if_neg (by simp [hl])]
  simp only [hp, ne_eq, not_false_eq_true, if_true, ApplyTemplateToContextHistory]
  rw [ApplyTemplateFromMessagesToBuffer_renders env _ _ _ _ b t hr]
  have h1 : ¬ ((t.length : Int) < 0) := by omega
  have h2 : (t.length : Int) > 0 := by omega
  simp only [h1, if_false, h2, if_true]
  rw [std_string_of_rendered t _ _ hf0 hf]
  simp only []
  rw [ProcessPrompt_single_overflow env { s with
      Messages := s.Messages ++ [{ role := RoleForEnum Role, content := c_str Prompt }]
      ContextHistory := t ++ List.replicate (s.ContextHistory.length - t.length) NUL }
    ctx _ Role hm hc hpace hover]
  simp only [EmitErrorMessage_eq]


theorem completions_append (a b : List Event) :
    completions (a ++ b) = completions a ++ completions b := by
  induction a with
  | nil => rfl
  | cons e rest ih =>
    cases e <;> simp [completions, ih]

theorem conversation_stop (s : FLlamaInternal) (c : Bool) :
    conversation (if c then StopGeneration s else s) = conversation s := by
  cases c <;> rfl

theorem context_stop (s : FLlamaInternal) (c : Bool) :
    (if c then StopGeneration s else s).Context = s.Context := by
  cases c <;> rfl

theorem trace_stop (s : FLlamaInternal) (c : Bool) :
    (if c then StopGeneration s else s).trace = s.trace := by
  cases c <;> rfl

theorem samplers_stop (s : FLlamaInternal) (c : Bool) :
    ((if c then StopGeneration s else s).CommonSampler
      || (if c then StopGeneration s else s).Sampler) = (s.CommonSampler || s.Sampler) := by
  cases c <;> rfl

theorem completions_emit (s : FLlamaInternal) (code : Int) :
    completions (EmitErrorMessage s code).trace = completions s.trace := by
  rw [EmitErrorMessage_eq]
  cases s.OnError <;> simp [completions_append, completions]

theorem conversation_emit (s : FLlamaInternal) (code : Int) :
    conversation (EmitErrorMessage s code) = conversation s := by
  rw [EmitErrorMessage_eq]
  rfl

theorem context_emit (s : FLlamaInternal) (code : Int) :
    (EmitErrorMessage s code).Context = s.Context := by
  rw [EmitErrorMessage_eq]

/-- What holds at every exit of the generation loop entered with context `ctx`,
response `R` and count `n`: the cache grew by the tokens `new`, each of them
decoded while `NContextUsed + NDecoded ≤ NContext`; nothing but context, trace
and flag changed; the completion callback was not invoked; and when the loop was
left (not returned from), the count grew by the number of decoded tokens and the
response by their pieces. -/
def LoopInv (env : Env) (NContext NContextUsed : Int) (s : FLlamaInternal)
    (ctx : llama_context) (R : List Char) (n : Int) (exit : LoopExit) : Prop :=
  ∃ new : List llama_token,
    exit.state.Context = some { n_ctx := ctx.n_ctx, seq0 := ctx.seq0 ++ new } ∧
    conversation exit.state = conversation s ∧
    (new = [] ∨ NContextUsed + n + (new.length : Int) ≤ NContext) ∧
    completions exit.state.trace = completions s.trace ∧
    (∀ s' R' n' e, exit = LoopExit.finished s' R' n' e →
      n' = n + (new.length : Int) ∧ R' = R ++ (new.map env.token_to_piece).flatten ∧
      (∀ tok ∈ new, env.vocab_is_eog tok = false))

theorem GenerateLoop_inv (env : Env) (NContext NContextUsed : Int) (fuel : Nat) :
    ∀ (k : Nat) (s : FLlamaInternal) (R : List Char) (n : Int) (ctx : llama_context)
      (ex : LoopExit), s.Context = some ctx →
      GenerateLoop env NContext NContextUsed fuel k s R n = some ex →
      LoopInv env NContext NContextUsed s ctx R n ex := by
  induction fuel with
  | zero =>
    intro k s R n ctx ex _ h
    simp [GenerateLoop] at h
  | succ fuel ih =>
    intro k s R n ctx ex hc h
    rw [GenerateLoop] at h
    have c1 := context_stop s (env.stop_requested k)
    have c2 := conversation_stop s (env.stop_requested k)
    have c3 := trace_stop s (env.stop_requested k)
    generalize (if env.stop_requested k = true then StopGeneration s else s) = s1 at h c1 c2 c3
    rw [hc] at c1
    simp only [c1] at h
    split at h
    · -- loop condition false
      cases h
      exact ⟨[], by simp [LoopExit.state, c1], c2, Or.inl rfl, by
        simp [LoopExit.state, c3], by
        intro s' R' n' e he
        cases he
        simp⟩
    · split at h
      · cases h
      · split at h
        · -- end of generation
          cases h
          exact ⟨[], by simp [LoopExit.state, c1], c2, Or.inl rfl, by
            simp [LoopExit.state, c3], by
            intro s' R' n' e he
            cases he
            simp⟩
        · split at h
          · -- context exceeded
            cases h
            exact ⟨[], by simp [LoopExit.state, context_stop, context_emit, c1], by
              simp [LoopExit.state, conversation_stop, conversation_emit, c2], Or.inl rfl, by
              simp [LoopExit.state, trace_stop, completions_emit, c3], by
              intro s' R' n' e he
              cases he⟩
          · rename_i hneog hfit
            have t1 : conversation (if s1.OnTokenGenerated = true then
                { s1 with Context := some ctx, trace := s1.trace ++ [Event.TokenGenerated
                  (env.token_to_piece (env.sample ctx.seq0 k))] } else s1) = conversation s := by
              rw [← c2]
              split <;> rfl
            have t2 : completions (if s1.OnTokenGenerated = true then
                { s1 with Context := some ctx, trace := s1.trace ++ [Event.TokenGenerated
                  (env.token_to_piece (env.sample ctx.seq0 k))] } else s1).trace
                = completions s.trace := by
              rw [← c3]
              split <;> simp [completions_append, completions]
            have t3 : (if s1.OnTokenGenerated = true then
                { s1 with Context := some ctx, trace := s1.trace ++ [Event.TokenGenerated
                  (env.token_to_piece (env.sample ctx.seq0 k))] } else s1).Context
                = some ctx := by
              split
              · rfl
              · exact c1
            generalize (if s1.OnTokenGenerated = true then
                { s1 with Context := some ctx, trace := s1.trace ++ [Event.TokenGenerated
                  (env.token_to_piece (env.sample ctx.seq0 k))] } else s1) = s2 at h t1 t2 t3
            unfold llama_decode at h
            cases hd : env.decode_fails ctx.seq0 [env.sample ctx.seq0 k]
            case true =>
              -- decode failed
              simp only [hd, if_true, Option.some.injEq] at h
              cases h
              refine ⟨[], ?_, ?_, Or.inl rfl, ?_, ?_⟩
              · simp [LoopExit.state, context_emit, t3]
              · simp only [LoopExit.state, conversation_emit]
                exact t1
              · simp only [LoopExit.state, completions_emit]
                exact t2
              · intro s' R' n' e he
                cases he
            case false =>
              -- decoded, next iteration
              simp only [hd, Bool.false_eq_true, if_false] at h
              have hi := ih (k + 1) _ _ _ ⟨ctx.n_ctx, ctx.seq0 ++ [env.sample ctx.seq0 k]⟩
                ex rfl h
              obtain ⟨new, h1, h2, h3, h4, h5⟩ := hi
              refine ⟨env.sample ctx.seq0 k :: new, ?_, ?_, Or.inr ?_, ?_, ?_⟩
              · simp [h1]
              · rw [h2]
                exact t1
              · simp only [List.length_cons]
                rcases h3 with h3 | h3
                · subst h3
                  simp
                  omega
                · push_cast
                  omega
              · rw [h4]
                exact t2
              · intro s' R' n' e he
                obtain ⟨e1, e2, e3⟩ := h5 s' R' n' e he
                refine ⟨?_, ?_, ?_⟩
                · rw [e1]
                  simp
                  omega
                · rw [e2]
                  simp
                · intro tok htok
                  rcases List.mem_cons.mp htok with h | h
                  · subst h
                    simpa using hneog
                  · exact e3 tok h



/-- The loop never uses up fuel above `NContext - NContextUsed - NDecoded`: with a
live context and a sampler it always reaches an exit. -/
theorem GenerateLoop_fuel (env : Env) (NContext NContextUsed : Int) (fuel : Nat) :
    ∀ (k : Nat) (s : FLlamaInternal) (R : List Char) (n : Int) (ctx : llama_context),
      s.Context = some ctx → (s.CommonSampler || s.Sampler) = true →
      (NContext - NContextUsed - n).toNat < fuel →
      ∃ ex, GenerateLoop env NContext NContextUsed fuel k s R n = some ex := by
  induction fuel with
  | zero =>
    intro k s R n ctx _ _ h
    omega
  | succ fuel ih =>
    intro k s R n ctx hc hs hf
    rw [GenerateLoop]
    have c1 := context_stop s (env.stop_requested k)
    have c4 := samplers_stop s (env.stop_requested k)
    generalize (if env.stop_requested k = true then StopGeneration s else s) = s1 at c1 c4
    rw [hc] at c1
    rw [hs] at c4
    simp only [c1, c4, Bool.not_true, Bool.false_eq_true, if_false]
    split
    · exact ⟨_, rfl⟩
    · split
      · exact ⟨_, rfl⟩
      · split
        · exact ⟨_, rfl⟩
        · rename_i hfit
          unfold llama_decode
          cases hd : env.decode_fails ctx.seq0 [env.sample ctx.seq0 k]
          case true =>
            simp only [if_true]
            exact ⟨_, rfl⟩
          case false =>
            simp only [Bool.false_eq_true, if_false]
            apply ih (k + 1) _ _ _ ⟨ctx.n_ctx, ctx.seq0 ++ [env.sample ctx.seq0 k]⟩ rfl
            · split
              · exact c4
              · exact c4
            · omega

/-- A stop requested during iteration `j` ends the loop at the next evaluation of
its condition: a loop that is left was left after at most `j + 1 - k` further
tokens. -/
theorem GenerateLoop_stop (env : Env) (NContext NContextUsed : Int) (j : Nat)
    (hstop : env.stop_requested (j + 1) = true) (fuel : Nat) :
    ∀ (k : Nat) (s : FLlamaInternal) (R : List Char) (n : Int)
      (s' : FLlamaInternal) (R' : List Char) (n' : Int) (e : Bool), k ≤ j + 1 →
      GenerateLoop env NContext NContextUsed fuel k s R n = some (LoopExit.finished s' R' n' e) →
      n' ≤ n + ((j + 1 - k : Nat) : Int) := by
  induction fuel with
  | zero =>
    intro k s R n s' R' n' e _ h
    simp [GenerateLoop] at h
  | succ fuel ih =>
    intro k s R n s' R' n' e hk h
    rw [GenerateLoop] at h
    rcases Nat.lt_or_ge k (j + 1) with hlt | hge
    · generalize (if env.stop_requested k = true then StopGeneration s else s) = s1 at h
      by_cases ha : s1.bGenerationActive = true
      · simp only [ha, Bool.not_true, Bool.false_eq_true, if_false] at h
        by_cases hsm : (s1.CommonSampler || s1.Sampler) = true
        · simp only [hsm, Bool.not_true, Bool.false_eq_true, if_false] at h
          cases hctx : s1.Context with
          | none =>
            simp only [hctx] at h
            cases h
          | some ctx =>
            simp only [hctx] at h
            by_cases heog : env.vocab_is_eog (env.sample ctx.seq0 k) = true
            · simp only [heog, if_true, Option.some.injEq, LoopExit.finished.injEq] at h
              omega
            · simp only [heog, Bool.false_eq_true, if_false] at h
              by_cases hex : NContextUsed + (n + 1) > NContext
              · simp only [hex, if_true] at h
                simp at h
              · simp only [hex, if_false] at h
                unfold llama_decode at h
                cases hd : env.decode_fails ctx.seq0 [env.sample ctx.seq0 k] with
                | true =>
                  simp only [hd, if_true] at h
                  simp at h
                | false =>
                  simp only [hd, Bool.false_eq_true, if_false] at h
                  have := ih (k + 1) _ _ _ s' R' n' e (by omega) h
                  omega
        · simp only [hsm, Bool.not_false, if_true] at h
          cases h
      · simp only [ha, Bool.not_false, if_true, Option.some.injEq,
          LoopExit.finished.injEq] at h
        omega
    · have hk2 : k = j + 1 := by omega
      subst hk2
      simp only [hstop, if_true] at h
      have : (StopGeneration s).bGenerationActive = false := rfl
      simp only [this, Bool.not_false, if_true, Option.some.injEq,
        LoopExit.finished.injEq] at h
      omega

theorem GenerateRun_nil (env : Env) (s : FLlamaInternal) :
    GenerateRun env s [] =
      (if !s.LlamaModel then none
       else
        match s.Context with
        | none => none
        | some ctx =>
          GenerateLoop env (ctx.n_ctx : Int) (llama_memory_seq_pos_max ctx)
            (((ctx.n_ctx : Int) - llama_memory_seq_pos_max ctx).toNat + 1) 0
            { s with bGenerationActive := true } [] 0) := by
  unfold GenerateRun
  simp

theorem c_str_of_no_NUL (R : List Char) (h : NUL ∉ R) : c_str R = R := by
  unfold c_str
  rw [List.takeWhile_eq_self_iff]
  intro c hc
  simp only [bne_iff_ne, ne_eq]
  intro heq
  exact h (heq ▸ hc)

theorem conversation_fields (a b : FLlamaInternal) (h : conversation a = conversation b) :
    a.Messages = b.Messages ∧ a.Template = b.Template ∧
    a.ContextHistory = b.ContextHistory ∧ a.OnGenerationComplete = b.OnGenerationComplete ∧
    a.LlamaModel = b.LlamaModel ∧ a.bIsModelLoaded = b.bIsModelLoaded ∧
    a.FilledContextCharLength = b.FilledContextCharLength ∧
    a.LastLoadedParams = b.LastLoadedParams := by
  have h1 := congrArg FLlamaInternal.Messages h
  have h2 := congrArg FLlamaInternal.Template h
  have h3 := congrArg FLlamaInternal.ContextHistory h
  have h4 := congrArg FLlamaInternal.OnGenerationComplete h
  have h5 := congrArg FLlamaInternal.LlamaModel h
  have h6 := congrArg FLlamaInternal.bIsModelLoaded h
  have h7 := congrArg FLlamaInternal.FilledContextCharLength h
  have h8 := congrArg FLlamaInternal.LastLoadedParams h
  exact ⟨h1, h2, h3, h4, h5, h6, h7, h8⟩

/-- The end of `Generate` with history appending, when the new message list
renders. -/
theorem GenerateFinish_append (env : Env) (s : FLlamaInternal) (R : List Char) (n : Int)
    (t : List Char)
    (hr : Renders env s.Template (s.Messages ++
      [{ role := RoleForEnum EChatTemplateRole.Assistant, content := c_str R }]) false t) :
    GenerateFinish env s R n true = some ({ s with
      bGenerationActive := false
      Messages := s.Messages ++
        [{ role := RoleForEnum EChatTemplateRole.Assistant, content := c_str R }]
      ContextHistory := t ++ List.replicate (s.ContextHistory.length - t.length) NUL
      FilledContextCharLength := (t.length : Int)
      trace := s.trace ++
        (if s.OnGenerationComplete then [Event.GenerationComplete R n] else []) }, R) := by
  unfold GenerateFinish
  simp only [if_true, ApplyTemplateToContextHistory]
  rw [ApplyTemplateFromMessagesToBuffer_renders env _ _ _ _ false t hr]
  cases h : s.OnGenerationComplete <;> simp [h]

/-- The end of `Generate` without history appending. -/
theorem GenerateFinish_plain (env : Env) (s : FLlamaInternal) (R : List Char) (n : Int) :
    GenerateFinish env s R n false = some ({ s with
      bGenerationActive := false
      trace := s.trace ++
        (if s.OnGenerationComplete then [Event.GenerationComplete R n] else []) }, R) := by
  unfold GenerateFinish
  cases h : s.OnGenerationComplete <;> simp [h]


theorem ApplyTemplateFromMessagesToBuffer_context (env : Env) (s s' : FLlamaInternal)
    (T : List Char) (chat : List llama_chat_message) (buf buf' : List Char) (b : Bool)
    (NewLen : Int)
    (h : ApplyTemplateFromMessagesToBuffer env s T chat buf b = some (s', buf', NewLen)) :
    s'.Context = s.Context := by
  unfold ApplyTemplateFromMessagesToBuffer at h
  simp only at h
  generalize (if T.length = 0 then none else some T) = tp at h
  generalize llama_chat_apply_template env tp chat b buf = r1 at h
  by_cases hgt : size_t_of_int32 r1.1 > r1.2.length
  · simp only [hgt, if_true] at h
    cases hres : vector_resize r1.2 (size_t_of_int32 r1.1) with
    | none =>
      simp [hres] at h
    | some v =>
      simp only [hres, Option.some.injEq, Prod.mk.injEq] at h
      rw [← h.1]
  · simp only [hgt, if_false] at h
    by_cases hneg : r1.1 < 0
    · simp only [hneg, if_true, Option.some.injEq, Prod.mk.injEq] at h
      rw [← h.1, context_emit]
    · simp only [hneg, if_false, Option.some.injEq, Prod.mk.injEq] at h
      rw [← h.1]

theorem GenerateFinish_context (env : Env) (s s' : FLlamaInternal) (R r : List Char)
    (n : Int) (b : Bool) (h : GenerateFinish env s R n b = some (s', r)) :
    s'.Context = s.Context := by
  cases b with
  | false =>
    rw [GenerateFinish_plain] at h
    simp only [Option.some.injEq, Prod.mk.injEq] at h
    rw [← h.1]
  | true =>
    unfold GenerateFinish at h
    simp only [if_true, ApplyTemplateToContextHistory] at h
    cases ha : ApplyTemplateFromMessagesToBuffer env
        { s with
          bGenerationActive := false
          Messages := s.Messages ++
            [{ role := RoleForEnum EChatTemplateRole.Assistant, content := c_str R }] }
        s.Template
        (s.Messages ++ [{ role := RoleForEnum EChatTemplateRole.Assistant, content := c_str R }])
        s.ContextHistory false with
    | none =>
      simp only [ha] at h
      cases h
    | some res =>
      obtain ⟨s2, buf2, len2⟩ := res
      have hctx := ApplyTemplateFromMessagesToBuffer_context env _ s2 _ _ _ buf2 false len2 ha
      simp only [ha] at h
      split at h
      · simp only [Option.some.injEq, Prod.mk.injEq] at h
        rw [← h.1]
        exact hctx
      · simp only [Option.some.injEq, Prod.mk.injEq] at h
        rw [← h.1]
        exact hctx

/-- What a `Generate` call with the empty prompt that reached an exit of its loop
started from. -/
theorem GenerateRun_nil_some (env : Env) (s : FLlamaInternal) (ex : LoopExit)
    (h : GenerateRun env s [] = some ex) :
    s.LlamaModel = true ∧ ∃ ctx, s.Context = some ctx ∧
      GenerateLoop env (ctx.n_ctx : Int) (llama_memory_seq_pos_max ctx)
        (((ctx.n_ctx : Int) - llama_memory_seq_pos_max ctx).toNat + 1) 0
        { s with bGenerationActive := true } [] 0 = some ex := by
  rw [GenerateRun_nil] at h
  cases hm : s.LlamaModel with
  | false =>
    simp [hm] at h
  | true =>
    simp only [hm, Bool.not_true, Bool.false_eq_true, if_false] at h
    cases hc : s.Context with
    | none =>
      simp [hc] at h
    | some ctx =>
      simp only [hc] at h
      exact ⟨rfl, ctx, rfl, h⟩


theorem ProcessPromptPaced_conversation (env : Env) (TokensPerBatch Remainder : Int)
    (PromptTokens : List llama_token) (m : Nat) :
    ∀ (i StartIndex : Int) (s : FLlamaInternal) (ex : PacedExit),
      ProcessPromptPaced env TokensPerBatch Remainder PromptTokens m i StartIndex s = some ex →
      conversation ex.state = conversation s := by
  induction m with
  | zero =>
    intro i StartIndex s ex h
    simp only [ProcessPromptPaced, Option.some.injEq] at h
    rw [← h]
    rfl
  | succ m ih =>
    intro i StartIndex s ex h
    rw [ProcessPromptPaced] at h
    simp only at h
    cases hv : vector_range PromptTokens StartIndex
        (StartIndex + (TokensPerBatch + if i < Remainder then 1 else 0)) with
    | none =>
      simp [hv] at h
    | some BatchTokens =>
      simp only [hv] at h
      cases hc : s.Context with
      | none =>
        simp [hc] at h
      | some ctx =>
        simp only [hc] at h
        by_cases hover : (size_t_of_int32 (llama_memory_seq_pos_max ctx) + BatchTokens.length)
            % 2 ^ 64 > size_t_of_int32 (ctx.n_ctx : Int)
        · simp only [hover, if_true, Option.some.injEq] at h
          rw [← h]
          exact conversation_emit s 22
        · simp only [hover, if_false] at h
          cases hd : llama_decode env ctx BatchTokens with
          | none =>
            simp only [hd, Option.some.injEq] at h
            rw [← h]
            exact conversation_emit s 23
          | some ctx2 =>
            simp only [hd] at h
            rw [ih _ _ _ ex h]
            rfl

/-- Prompt processing touches nothing but the context memory and the trace. -/
theorem ProcessPrompt_conversation (env : Env) (s s' : FLlamaInternal) (Prompt : List Char)
    (Role : EChatTemplateRole) (v : Int)
    (h : ProcessPrompt env s Prompt Role = some (s', v)) :
    conversation s' = conversation s := by
  unfold ProcessPrompt at h
  by_cases hm : (!s.LlamaModel) = true
  · rw [if_pos hm] at h
    cases h
  · rw [if_neg hm] at h
    cases hc : s.Context with
    | none =>
      simp [hc] at h
    | some ctx =>
      simp only [hc] at h
      by_cases hp : s.LastLoadedParams.Advanced.PromptProcessingPacingSleep = 0
      · simp only [hp, if_true] at h
        split at h
        · simp only [Option.some.injEq, Prod.mk.injEq] at h
          rw [← h.1]
          exact conversation_emit s 22
        · cases hd : llama_decode env ctx
              (env.tokenize Prompt (llama_memory_seq_pos_max ctx == 0)) with
          | none =>
            simp only [hd, Option.some.injEq, Prod.mk.injEq] at h
            rw [← h.1]
            exact conversation_emit s 23
          | some ctx2 =>
            simp only [hd, ProcessPromptDone, Option.some.injEq, Prod.mk.injEq] at h
            rw [← h.1]
            split <;> rfl
      · simp only [hp, if_false] at h
        split at h
        · cases h
        · cases hpaced : ProcessPromptPaced env
              (Int.tdiv ((env.tokenize Prompt (llama_memory_seq_pos_max ctx == 0)).length : Int)
                s.LastLoadedParams.Advanced.PromptProcessingPacingSplitN)
              (Int.tmod ((env.tokenize Prompt (llama_memory_seq_pos_max ctx == 0)).length : Int)
                s.LastLoadedParams.Advanced.PromptProcessingPacingSplitN)
              (env.tokenize Prompt (llama_memory_seq_pos_max ctx == 0))
              s.LastLoadedParams.Advanced.PromptProcessingPacingSplitN.toNat 0 0 s with
          | none =>
            simp [hpaced] at h
          | some ex =>
            have hconv := ProcessPromptPaced_conversation env _ _ _ _ _ _ _ ex hpaced
            simp only [hpaced] at h
            cases ex with
            | returned s2 value =>
              simp only [Option.some.injEq, Prod.mk.injEq] at h
              rw [← h.1]
              exact hconv
            | done s2 =>
              simp only [ProcessPromptDone, Option.some.injEq, Prod.mk.injEq] at h
              rw [← h.1, ← hconv]
              simp only [PacedExit.state]
              split <;> rfl

/-- What `InsertTemplatedPrompt` does with a non-empty prompt when the new message
list renders: the message is appended, the buffer holds the rendering, the text
after the old filled length is processed, and a reply is generated on request. -/
theorem InsertTemplatedPrompt_renders (env : Env) (s : FLlamaInternal)
    (Prompt : List Char) (Role : EChatTemplateRole) (b g : Bool) (t : List Char)
    (hl : s.bIsModelLoaded = true) (hp : Prompt.length ≠ 0)
    (hr : Renders env s.Template
      (s.Messages ++ [{ role := RoleForEnum Role, content := c_str Prompt }]) b t)
    (hf0 : 0 ≤ s.FilledContextCharLength)
    (hf : s.FilledContextCharLength ≤ (t.length : Int)) :
    InsertTemplatedPrompt env s Prompt Role b g =
      match (if (t.length : Int) > 0 then
          match ProcessPrompt env { s with
              Messages := s.Messages ++ [{ role := RoleForEnum Role, content := c_str Prompt }]
              ContextHistory := t ++ List.replicate (s.ContextHistory.length - t.length) NUL }
              (t.drop s.FilledContextCharLength.toNat) Role with
          | none => none
          | some (s2, _) => some s2
        else some { s with
          Messages := s.Messages ++ [{ role := RoleForEnum Role, content := c_str Prompt }]
          ContextHistory := t ++ List.replicate (s.ContextHistory.length - t.length) NUL }) with
      | none => none
      | some s2 =>
        if g then Generate env { s2 with FilledContextCharLength := (t.length : Int) } [] true
        else some ({ s2 with FilledContextCharLength := (t.length : Int) }, []) := by
  unfold InsertTemplatedPrompt
  rw [if_neg (by simp [hl])]
  simp only [hp, ne_eq, not_false_eq_true, if_true, ApplyTemplateToContextHistory]
  rw [ApplyTemplateFromMessagesToBuffer_renders env _ _ _ _ b t hr]
  have h1 : ¬ ((t.length : Int) < 0) := by omega
  simp only [h1, if_false]
  rw [std_string_of_rendered t _ _ hf0 hf]


/-- With a loaded model, a live context and a sampler, `Generate` with the empty
prompt always reaches an exit of its loop: the fuel is never used up. -/
theorem GenerateRun_returns (env : Env) (s : FLlamaInternal) (ctx : llama_context)
    (hm : s.LlamaModel = true) (hc : s.Context = some ctx)
    (hs : (s.CommonSampler || s.Sampler) = true) :
    ∃ ex, GenerateRun env s [] = some ex := by
  rw [GenerateRun_nil, if_neg (by simp [hm])]
  simp only [hc]
  apply GenerateLoop_fuel env _ _ _ 0
    { s with Context := some ctx, bGenerationActive := true } [] 0 ctx rfl hs
  rw [Int.sub_zero]
  exact Nat.lt_succ_self _

/-- On a live context, `RollbackContextHistoryByTokens` keeps the positions below
`TokensUsed - NTokensToErase`, with `TokensUsed` the largest position in use, and
changes nothing but the context memory. -/
theorem RollbackContextHistoryByTokens_cached (s : FLlamaInternal) (ctx : llama_context)
    (n : Int) (hc : s.Context = some ctx) :
    ∃ s1, RollbackContextHistoryByTokens s n = some s1 ∧
      CachedTokens s1 = ctx.seq0.take ((ctx.seq0.length : Int) - 1 - n).toNat ∧
      conversation s1 = conversation s ∧ s1.trace = s.trace ∧
      s1.bGenerationActive = s.bGenerationActive := by
  unfold RollbackContextHistoryByTokens
  rw [hc]
  exact ⟨_, rfl, rfl, rfl, rfl, rfl⟩

/-- The negative `int32` value `-(code + 1)` converted to `size_t`. -/
theorem size_t_of_int32_negative (code : Nat) (hcode : code < 2 ^ 31) :
    size_t_of_int32 (-((code : Int) + 1)) = 2 ^ 64 - (code + 1) := by
  unfold size_t_of_int32
  omega

/-- On a loaded engine with a live context the full reset returns the engine with
the generation flag cleared and the conversation emptied. -/
theorem ResetContextHistory_full (env : Env) (s : FLlamaInternal) (ctx : llama_context)
    (hl : s.bIsModelLoaded = true) (hc : s.Context = some ctx) :
    ResetContextHistory env s false = some
      { s with bGenerationActive := false, ContextHistory := [], Messages := [],
               Context := some (llama_memory_clear ctx), FilledContextCharLength := 0 } := by
  unfold ResetContextHistory
  rw [if_neg (by simp [hl]), stop_if_generating]
  simp only [Bool.false_eq_true, if_false, hc]

/-- A negative length reported by the probe call of the formatter never reaches the
error branch of `ApplyTemplateFromMessagesToBuffer`: converted to `size_t` it
exceeds the size of every buffer, and `resize` throws. -/
theorem ApplyTemplateFromMessagesToBuffer_negative (env : Env) (s : FLlamaInternal)
    (T : List Char) (chat : List llama_chat_message) (buf : List Char) (b : Bool)
    (code : Nat) (hcode : code < 2 ^ 31) (hbuf : buf.length < 2 ^ 63)
    (hf : env.chat_format (if T.length = 0 then none else some T) chat b
      = ChatFormat.failure code) :
    ApplyTemplateFromMessagesToBuffer env s T chat buf b = none := by
  have hsz := size_t_of_int32_negative code hcode
  have hcall : llama_chat_apply_template env (if T.length = 0 then none else some T) chat b buf
      = (-((code : Int) + 1), buf) := by
    unfold llama_chat_apply_template
    rw [hf]
  unfold ApplyTemplateFromMessagesToBuffer
  simp only [hcall, hsz]
  have hgt : 2 ^ 64 - (code + 1) > buf.length := by omega
  rw [if_pos hgt]
  have hmax : 2 ^ 64 - (code + 1) > vector_max_size := by
    unfold vector_max_size; omega
  unfold vector_resize
  rw [if_pos hmax]

/-- A failing `LoadModelFromParams` emits exactly one error, with code 10 or 11,
and leaves the loaded flag alone. -/
theorem LoadModelFromParams_failure (env : Env) (s : FLlamaInternal) (P : FLLMModelParams)
    (hE : s.OnError = true) (hfail : (LoadModelFromParams env s P).2 = false) :
    ∃ code : Int, (code = 10 ∨ code = 11) ∧
      (LoadModelFromParams env s P).1.trace = s.trace ++ [Event.Error code] ∧
      (LoadModelFromParams env s P).1.bIsModelLoaded = s.bIsModelLoaded := by
  cases s
  simp only at hE
  subst hE
  unfold LoadModelFromParams at hfail ⊢
  generalize "tokenizer.chat_template".toList = K at hfail ⊢
  generalize "Custom Jinja".toList = K1 at hfail ⊢
  generalize "embedding mode, templates not used".toList = K2 at hfail ⊢
  cases hm : env.model_load_from_file with
  | false =>
    refine ⟨10, Or.inl rfl, ?_, ?_⟩ <;> simp [EmitErrorMessage]
  | true =>
    cases hi : env.init_from_model P.MaxContextLength with
    | none =>
      refine ⟨11, Or.inr rfl, ?_, ?_⟩ <;> simp [EmitErrorMessage]
    | some k =>
      rw [hm, hi] at hfail
      simp at hfail

/-- A call into the engine that invoked no callback leaves the wrapper as it was,
apart from the engine. -/
theorem Listen_none (lib : FStringLib) (n : FLlamaNative) (after : FLlamaInternal)
    (h : after.trace = n.Internal.trace) :
    n.Listen lib after = { n with Internal := after } := by
  unfold FLlamaNative.Listen
  rw [h, List.drop_length]
  rfl

/-- A call into the engine that invoked one callback runs one listener. -/
theorem Listen_one (lib : FStringLib) (n : FLlamaNative) (after : FLlamaInternal) (e : Event)
    (h : after.trace = n.Internal.trace ++ [e]) :
    n.Listen lib after = FLlamaNative.InternalCallback lib { n with Internal := after } e := by
  unfold FLlamaNative.Listen
  rw [h, List.drop_left]
  rfl

/-- The token callbacks of `ImpersonateTemplatedToken` change nothing but the list
of invoked callbacks. -/
theorem ImpersonatedTokenCallbacks_eq (lib : FStringLib) (n : FLlamaNative)
    (Token text : List Char) :
    ∃ d, n.ImpersonatedTokenCallbacks lib Token text = { n with delivered := d } := by
  unfold FLlamaNative.ImpersonatedTokenCallbacks
  simp only [FLlamaNative.call]
  split_ifs
  all_goals exact ⟨_, rfl⟩

/-- The end-of-stream part of `ImpersonateTemplatedToken` leaves the chat history of
the snapshot alone. -/
theorem ImpersonatedEndOfStream_history (n : FLlamaNative) (text : List Char) :
    (n.ImpersonatedEndOfStream text).ModelState.ChatHistory = n.ModelState.ChatHistory := by
  obtain ⟨otg, opg, org, opp, oe, omsc, mp, ms, ld, cnt, cpt, cte, bg, gt, act, run, ctr,
    internal, ts, dl⟩ := n
  cases omsc <;> cases org <;> rfl

/-- With the response callback bound, the last callback the end-of-stream part of
`ImpersonateTemplatedToken` invokes is the response event with the reply text. -/
theorem ImpersonatedEndOfStream_response (n : FLlamaNative) (text : List Char)
    (ho : n.OnResponseGenerated = true) :
    (n.ImpersonatedEndOfStream text).delivered.getLast?
      = some (NativeEvent.ResponseGenerated text) := by
  obtain ⟨otg, opg, org, opp, oe, omsc, mp, ms, ld, cnt, cpt, cte, bg, gt, act, run, ctr,
    internal, ts, dl⟩ := n
  simp only at ho
  subst ho
  cases omsc <;> simp [FLlamaNative.ImpersonatedEndOfStream, FLlamaNative.call]

/-- The first part of `ImpersonateTemplatedToken` leaves the callbacks alone. -/
theorem ImpersonatedMessage_callback (n : FLlamaNative) (Token : List Char)
    (Role : EChatTemplateRole) :
    (n.ImpersonatedMessage Token Role).1.OnResponseGenerated = n.OnResponseGenerated := by
  unfold FLlamaNative.ImpersonatedMessage
  cases n.ModelState.ChatHistory.getLast? with
  | none => rfl
  | some m => cases hb : (m.Role == Role) <;> simp [hb]

/-- Two calls of `EnqueueBGTask` with `bThreadIsActive` false before the first and
not set in between start two threads. -/
theorem EnqueueBGTask_twice (n : FLlamaNative) (a b : BGTask) (h : n.bThreadIsActive = false) :
    ((n.EnqueueBGTask a).EnqueueBGTask b).ThreadsStarted = n.ThreadsStarted + 2 := by
  unfold FLlamaNative.EnqueueBGTask FLlamaNative.GetNextTaskId FLlamaNative.StartLLMThread
  simp [h]

/-- The state `RollbackContextHistoryByMessages` produces when the count, compared
as `size_t`, exceeds the number of messages: no message is removed, and the
rendering of the unchanged list, which fits under the filled part of the
buffer, becomes the buffer. -/
theorem RollbackContextHistoryByMessages_keep (env : Env) (s : FLlamaInternal) (n : Int)
    (ctx : llama_context) (t : List Char)
    (hl : s.bIsModelLoaded = true) (hm : s.LlamaModel = true) (hc : s.Context = some ctx)
    (hn : s.Messages.length < size_t_of_int32 n)
    (hr : Renders env s.Template s.Messages false t)
    (hfit : (t.length : Int) ≤ s.FilledContextCharLength)
    (hbuf : s.FilledContextCharLength ≤ (s.ContextHistory.length : Int)) :
    RollbackContextHistoryByMessages env s n = some { s with
      bGenerationActive := false
      Context := some (llama_memory_seq_rm ctx (llama_memory_seq_pos_max ctx -
        ((env.tokenize ((s.ContextHistory.take s.FilledContextCharLength.toNat).drop
          t.length) false).length : Int)))
      FilledContextCharLength := (t.length : Int)
      ContextHistory := t } := by
  have hlt := Renders_length_lt env _ _ _ t hr
  have hszt : size_t_of_int32 (t.length : Int) = t.length :=
    size_t_of_int32_natCast _ (by omega)
  have hle : ¬ size_t_of_int32 n ≤ s.Messages.length := by omega
  unfold RollbackContextHistoryByMessages
  simp only [hl, Bool.not_true, Bool.false_eq_true, if_false, stop_if_generating, hle]
  rw [std_string_zero _ _ (by omega) hbuf]
  simp only [ApplyTemplateToContextHistory]
  rw [ApplyTemplateFromMessagesToBuffer_renders env _ _ _ _ false t hr]
  simp only []
  rw [std_string_zero _ _ (by omega) (by simp)]
  have htake : (t ++ List.replicate (s.ContextHistory.length - t.length) NUL).take
      ((t.length : Int)).toNat = t := by
    simp
  simp only [htake]
  have hsub : substr (s.ContextHistory.take s.FilledContextCharLength.toNat) t.length
      = some ((s.ContextHistory.take s.FilledContextCharLength.toNat).drop t.length) := by
    unfold substr
    have : ¬ t.length > (s.ContextHistory.take s.FilledContextCharLength.toNat).length := by
      simp
      omega
    simp only [this, if_false]
  simp only [hsub, hm, Bool.not_true, Bool.false_eq_true, if_false,
    RollbackContextHistoryByTokens, hc, hszt]
  rw [vector_resize_fit _ t _ rfl hlt]

/-- An `int32` that is negative or exceeds a vector size converts to a `size_t`
above that size. -/
theorem size_t_of_int32_above (n : Int) (len : Nat) (h32 : -2 ^ 31 ≤ n) (h32u : n < 2 ^ 31)
    (hlen : len < 2 ^ 63) (hn : n < 0 ∨ (len : Int) < n) : len < size_t_of_int32 n := by
  unfold size_t_of_int32
  omega

/-- The sizes of the paced split add up to `n * q` plus the number of indices in
`[i, i + n)` that lie below `r`. -/
theorem PacedSizes_sum (q r : Nat) (n i : Nat) :
    (PacedSizes q r n i).sum = n * q + (min (i + n) r - min i r) := by
  induction n generalizing i with
  | zero => simp [PacedSizes]
  | succ n ih =>
    simp only [PacedSizes, List.sum_cons, ih]
    have : (n + 1) * q = n * q + q := by ring
    rw [this]
    split_ifs with h <;> omega

/-- The paced split has as many sizes as sub-batches. -/
theorem PacedSizes_length (q r : Nat) (n i : Nat) : (PacedSizes q r n i).length = n := by
  induction n generalizing i with
  | zero => rfl
  | succ n ih => simp [PacedSizes, ih]

/-- Every size of the paced split is `q` or `q + 1`. -/
theorem PacedSizes_mem (q r : Nat) (n i : Nat) (k : Nat) (h : k ∈ PacedSizes q r n i) :
    k = q ∨ k = q + 1 := by
  induction n generalizing i with
  | zero => simp [PacedSizes] at h
  | succ n ih =>
    simp only [PacedSizes, List.mem_cons] at h
    rcases h with h | h
    · split_ifs at h <;> omega
    · exact ih (i + 1) h

/-- Cutting a sequence into pieces whose sizes add up to its length loses nothing. -/
theorem SplitBySizes_flatten (tokens : List llama_token) (sizes : List Nat)
    (h : sizes.sum = tokens.length) : (SplitBySizes tokens sizes).flatten = tokens := by
  induction sizes generalizing tokens with
  | nil =>
    simp only [List.sum_nil] at h
    simp [SplitBySizes, List.length_eq_zero.mp h.symm]
  | cons k ks ih =>
    simp only [List.sum_cons] at h
    simp only [SplitBySizes, List.flatten_cons]
    rw [ih (tokens.drop k) (by simp; omega), List.take_append_drop]

/-- The pieces have the sizes asked for when these fit into the sequence. -/
theorem SplitBySizes_lengths (tokens : List llama_token) (sizes : List Nat)
    (h : sizes.sum ≤ tokens.length) : (SplitBySizes tokens sizes).map List.length = sizes := by
  induction sizes generalizing tokens with
  | nil => rfl
  | cons k ks ih =>
    simp only [List.sum_cons] at h
    simp only [SplitBySizes, List.map_cons, List.length_take]
    rw [ih (tokens.drop k) (by simp; omega)]
    congr 1
    omega

/-- The paced loop of `ProcessPrompt`, started at index `StartIndex` with `n`
iterations to run, submits the pieces the remaining sizes cut from the rest of
the token sequence. -/
theorem ProcessPromptPaced_eq_SubmitBatches (env : Env) (q r : Nat)
    (PromptTokens : List llama_token) (n : Nat) :
    ∀ (i start : Nat) (s : FLlamaInternal),
      start + (PacedSizes q r n i).sum ≤ PromptTokens.length →
      ProcessPromptPaced env (q : Int) (r : Int) PromptTokens n (i : Int) (start : Int) s
        = SubmitBatches env (SplitBySizes (PromptTokens.drop start) (PacedSizes q r n i)) s := by
  induction n with
  | zero =>
    intro i start s _
    rfl
  | succ n ih =>
    intro i start s h
    simp only [PacedSizes, List.sum_cons] at h
    have hsize : (q : Int) + (if (i : Int) < (r : Int) then 1 else 0)
        = ((q + if i < r then 1 else 0 : Nat) : Int) := by
      by_cases h1 : i < r
      · have h2 : (i : Int) < (r : Int) := by exact_mod_cast h1
        simp [h1, h2]
      · have h2 : ¬ (i : Int) < (r : Int) := by exact_mod_cast h1
        simp [h1, h2]
    unfold ProcessPromptPaced
    simp only [hsize, PacedSizes, SplitBySizes, SubmitBatches]
    generalize (q + if i < r then 1 else 0) = k at h ⊢
    have hrange : vector_range PromptTokens (start : Int) ((start : Int) + (k : Int))
        = some ((PromptTokens.drop start).take k) := by
      unfold vector_range
      rw [if_pos ⟨by omega, by omega, by omega⟩]
      simp
    rw [hrange]
    cases hc : s.Context with
    | none => rfl
    | some ctx =>
      simp only []
      by_cases hchk : (size_t_of_int32 (llama_memory_seq_pos_max ctx)
          + ((PromptTokens.drop start).take k).length) % 2 ^ 64
          > size_t_of_int32 (ctx.n_ctx : Int)
      · rw [if_pos hchk, if_pos hchk]
      · rw [if_neg hchk, if_neg hchk]
        cases hd : llama_decode env ctx ((PromptTokens.drop start).take k) with
        | none => rfl
        | some ctx1 =>
          simp only []
          have hnext := ih (i + 1) (start + k) { s with Context := some ctx1 } (by omega)
          push_cast at hnext
          rw [hnext, List.drop_drop]

/-- The search for a punctuation below `n` only reads the first `n` characters. -/
theorem LastPunctuationBelow_append (xs ys : List Char) (n : Nat) (h : n ≤ xs.length) :
    LastPunctuationBelow (xs ++ ys) n = LastPunctuationBelow xs n := by
  induction n with
  | zero => rfl
  | succ n ih =>
    unfold LastPunctuationBelow
    have hget : (xs ++ ys).getD n ' ' = xs.getD n ' ' := by
      simp [List.getD_eq_getElem?_getD, List.getElem?_append_left (show n < xs.length by omega)]
    rw [hget, ih (by omega)]

/-- The search over a text that ends in `c` finds `c` when it is a punctuation and
goes on in the text before it otherwise. -/
theorem LastPunctuationBelow_concat (xs : List Char) (c : Char) :
    LastPunctuationBelow (xs ++ [c]) (xs.length + 1) =
      if IsSentenceEndingPunctuation c then some xs.length
      else LastPunctuationBelow xs xs.length := by
  conv_lhs => unfold LastPunctuationBelow
  have hget : (xs ++ [c]).getD xs.length ' ' = c := by
    simp [List.getD_eq_getElem?_getD]
  rw [hget, LastPunctuationBelow_append xs [c] xs.length (le_refl _)]

/-- The search over a whole text: it finds nothing when the text has no
punctuation, and otherwise the index of the punctuation after which no other
follows. -/
theorem LastPunctuationBelow_spec (xs : List Char) :
    ((∀ c ∈ xs, IsSentenceEndingPunctuation c = false) ∧
      LastPunctuationBelow xs xs.length = none) ∨
    (∃ a p post, xs = a ++ p :: post ∧ IsSentenceEndingPunctuation p = true ∧
      (∀ c ∈ post, IsSentenceEndingPunctuation c = false) ∧
      LastPunctuationBelow xs xs.length = some a.length) := by
  induction xs using List.reverseRecOn with
  | nil => exact Or.inl ⟨by simp, rfl⟩
  | append_singleton ys c ih =>
    have hlen : (ys ++ [c]).length = ys.length + 1 := by simp
    rw [hlen, LastPunctuationBelow_concat]
    cases hp : IsSentenceEndingPunctuation c with
    | true =>
      exact Or.inr ⟨ys, c, [], rfl, hp, by simp, by simp⟩
    | false =>
      simp only [Bool.false_eq_true, if_false]
      rcases ih with ⟨hno, hnone⟩ | ⟨a, p, post, hxs, hpp, hpost, hsome⟩
      · refine Or.inl ⟨?_, hnone⟩
        intro d hd
        rcases List.mem_append.mp hd with hd | hd
        · exact hno d hd
        · rw [List.mem_singleton.mp hd]; exact hp
      · refine Or.inr ⟨a, p, post ++ [c], by rw [hxs]; simp, hpp, ?_, hsome⟩
        intro d hd
        rcases List.mem_append.mp hd with hd | hd
        · exact hpost d hd
        · rw [List.mem_singleton.mp hd]; exact hp

/-- Dropping leading whitespace stops at the latest at a character that is none. -/
theorem dropWhile_append_singleton (ws : Char → Bool) (mid : List Char) (p : Char)
    (hp : ws p = false) : (mid ++ [p]).dropWhile ws = mid.dropWhile ws ++ [p] := by
  induction mid with
  | nil => simp [List.dropWhile, hp]
  | cons c rest ih =>
    cases hc : ws c with
    | true => simp [List.dropWhile, hc, ih]
    | false => simp [List.dropWhile, hc]

/-- Trimming a text that ends in a character that is no whitespace only drops the
leading whitespace. -/
theorem TrimWhitespace_append_singleton (ws : Char → Bool) (mid : List Char) (p : Char)
    (hp : ws p = false) : TrimWhitespace ws (mid ++ [p]) = mid.dropWhile ws ++ [p] := by
  unfold TrimWhitespace
  rw [dropWhile_append_singleton ws mid p hp, List.reverse_append]
  simp [List.dropWhile, hp]

/-- A text with its leading whitespace dropped, followed by a character that is no
whitespace, does not start with whitespace. -/
theorem head_dropWhile_append_singleton (ws : Char → Bool) (mid : List Char) (p : Char)
    (hp : ws p = false) (c : Char) (h : (mid.dropWhile ws ++ [p]).head? = some c) :
    ws c = false := by
  induction mid with
  | nil =>
    simp [List.dropWhile] at h
    rw [← h]; exact hp
  | cons d rest ih =>
    cases hd : ws d with
    | true =>
      simp only [List.dropWhile, hd] at h
      exact ih h
    | false =>
      simp [List.dropWhile, hd] at h
      rw [← h]; exact hd

/-- Dropping leading whitespace changes nothing in a text that starts with none. -/
theorem dropWhile_of_head (ws : Char → Bool) (body : List Char) (p : Char)
    (h : ∀ c, (body ++ [p]).head? = some c → ws c = false) :
    body.dropWhile ws = body := by
  cases body with
  | nil => rfl
  | cons c rest =>
    have := h c (by simp)
    simp [List.dropWhile, this]

/-- The search over a whole text finds the punctuation that no other follows. -/
theorem LastPunctuationBelow_last (a post : List Char) (p : Char)
    (hp : IsSentenceEndingPunctuation p = true)
    (hpost : ∀ c ∈ post, IsSentenceEndingPunctuation c = false) :
    LastPunctuationBelow (a ++ p :: post) (a ++ p :: post).length = some a.length := by
  induction post using List.reverseRecOn with
  | nil =>
    have h := LastPunctuationBelow_concat a p
    rw [hp] at h
    simpa using h
  | append_singleton ys c ih =>
    have hc : IsSentenceEndingPunctuation c = false := hpost c (by simp)
    have hys : ∀ d ∈ ys, IsSentenceEndingPunctuation d = false :=
      fun d hd => hpost d (by simp [hd])
    have h := LastPunctuationBelow_concat (a ++ p :: ys) c
    rw [hc] at h
    have hassoc : a ++ p :: (ys ++ [c]) = (a ++ p :: ys) ++ [c] := by simp
    have hlen : (a ++ p :: (ys ++ [c])).length = (a ++ p :: ys).length + 1 := by
      simp
      omega
    rw [hlen, hassoc, h]
    simpa using ih hys

/-- For a text whose last punctuation is `p`, `GetLastSentence` trims the stretch
`mid ++ [p]` that begins after the punctuation before `p`, or at the start of
the text when there is none. -/
theorem GetLastSentence_eq (lib : FStringLib) (a post : List Char) (p : Char)
    (hp : IsSentenceEndingPunctuation p = true)
    (hpost : ∀ c ∈ post, IsSentenceEndingPunctuation c = false) :
    ∃ pre mid, a = pre ++ mid ∧ (∀ c ∈ mid, IsSentenceEndingPunctuation c = false) ∧
      GetLastSentence lib (a ++ p :: post) = lib.TrimStartAndEnd (mid ++ [p]) := by
  have hlast := LastPunctuationBelow_last a post p hp hpost
  have hsecond : LastPunctuationBelow (a ++ p :: post) a.length
      = LastPunctuationBelow a a.length :=
    LastPunctuationBelow_append a (p :: post) a.length (le_refl _)
  unfold GetLastSentence
  rw [hlast]
  simp only [hsecond]
  rcases LastPunctuationBelow_spec a with ⟨hno, hnone⟩ | ⟨a0, q, mid, ha, _, hmid, hsome⟩
  · refine ⟨[], a, rfl, hno, ?_⟩
    rw [hnone]
    simp only [List.drop_zero, Nat.sub_zero]
    congr 1
    rw [List.take_append_eq_append_take]
    simp
  · refine ⟨a0 ++ [q], mid, by rw [ha]; simp, hmid, ?_⟩
    rw [hsome]
    simp only []
    congr 1
    rw [ha]
    have hdrop : (a0 ++ q :: mid ++ p :: post).drop (a0.length + 1) = mid ++ p :: post := by
      have : a0 ++ q :: mid ++ p :: post = (a0 ++ [q]) ++ (mid ++ p :: post) := by simp
      rw [this, List.drop_append_eq_append_drop]
      simp
    rw [hdrop]
    have hlen : (a0 ++ q :: mid).length - (a0.length + 1) + 1 = mid.length + 1 := by
      simp
      omega
    rw [hlen, List.take_append_eq_append_take]
    simp

/-- Emitting an error leaves the cache alone. -/
theorem CachedTokens_EmitErrorMessage (s : FLlamaInternal) (code : Int) :
    CachedTokens (EmitErrorMessage s code) = CachedTokens s := by
  unfold EmitErrorMessage CachedTokens
  split_ifs <;> rfl

/-- The tail of `ProcessPrompt` leaves the cache alone. -/
theorem CachedTokens_ProcessPromptDone (s : FLlamaInternal) (T : Int)
    (Role : EChatTemplateRole) :
    CachedTokens (ProcessPromptDone s T Role).1 = CachedTokens s := by
  unfold ProcessPromptDone CachedTokens
  split_ifs <;> rfl

/-- Whatever way the in-order submission ends, the cache has grown by the first `k`
batches, and `k` is the number of all batches exactly when the submission ran
through. -/
theorem SubmitBatches_prefix (env : Env) :
    ∀ (bs : List (List llama_token)) (s : FLlamaInternal) (ex : PacedExit),
      SubmitBatches env bs s = some ex →
      ∃ k, k ≤ bs.length ∧ CachedTokens ex.state = CachedTokens s ++ (bs.take k).flatten ∧
        (k = bs.length ↔ ∃ s1, ex = PacedExit.done s1) := by
  intro bs
  induction bs with
  | nil =>
    intro s ex h
    simp only [SubmitBatches, Option.some.injEq] at h
    subst h
    exact ⟨0, Nat.le_refl _, by simp [PacedExit.state], by simp⟩
  | cons b rest ih =>
    intro s ex h
    unfold SubmitBatches at h
    cases hc : s.Context with
    | none =>
      rw [hc] at h
      simp at h
    | some ctx =>
      rw [hc] at h
      simp only at h
      split_ifs at h with hchk
      · simp only [Option.some.injEq] at h
        subst h
        refine ⟨0, Nat.zero_le _, ?_, ?_⟩
        · simp [PacedExit.state, CachedTokens_EmitErrorMessage]
        · simp
      · cases hd : llama_decode env ctx b with
        | none =>
          rw [hd] at h
          simp only [Option.some.injEq] at h
          subst h
          refine ⟨0, Nat.zero_le _, ?_, ?_⟩
          · simp [PacedExit.state, CachedTokens_EmitErrorMessage]
          · simp
        | some ctx2 =>
          rw [hd] at h
          simp only at h
          obtain ⟨k, hk, hcache, hiff⟩ := ih _ ex h
          have hctx2 : ctx2.seq0 = ctx.seq0 ++ b := by
            unfold llama_decode at hd
            split_ifs at hd
            simp only [Option.some.injEq] at hd
            rw [← hd]
          refine ⟨k + 1, by simpa using hk, ?_, ?_⟩
          · rw [hcache]
            simp [CachedTokens, hc, hctx2, List.append_assoc]
          · rw [← hiff]
            simp

/-- When the batches fit into the context behind the cached tokens and each decode
succeeds, the in-order submission runs through and the cache grows by all of
them. -/
theorem SubmitBatches_all (env : Env) (n : Nat) (hn : n < 2 ^ 63) :
    ∀ (bs : List (List llama_token)) (s : FLlamaInternal) (c : List llama_token),
      s.Context = some { n_ctx := n, seq0 := c } →
      c.length + bs.flatten.length ≤ n →
      (c ≠ [] ∨ ∀ b ∈ bs.head?, b ≠ []) →
      (∀ k, k < bs.length →
        env.decode_fails (c ++ (bs.take k).flatten) (bs.getD k []) = false) →
      SubmitBatches env bs s = some (PacedExit.done
        { s with Context := some { n_ctx := n, seq0 := c ++ bs.flatten } }) := by
  intro bs
  induction bs with
  | nil =>
    intro s c hc _ _ _
    cases s
    simp only at hc
    simp [SubmitBatches, hc]
  | cons b rest ih =>
    intro s c hc hfit hne hdec
    unfold SubmitBatches
    rw [hc]
    simp only
    have hlen : c.length + b.length + rest.flatten.length ≤ n := by
      simpa [Nat.add_assoc] using hfit
    have hpos : 1 ≤ c.length + b.length := by
      rcases hne with h | h
      · have := List.length_pos.mpr h
        omega
      · have := List.length_pos.mpr (h b (by simp))
        omega
    have hchk : ¬ ((size_t_of_int32 (llama_memory_seq_pos_max { n_ctx := n, seq0 := c })
        + b.length) % 2 ^ 64 > size_t_of_int32 ((n : Nat) : Int)) := by
      simp only [size_t_of_int32, llama_memory_seq_pos_max]
      omega
    rw [if_neg hchk]
    have hd0 := hdec 0 (by simp)
    simp only [List.take_zero, List.flatten_nil, List.append_nil, List.getD_cons_zero] at hd0
    have hd : llama_decode env { n_ctx := n, seq0 := c } b
        = some { n_ctx := n, seq0 := c ++ b } := by
      unfold llama_decode
      simp [hd0]
    rw [hd]
    simp only
    have hih := ih { s with Context := some { n_ctx := n, seq0 := c ++ b } } (c ++ b) rfl
      (by simpa using hlen)
      (Or.inl (by
        intro h
        have := congrArg List.length h
        rw [List.length_append, List.length_nil] at this
        omega))
      (by
        intro k hk
        have := hdec (k + 1) (by simpa using hk)
        simpa [List.append_assoc] using this)
    rw [hih]
    simp [List.append_assoc]

/-- The first sub-batch of a non-empty token sequence is not empty. -/
theorem PacedBatches_head_ne_nil (tokens : List llama_token) (N : Nat) (hN : 1 ≤ N)
    (ht : tokens ≠ []) : ∀ b ∈ (PacedBatches tokens N).head?, b ≠ [] := by
  obtain ⟨M, rfl⟩ : ∃ M, N = M + 1 := ⟨N - 1, by omega⟩
  intro b hb
  unfold PacedBatches at hb
  simp only [PacedSizes, SplitBySizes, List.head?_cons, Option.mem_def,
    Option.some.injEq] at hb
  subst hb
  have hT := List.length_pos.mpr ht
  have h2 := Nat.div_add_mod tokens.length (M + 1)
  have hk : 1 ≤ tokens.length / (M + 1) + (if 0 < tokens.length % (M + 1) then 1 else 0) := by
    by_cases hr : 0 < tokens.length % (M + 1)
    · simp [hr]
    · have hr0 : tokens.length % (M + 1) = 0 := by omega
      rw [hr0] at h2
      have : 0 < tokens.length / (M + 1) := by
        rcases Nat.eq_zero_or_pos (tokens.length / (M + 1)) with h | h
        · rw [h] at h2
          simp at h2
          omega
        · exact h
      omega
  intro h
  have := congrArg List.length h
  simp only [List.length_take, List.length_nil] at this
  omega

/-! ### General forms -/

/-- Where the message rollback resynchronises: on a loaded engine, for
`0 ≤ n ≤ message count`, if the active template renders the first `count - n`
messages without assistant opening to a text `t` that is not longer than the
filled part of the buffer, then `RollbackContextHistoryByMessages(n)` returns,
keeps exactly the first `count - n` messages, and the filled length and the size
of the rendered buffer both equal the length that rendering those messages from
scratch returns. -/
theorem RollbackContextHistoryByMessages_resyncs (env : Env) (s : FLlamaInternal) (n : Int)
    (ctx : llama_context) (t : List Char)
    (hl : s.bIsModelLoaded = true) (hm : s.LlamaModel = true) (hc : s.Context = some ctx)
    (hn0 : 0 ≤ n) (hn32 : n < 2 ^ 31) (hn : n ≤ (s.Messages.length : Int))
    (hr : Renders env s.Template (s.Messages.take (s.Messages.length - n.toNat)) false t)
    (hfit : (t.length : Int) ≤ s.FilledContextCharLength)
    (hbuf : s.FilledContextCharLength ≤ (s.ContextHistory.length : Int)) :
    ∃ s' L, RollbackContextHistoryByMessages env s n = some s' ∧
      RenderFromScratch env s (s.Messages.take (s.Messages.length - n.toNat)) false = some L ∧
      s'.Messages = s.Messages.take (s.Messages.length - n.toNat) ∧
      s'.FilledContextCharLength = L ∧ (s'.ContextHistory.length : Int) = L ∧
      s'.ContextHistory = t := by
  refine ⟨_, (t.length : Int),
    RollbackContextHistoryByMessages_eq env s n ctx t hl hm hc hn0 hn32 hn hr hfit hbuf,
    ?_, rfl, rfl, rfl, rfl⟩
  unfold RenderFromScratch
  rw [ApplyTemplateFromMessagesToBuffer_renders env s _ _ _ false t hr]

/-- Rolling back the reply of `demo_replied` resynchronises. -/
theorem RollbackContextHistoryByMessages_resyncs_at_demo :
    ∃ s' L, RollbackContextHistoryByMessages demo demo_replied 1 = some s' ∧
      RenderFromScratch demo demo_replied
        (demo_replied.Messages.take (demo_replied.Messages.length - (1 : Int).toNat)) false
        = some L ∧
      s'.Messages = demo_replied.Messages.take
        (demo_replied.Messages.length - (1 : Int).toNat) ∧
      s'.FilledContextCharLength = L ∧ (s'.ContextHistory.length : Int) = L ∧
      s'.ContextHistory = demo_render [hello_message] false :=
  RollbackContextHistoryByMessages_resyncs demo demo_replied 1
    { n_ctx := 64, seq0 := (demo_render [hello_message] true
        ++ ['o', 'k']).map (fun c => (c.toNat : Int)) }
    (demo_render [hello_message] false)
    (by decide) (by decide) (by decide) (by decide) (by decide) (by decide)
    ⟨⟨by decide, rfl⟩, ⟨by decide, rfl⟩⟩ (by decide) (by decide)

/-- What `InsertTemplatedPrompt` does with a prompt that exceeds the context: on a
loaded engine in single-batch mode, for a non-empty prompt whose newly rendered
text tokenizes to more tokens than `maxContext - usedContext`,
`InsertTemplatedPrompt` without reply emits error 22 and leaves the cache as it
was, but the prompt's message stays appended to the message list and the filled
length advances to the new rendered length; with reply generation it goes on to
run `Generate` on exactly that state. -/
theorem InsertTemplatedPrompt_overflow_keeps_message (env : Env) (s : FLlamaInternal)
    (ctx : llama_context) (Prompt : List Char) (Role : EChatTemplateRole) (b : Bool)
    (t : List Char)
    (hl : s.bIsModelLoaded = true) (hm : s.LlamaModel = true) (hc : s.Context = some ctx)
    (hp : Prompt.length ≠ 0)
    (hpace : s.LastLoadedParams.Advanced.PromptProcessingPacingSleep = 0)
    (hr : Renders env s.Template
      (s.Messages ++ [{ role := RoleForEnum Role, content := c_str Prompt }]) b t)
    (hpos : 0 < t.length) (hf0 : 0 ≤ s.FilledContextCharLength)
    (hf : s.FilledContextCharLength ≤ (t.length : Int))
    (hover : ((env.tokenize (t.drop s.FilledContextCharLength.toNat)
      (UsedContext s == 0)).length : Int) > MaxContext s - UsedContext s) :
    ∃ s1, InsertTemplatedPrompt env s Prompt Role b false = some (s1, []) ∧
      s1.Messages = s.Messages ++ [{ role := RoleForEnum Role, content := c_str Prompt }] ∧
      s1.Context = s.Context ∧
      s1.trace = s.trace ++ (if s.OnError then [Event.Error 22] else []) ∧
      s1.FilledContextCharLength = (t.length : Int) ∧
      InsertTemplatedPrompt env s Prompt Role b true = Generate env s1 [] true := by
  have h1 := InsertTemplatedPrompt_overflow env s ctx Prompt Role b false t hl hm hc hp hpace
    hr hpos hf0 hf (by omega)
  have h2 := InsertTemplatedPrompt_overflow env s ctx Prompt Role b true t hl hm hc hp hpace
    hr hpos hf0 hf (by omega)
  simp only [Bool.false_eq_true, if_false] at h1
  simp only [if_true] at h2
  exact ⟨_, h1, rfl, rfl, rfl, rfl, h2⟩

/-- The prompt `hello` inserted into the context of 8 positions. -/
theorem InsertTemplatedPrompt_overflow_keeps_message_at_demo :
    ∃ s1, InsertTemplatedPrompt demo demo_small hello EChatTemplateRole.User true false
        = some (s1, []) ∧
      s1.Messages = demo_small.Messages ++
        [{ role := RoleForEnum EChatTemplateRole.User, content := c_str hello }] ∧
      s1.Context = demo_small.Context ∧
      s1.trace = demo_small.trace ++ (if demo_small.OnError then [Event.Error 22] else []) ∧
      s1.FilledContextCharLength
        = ((demo_render [hello_message] true).length : Int) ∧
      InsertTemplatedPrompt demo demo_small hello EChatTemplateRole.User true true
        = Generate demo s1 [] true :=
  InsertTemplatedPrompt_overflow_keeps_message demo demo_small { n_ctx := 8, seq0 := [] } hello
    EChatTemplateRole.User true (demo_render [hello_message] true)
    (by decide) (by decide) (by decide) (by decide) (by decide)
    ⟨⟨by decide, rfl⟩, ⟨by decide, rfl⟩⟩ (by decide) (by decide) (by decide) (by decide)

/-- The bound the check in the loop of `Generate` does give, in terms of the value
`UsedContext()` reports, which is the largest position in use and so one less
than the number of cached tokens.  `Generate` is only ever called with the empty
prompt.  For every runtime, on an engine with model, context and sampler whose
reported used context is within the maximum context: the generation loop
reaches an exit, and whenever `Generate` returns, the cache has only grown, by
at most `MaxContext - UsedContext` tokens as reported at the start, the maximum
context is unchanged and the reported used context is still within it. -/
theorem Generate_growth_within_reported_context (env : Env) (s : FLlamaInternal)
    (ctx : llama_context) (b : Bool)
    (hm : s.LlamaModel = true) (hc : s.Context = some ctx)
    (hs : (s.CommonSampler || s.Sampler) = true)
    (hctx : UsedContext s ≤ MaxContext s) :
    (∃ ex, GenerateRun env s [] = some ex) ∧
    ∀ s' r, Generate env s [] b = some (s', r) →
      ∃ new : List llama_token, CachedTokens s' = CachedTokens s ++ new ∧
        (new.length : Int) ≤ MaxContext s - UsedContext s ∧
        MaxContext s' = MaxContext s ∧ UsedContext s' ≤ MaxContext s' := by
  refine ⟨GenerateRun_returns env s ctx hm hc hs, ?_⟩
  intro s' r hgen
  unfold Generate at hgen
  cases hrun : GenerateRun env s [] with
  | none =>
    simp [hrun] at hgen
  | some ex =>
    obtain ⟨_, ctx2, hc2, hloop⟩ := GenerateRun_nil_some env s ex hrun
    rw [hc] at hc2
    cases hc2
    obtain ⟨new, h1, _, h3, _, _⟩ := GenerateLoop_inv env _ _ _ 0
      { s with bGenerationActive := true } [] 0 ctx ex hc hloop
    have hs' : s'.Context = some { n_ctx := ctx.n_ctx, seq0 := ctx.seq0 ++ new } := by
      rw [hrun] at hgen
      cases ex with
      | returned sL R code =>
        simp only [Option.some.injEq, Prod.mk.injEq] at hgen
        rw [← hgen.1]
        exact h1
      | finished sL R n e =>
        simp only at hgen
        rw [GenerateFinish_context env sL s' R r n b hgen]
        exact h1
    unfold UsedContext MaxContext at hctx
    rw [hc] at hctx
    simp only [llama_memory_seq_pos_max] at hctx h3
    refine ⟨new, ?_, ?_, ?_, ?_⟩
    · simp [CachedTokens, hs', hc]
    · simp only [UsedContext, MaxContext, hc, llama_memory_seq_pos_max]
      rcases h3 with h3 | h3
      · subst h3
        simp
        omega
      · omega
    · simp [MaxContext, hs', hc]
    · simp only [UsedContext, MaxContext, hs', llama_memory_seq_pos_max, List.length_append]
      rcases h3 with h3 | h3
      · subst h3
        simp
        omega
      · push_cast
        omega

/-- The reply generated after `hello` was inserted stays within the reported
bound. -/
theorem Generate_growth_within_reported_context_at_demo :
    ∃ new : List llama_token, CachedTokens demo_replied = CachedTokens demo_inserted ++ new ∧
      (new.length : Int) ≤ MaxContext demo_inserted - UsedContext demo_inserted ∧
      MaxContext demo_replied = MaxContext demo_inserted ∧
      UsedContext demo_replied ≤ MaxContext demo_replied :=
  (Generate_growth_within_reported_context demo demo_inserted
    { n_ctx := 64, seq0 := (demo_render [hello_message] true).map (fun c => (c.toNat : Int)) }
    true (by decide) (by decide) (by decide) (by decide)).2 demo_replied ['o', 'k'] (by rfl)

/-- The delegation in `ResetContextHistory`: on a loaded engine with more than one
message, `ResetContextHistory(true)` has the same outcome as
`RollbackContextHistoryByMessages(count - 1)`; and when the active template
renders the first message without assistant opening to a text no longer than the
filled part of the buffer, that outcome is a state in which exactly the first
message remains and the filled length is the length of that rendering. -/
theorem ResetContextHistory_keep_is_rollback (env : Env) (s : FLlamaInternal) (ctx : llama_context)
    (hl : s.bIsModelLoaded = true) (hm : s.LlamaModel = true) (hc : s.Context = some ctx)
    (hcount : 1 < s.Messages.length) (h32 : s.Messages.length < 2 ^ 31) :
    ResetContextHistory env s true
      = RollbackContextHistoryByMessages env s ((s.Messages.length : Int) - 1) ∧
    ∀ t, Renders env s.Template (s.Messages.take 1) false t →
      (t.length : Int) ≤ s.FilledContextCharLength →
      s.FilledContextCharLength ≤ (s.ContextHistory.length : Int) →
      ∃ s', ResetContextHistory env s true = some s' ∧ s'.Messages = s.Messages.take 1 ∧
        s'.FilledContextCharLength = (t.length : Int) ∧
        RenderFromScratch env s (s.Messages.take 1) false = some (t.length : Int) := by
  have heq : ResetContextHistory env s true
      = RollbackContextHistoryByMessages env s ((s.Messages.length : Int) - 1) := by
    unfold ResetContextHistory
    rw [if_neg (by simp [hl])]
    simp only [stop_if_generating, if_true, hcount, gt_iff_lt]
    rw [RollbackContextHistoryByMessages_stopped env s _ hl, int32_of_size_t_small _ (by omega)]
    congr 1
    omega
  refine ⟨heq, ?_⟩
  intro t hr hfit hbuf
  have hk : s.Messages.length - ((s.Messages.length : Int) - 1).toNat = 1 := by omega
  have hroll := RollbackContextHistoryByMessages_eq env s ((s.Messages.length : Int) - 1) ctx t
    hl hm hc (by omega) (by omega) (by omega) (by rw [hk]; exact hr) hfit hbuf
  refine ⟨_, heq.trans hroll, ?_, rfl, ?_⟩
  · simp only [hk]
  · unfold RenderFromScratch
    rw [ApplyTemplateFromMessagesToBuffer_renders env s _ _ _ false t hr]

/-- On `demo_replied`, `ResetContextHistory(true)` leaves the User message and a
filled length of 11. -/
theorem ResetContextHistory_keep_is_rollback_at_demo :
    ∃ s', ResetContextHistory demo demo_replied true = some s' ∧
      s'.Messages = demo_replied.Messages.take 1 ∧
      s'.FilledContextCharLength = ((demo_render [hello_message] false).length : Int) ∧
      RenderFromScratch demo demo_replied (demo_replied.Messages.take 1) false
        = some ((demo_render [hello_message] false).length : Int) :=
  (ResetContextHistory_keep_is_rollback demo demo_replied
    { n_ctx := 64, seq0 := (demo_render [hello_message] true
        ++ ['o', 'k']).map (fun c => (c.toNat : Int)) }
    (by decide) (by decide) (by decide) (by decide) (by decide)).2
    (demo_render [hello_message] false) ⟨⟨by decide, rfl⟩, ⟨by decide, rfl⟩⟩
    (by decide) (by decide)

/-! ## Claims -/

/-! ### Claim C1 -/

/-- C1 (failing input): the engine that holds `hello` and the reply `ok` is reloaded
by `UnloadModel` and `LoadModelFromParams`, as `FLlamaNative::LoadModel` does by
default.  It is loaded and still holds its two messages, but its buffer is empty
and its filled length is 0.  Rendering the first message from scratch returns
11, so a rollback by one message should leave a filled length and a buffer size
of 11; instead `RollbackContextHistoryByMessages(1)` throws at
`FullPrompt.substr` and no state is produced. -/
theorem C1_rollback_after_reload_throws :
    IsModelLoaded demo_reloaded = true ∧
    demo_reloaded.Messages.length = 2 ∧
    demo_reloaded.ContextHistory = [] ∧
    demo_reloaded.FilledContextCharLength = 0 ∧
    RenderFromScratch demo demo_reloaded (demo_reloaded.Messages.take (2 - 1)) false
      = some 11 ∧
    RollbackContextHistoryByMessages demo demo_reloaded 1 = none := by
  decide

/-! ### Claim C2 -/

/-- C2 (as stated, refuted): on the freshly loaded engine, `hello` is inserted as
User with the assistant opening added and the reply `ok` is generated up to the
end-of-generation token.  Right after the prompt was rendered the buffer read
`user:hello;assistant:`; after `RollbackContextHistoryByMessages(1)` exactly
the User message remains, but the buffer reads `user:hello;`. -/
theorem C2_counterexample :
    IsModelLoaded demo_loaded = true ∧ demo_loaded.Messages = [] ∧
    (InsertTemplatedPrompt demo demo_loaded hello EChatTemplateRole.User true false).map
      (fun r => r.1.ContextHistory)
      = some (demo_render [hello_message] true) ∧
    (GenerateRun demo demo_inserted []).map LoopExit.bEOGExit = some true ∧
    ((InsertTemplatedPrompt demo demo_loaded hello EChatTemplateRole.User true true).bind
      (fun r => RollbackContextHistoryByMessages demo r.1 1)).map
      (fun s => (s.Messages, s.ContextHistory))
      = some ([hello_message], demo_render [hello_message] false) ∧
    demo_render [hello_message] false ≠ demo_render [hello_message] true := by
  refine ⟨by decide, by decide, by decide, by rfl, by decide, by decide⟩

/-- C2 (amended): on a loaded engine with an empty conversation, let `hello` be
inserted as User with either value of `addAssistantBoS`, the generation end by
an end-of-generation token, and `RollbackContextHistoryByMessages(1)` follow
(the template rendering the lists involved, the one-message list no longer than
the two-message list).  Then exactly the User message `hello` remains and the
rendered buffer is the rendering of that message without assistant opening.
The buffer right after the prompt was rendered is the rendering with the
`addAssistantBoS` that was passed, so the two buffers are identical for
`addAssistantBoS = false`. -/
theorem C2_round_trip_restores_unopened_rendering (env : Env) (s sb sL : FLlamaInternal)
    (rb R : List Char) (n : Int) (b : Bool) (tb t0 t2 : List Char)
    (hl : s.bIsModelLoaded = true) (hM : s.Messages = []) (hH : s.ContextHistory = [])
    (hF : s.FilledContextCharLength = 0)
    (hb : InsertTemplatedPrompt env s hello EChatTemplateRole.User b false = some (sb, rb))
    (hrun : GenerateRun env sb [] = some (LoopExit.finished sL R n true))
    (hrb : Renders env s.Template [hello_message] b tb)
    (hr0 : Renders env s.Template [hello_message] false t0)
    (hr2 : Renders env s.Template [hello_message,
      { role := RoleForEnum EChatTemplateRole.Assistant, content := c_str R }] false t2)
    (hmono : t0.length ≤ t2.length) :
    ∃ sg sa, InsertTemplatedPrompt env s hello EChatTemplateRole.User b true = some (sg, R) ∧
      RollbackContextHistoryByMessages env sg 1 = some sa ∧
      sa.Messages = [hello_message] ∧ sa.ContextHistory = t0 ∧ sb.ContextHistory = tb ∧
      (b = false → sa.ContextHistory = sb.ContextHistory) := by
  have hcs : c_str hello = hello := by decide
  have hrb' : Renders env s.Template (s.Messages ++
      [{ role := RoleForEnum EChatTemplateRole.User, content := c_str hello }]) b tb := by
    rw [hM, hcs]
    exact hrb
  have hins := fun g => InsertTemplatedPrompt_renders env s hello EChatTemplateRole.User b g tb
    hl (by decide) hrb' (by omega) (by omega)
  -- the state after the prompt was inserted
  have hsb : conversation sb = conversation { s with
      Messages := [hello_message]
      ContextHistory := tb
      FilledContextCharLength := (tb.length : Int) } ∧
      InsertTemplatedPrompt env s hello EChatTemplateRole.User b true
        = Generate env sb [] true := by
    have h1 := hins false
    have h2 := hins true
    rw [hb] at h1
    generalize hproc : (if (tb.length : Int) > 0 then
          match ProcessPrompt env { s with
              Messages := s.Messages ++
                [{ role := RoleForEnum EChatTemplateRole.User, content := c_str hello }]
              ContextHistory := tb ++ List.replicate (s.ContextHistory.length - tb.length) NUL }
              (tb.drop s.FilledContextCharLength.toNat) EChatTemplateRole.User with
          | none => none
          | some (s2, _) => some s2
        else some { s with
          Messages := s.Messages ++
            [{ role := RoleForEnum EChatTemplateRole.User, content := c_str hello }]
          ContextHistory := tb ++ List.replicate (s.ContextHistory.length - tb.length) NUL })
        = proc at h1 h2
    cases proc with
    | none =>
      simp at h1
    | some s2 =>
      simp only [Bool.false_eq_true, if_false, Option.some.injEq, Prod.mk.injEq] at h1
      simp only [if_true] at h2
      have hs2 : conversation s2 = conversation { s with
          Messages := [hello_message]
          ContextHistory := tb } := by
        split at hproc
        · cases hpp : ProcessPrompt env { s with
              Messages := s.Messages ++
                [{ role := RoleForEnum EChatTemplateRole.User, content := c_str hello }]
              ContextHistory := tb ++ List.replicate (s.ContextHistory.length - tb.length) NUL }
              (tb.drop s.FilledContextCharLength.toNat) EChatTemplateRole.User with
          | none =>
            simp [hpp] at hproc
          | some res =>
            obtain ⟨s3, v⟩ := res
            simp only [hpp, Option.some.injEq] at hproc
            rw [← hproc, ProcessPrompt_conversation env _ s3 _ _ v hpp]
            simp [conversation, hM, hH, hcs, hello_message]
        · simp only [Option.some.injEq] at hproc
          rw [← hproc]
          simp [conversation, hM, hH, hcs, hello_message]
      refine ⟨?_, ?_⟩
      · rw [h1.1]
        have := congrArg (fun x => { x with FilledContextCharLength := (tb.length : Int) }) hs2
        exact this
      · rw [h2, ← h1.1]
  obtain ⟨hconv, hgo⟩ := hsb
  obtain ⟨hbM, hbT, hbH, _, _, hbL, hbF, _⟩ := conversation_fields _ _ hconv
  simp only at hbM hbT hbH hbL hbF
  -- the generation
  obtain ⟨hmodel, ctx, hc, hloop⟩ := GenerateRun_nil_some env sb _ hrun
  obtain ⟨new, h1, h2, _, _, _⟩ := GenerateLoop_inv env _ _ _ 0
    { sb with bGenerationActive := true } [] 0 ctx _ hc hloop
  obtain ⟨hLM, hLT, hLH, _, hLm, hLl, _, _⟩ :=
    conversation_fields sL { sb with bGenerationActive := true } h2
  simp only [LoopExit.state] at h1
  simp only at hLM hLT hLH hLm hLl
  have hr2' : Renders env sL.Template (sL.Messages ++
      [{ role := RoleForEnum EChatTemplateRole.Assistant, content := c_str R }]) false t2 := by
    rw [hLM, hLT, hbM, hbT]
    exact hr2
  have hgen : Generate env sb [] true = GenerateFinish env sL R n true := by
    unfold Generate
    rw [hrun]
  rw [hgo, hgen, GenerateFinish_append env sL R n t2 hr2']
  have hlt2 := Renders_length_lt env _ _ _ t2 hr2
  have hroll := RollbackContextHistoryByMessages_eq env { sL with
      bGenerationActive := false
      Messages := sL.Messages ++
        [{ role := RoleForEnum EChatTemplateRole.Assistant, content := c_str R }]
      ContextHistory := t2 ++ List.replicate (sL.ContextHistory.length - t2.length) NUL
      FilledContextCharLength := (t2.length : Int)
      trace := sL.trace ++
        (if sL.OnGenerationComplete then [Event.GenerationComplete R n] else []) }
    1 _ t0 (by rw [hLl, hbL, hl]) (by rw [hLm]; exact hmodel) h1 (by omega) (by omega)
    (by simp [hLM, hbM]) (by simpa [hLM, hLT, hbM, hbT] using hr0) (by simp; omega)
    (by simp)
  refine ⟨_, _, rfl, hroll, ?_, rfl, hbH, ?_⟩
  · simp [hLM, hbM]
  · intro hbf
    subst hbf
    rw [hbH]
    obtain ⟨⟨_, e1⟩, _⟩ := hrb
    obtain ⟨⟨_, e2⟩, _⟩ := hr0
    rw [e1] at e2
    injection e2 with e3
    exact e3.symm

/-- C2 (amended), instance: the round trip on the freshly loaded engine without
assistant opening; the buffer after the rollback is the buffer right after the
insert. -/
theorem C2_round_trip_witness :
    ∃ sg sa, InsertTemplatedPrompt demo demo_loaded hello EChatTemplateRole.User false true
        = some (sg, ['o', 'k']) ∧
      RollbackContextHistoryByMessages demo sg 1 = some sa ∧
      sa.Messages = [hello_message] ∧
      sa.ContextHistory = demo_render [hello_message] false ∧
      demo_inserted_plain.ContextHistory = demo_render [hello_message] false ∧
      (false = false → sa.ContextHistory = demo_inserted_plain.ContextHistory) :=
  C2_round_trip_restores_unopened_rendering demo demo_loaded demo_inserted_plain _ []
    ['o', 'k'] 2 false (demo_render [hello_message] false) (demo_render [hello_message] false)
    (demo_render [hello_message,
      ⟨RoleForEnum EChatTemplateRole.Assistant, ['o', 'k']⟩] false)
    (by decide) (by decide) (by decide) (by decide) (by rfl) (by rfl)
    ⟨⟨by decide, rfl⟩, ⟨by decide, rfl⟩⟩ ⟨⟨by decide, rfl⟩, ⟨by decide, rfl⟩⟩
    ⟨⟨by decide, rfl⟩, ⟨by decide, rfl⟩⟩ (by decide)

/-! ### Claim C3 -/

/-- C3 (failing input): the rendered prompt has 21 tokens and the context 8
positions.  `InsertTemplatedPrompt` without reply emits error 22 and decodes
nothing, yet the message list, empty before the call, holds the prompt's
message afterwards and the filled length has advanced to 21.  With reply
generation the call also goes on to generate: the reply `ok` is sampled on a
cache that never received the prompt, and the message list ends with two
messages. -/
theorem C3_overflow_keeps_message_and_generates :
    IsModelLoaded demo_small = true ∧ demo_small.Messages = [] ∧
    ((demo.tokenize (demo_render [hello_message] true)
      (UsedContext demo_small == 0)).length : Int)
      > MaxContext demo_small - UsedContext demo_small ∧
    (InsertTemplatedPrompt demo demo_small hello EChatTemplateRole.User true false).map
      (fun r => (r.1.Messages, r.1.trace, r.1.FilledContextCharLength, CachedTokens r.1))
      = some ([hello_message], [Event.Error 22], 21, []) ∧
    (InsertTemplatedPrompt demo demo_small hello EChatTemplateRole.User true true).map
      (fun r => (r.1.Messages, r.1.trace, r.1.FilledContextCharLength, CachedTokens r.1, r.2))
      = some ([hello_message, ⟨RoleForEnum EChatTemplateRole.Assistant, ['o', 'k']⟩],
          [Event.Error 22, Event.TokenGenerated ['o'], Event.TokenGenerated ['k'],
            Event.GenerationComplete ['o', 'k'] 2], 24, [111, 107], ['o', 'k']) := by
  refine ⟨by decide, by decide, by decide, by decide, by rfl⟩

/-! ### Claim C4 -/

/-- C4 (failing input): in paced mode with 2 batches, 8 positions and 2 cached tokens,
a prompt of 10 tokens exceeds the context as a whole (1 + 10 > 8), yet
`ProcessPrompt` decodes its first batch of 5 tokens into the cache before the
check of the second batch emits error 22 and returns 0. -/
theorem C4_paced_overflow_decodes_first_batch :
    demo_paced.LastLoadedParams.Advanced.PromptProcessingPacingSleep ≠ 0 ∧
    UsedContext demo_paced + ((demo.tokenize raw_digits (UsedContext demo_paced == 0)).length
      : Int) > MaxContext demo_paced ∧
    (ProcessPrompt demo demo_paced raw_digits EChatTemplateRole.Unknown).map
      (fun r => (CachedTokens r.1, r.2, r.1.trace))
      = some (CachedTokens demo_paced ++ [48, 49, 50, 51, 52], 0,
          demo_paced.trace ++ [Event.Error 22]) := by
  decide

/-! ### Claim C5 -/

/-- C5 (failing input): with 4 positions, 4 cached tokens and a sampler that keeps
drawing ordinary tokens, `Generate` leaves through the context-exceeded return
(error 31) and `IsGenerating()` is still true after it returned. -/
theorem C5_context_exceeded_leaves_flag_set :
    (Generate demo demo_full [] true).map
      (fun r => (r.2, IsGenerating r.1, r.1.trace.getLast?, completions r.1.trace))
      = some (['o', 'k'], true, some (Event.Error 31), []) := by
  rfl

/-! ### Claim C6 -/

/-- C6 (failing input): the context has 4 positions and the cache holds 4 tokens,
so `maxContext - usedContext` is 0 and nothing more may be decoded.  `Generate`
measures the used context as the largest position, 3, so its check
`NContextUsed + NDecoded > NContext` lets the first sampled token through.  With
a runtime that accepts the decode the cache then holds 5 tokens in a context of
4 (`UsedContext()` reports 4) before the second token trips error 31; with a
runtime whose memory has 4 cells the decode is attempted and refused, and the
call ends with the decode error 32 instead of the context error 31. -/
theorem C6_generate_decodes_into_full_context :
    MaxContext demo_full = 4 ∧ CachedTokens demo_full = [97, 98, 99, 100] ∧
    UsedContext demo_full = 3 ∧
    (Generate demo demo_full [] true).map
      (fun r => (CachedTokens r.1, MaxContext r.1, UsedContext r.1, r.1.trace.getLast?))
      = some ([97, 98, 99, 100, 111], 4, 4, some (Event.Error 31)) ∧
    (Generate demo_tight demo_full [] true).map
      (fun r => (r.2, CachedTokens r.1, r.1.trace.getLast?))
      = some (['o'], [97, 98, 99, 100], some (Event.Error 32)) := by
  refine ⟨by decide, by decide, by decide, by rfl, by rfl⟩

/-! ### Claim C7 -/

/-- C7 (as stated, refuted): on the engine with 4 positions and 4 cached tokens (the
state the raw prompt `abcd` leaves under this runtime too), a stop request
arrives during the first iteration; the decode of that iteration's token fails
on the full cache, and `Generate` returns the text `o` through the
decode-failure exit without ever invoking the bound generation-complete
callback. -/
theorem C7_counterexample :
    (InsertRawPrompt demo_stopped_tight demo_loaded_four raw_abcd false).map Prod.fst
      = some demo_full ∧
    demo_stopped_tight.stop_requested 0 = false ∧
    demo_stopped_tight.stop_requested 1 = true ∧
    demo_full.OnGenerationComplete = true ∧
    (Generate demo_stopped_tight demo_full [] true).map
      (fun r => (r.2, IsGenerating r.1, completions r.1.trace, r.1.trace.getLast?))
      = some (['o'], false, [], some (Event.Error 32)) := by
  refine ⟨by decide, by decide, by decide, by decide, by rfl⟩

/-- C7 (amended): if another thread clears the flag during iteration `j` of
`Generate` and `Generate` does not leave through its context-exceeded or
decode-failure return, then (with the generation-complete callback bound and,
for history appending, the new message list rendering) `Generate` returns after
at most `j + 1` tokens, each of them decoded into the cache; the
generation-complete callback is invoked exactly once, with exactly the text of
those tokens, which is also the returned text; and `IsGenerating()` is false. -/
theorem C7_stop_completes_token_and_reports_once (env : Env) (s sL : FLlamaInternal)
    (b : Bool) (j : Nat) (R : List Char) (n : Int) (e : Bool) (t : List Char)
    (hstop : env.stop_requested (j + 1) = true)
    (hrun : GenerateRun env s [] = some (LoopExit.finished sL R n e))
    (hcb : s.OnGenerationComplete = true)
    (hr : b = true → Renders env s.Template (s.Messages ++
      [{ role := RoleForEnum EChatTemplateRole.Assistant, content := c_str R }]) false t) :
    ∃ s', Generate env s [] b = some (s', R) ∧ IsGenerating s' = false ∧
      completions s'.trace = completions s.trace ++ [(R, n)] ∧ n ≤ (j : Int) + 1 ∧
      ∃ new : List llama_token, CachedTokens s' = CachedTokens s ++ new ∧
        (new.length : Int) = n ∧ R = (new.map env.token_to_piece).flatten := by
  obtain ⟨_, ctx, hc, hloop⟩ := GenerateRun_nil_some env s _ hrun
  obtain ⟨new, h1, h2, _, h4, h5⟩ := GenerateLoop_inv env _ _ _ 0
    { s with bGenerationActive := true } [] 0 ctx _ hc hloop
  obtain ⟨hn, hR, _⟩ := h5 sL R n e rfl
  have hbound := GenerateLoop_stop env _ _ j hstop _ 0 _ [] 0 sL R n e (by omega) hloop
  obtain ⟨hM, hT, _, hC, _⟩ := conversation_fields sL { s with bGenerationActive := true } h2
  simp only [LoopExit.state] at h1 h4
  simp only at hM hT hC h4
  have hgen : Generate env s [] b = GenerateFinish env sL R n b := by
    unfold Generate
    rw [hrun]
  cases b with
  | false =>
    rw [hgen, GenerateFinish_plain]
    refine ⟨_, rfl, rfl, ?_, by omega, new, ?_, ?_, ?_⟩
    · simp [completions_append, h4, hC, hcb, completions]
    · simp [CachedTokens, h1, hc]
    · omega
    · simpa using hR
  | true =>
    have hr' := hr rfl
    rw [← hM, ← hT] at hr'
    rw [hgen, GenerateFinish_append env sL R n t hr']
    refine ⟨_, rfl, rfl, ?_, by omega, new, ?_, ?_, ?_⟩
    · simp [completions_append, h4, hC, hcb, completions]
    · simp [CachedTokens, h1, hc]
    · omega
    · simpa using hR

/-- C7 (amended), instance: a stop during the first iteration of the reply to
`hello`; the reply is cut to `o`. -/
theorem C7_stop_witness :
    ∃ s', Generate demo_stopped demo_inserted [] true = some (s', ['o']) ∧
      IsGenerating s' = false ∧
      completions s'.trace = completions demo_inserted.trace ++ [(['o'], 1)] ∧
      (1 : Int) ≤ ((0 : Nat) : Int) + 1 ∧
      ∃ new : List llama_token, CachedTokens s' = CachedTokens demo_inserted ++ new ∧
        (new.length : Int) = 1 ∧ ['o'] = (new.map demo_stopped.token_to_piece).flatten :=
  C7_stop_completes_token_and_reports_once demo_stopped demo_inserted _ true 0 ['o'] 1 false
    (demo_render [hello_message,
      ⟨RoleForEnum EChatTemplateRole.Assistant, ['o']⟩] false)
    (by decide) (by rfl) (by decide) (fun _ => ⟨⟨by decide, rfl⟩, ⟨by decide, rfl⟩⟩)

/-! ### Claim C8 -/

/-- C8 (as stated, refuted): the sampler draws `a`, the zero byte, `b` and then an
end-of-generation token.  `Generate` with history appending leaves its loop by
that token and returns the response of three bytes, but the content of the
Assistant message it appends is `a`, not the full response. -/
theorem C8_counterexample :
    (GenerateRun demo_nul demo_inserted []).map LoopExit.bEOGExit = some true ∧
    (Generate demo_nul demo_inserted [] true).map (fun r => (r.2, r.1.Messages))
      = some (['a', NUL, 'b'],
          [hello_message, ⟨RoleForEnum EChatTemplateRole.Assistant, ['a']⟩]) ∧
    ['a'] ≠ ['a', NUL, 'b'] := by
  refine ⟨by rfl, by rfl, by decide⟩

/-- C8 (amended): when `Generate` with history appending leaves its loop by
sampling an end-of-generation token and the runtime renders the new message
list to `t`, it returns the response, the message list is the previous list
followed by exactly one Assistant message whose content is the response up to
its first zero byte, and the filled length is the length of the rendering of
that new list, the length rendering it from scratch returns.  For a response
without zero byte the content is the full response. -/
theorem C8_eog_appends_reply_and_resyncs (env : Env) (s sL : FLlamaInternal)
    (R : List Char) (n : Int) (t : List Char)
    (hrun : GenerateRun env s [] = some (LoopExit.finished sL R n true))
    (hr : Renders env s.Template (s.Messages ++
      [{ role := RoleForEnum EChatTemplateRole.Assistant, content := c_str R }]) false t) :
    ∃ s', Generate env s [] true = some (s', R) ∧
      s'.Messages = s.Messages ++
        [{ role := RoleForEnum EChatTemplateRole.Assistant, content := c_str R }] ∧
      s'.FilledContextCharLength = (t.length : Int) ∧
      RenderFromScratch env s' s'.Messages false = some (t.length : Int) ∧
      (NUL ∉ R → s'.Messages = s.Messages ++
        [{ role := RoleForEnum EChatTemplateRole.Assistant, content := R }]) := by
  obtain ⟨_, ctx, hc, hloop⟩ := GenerateRun_nil_some env s _ hrun
  obtain ⟨new, _, h2, _, _, _⟩ := GenerateLoop_inv env _ _ _ 0
    { s with bGenerationActive := true } [] 0 ctx _ hc hloop
  obtain ⟨hM, hT, _⟩ := conversation_fields sL { s with bGenerationActive := true } h2
  simp only at hM hT
  have hr' := hr
  rw [← hM, ← hT] at hr'
  have hgen : Generate env s [] true = GenerateFinish env sL R n true := by
    unfold Generate
    rw [hrun]
  rw [hgen, GenerateFinish_append env sL R n t hr']
  refine ⟨_, rfl, ?_, rfl, ?_, ?_⟩
  · simp only [hM]
  · unfold RenderFromScratch
    simp only [hM, hT]
    rw [ApplyTemplateFromMessagesToBuffer_renders env _ _ _ _ false t hr]
  · intro hnul
    simp only [hM, c_str_of_no_NUL R hnul]

/-- C8 (amended), instance: the reply with a zero byte generated after `hello` was
inserted; the appended content is `a` and the filled length is 23. -/
theorem C8_eog_appends_witness :
    ∃ s', Generate demo_nul demo_inserted [] true = some (s', ['a', NUL, 'b']) ∧
      s'.Messages = demo_inserted.Messages ++
        [{ role := RoleForEnum EChatTemplateRole.Assistant, content := ['a'] }] ∧
      s'.FilledContextCharLength = 23 ∧
      RenderFromScratch demo_nul s' s'.Messages false = some 23 :=
  (C8_eog_appends_reply_and_resyncs demo_nul demo_inserted _ ['a', NUL, 'b'] 3
    (demo_render [hello_message,
      ⟨RoleForEnum EChatTemplateRole.Assistant, ['a']⟩] false)
    (by rfl) ⟨⟨by decide, rfl⟩, ⟨by decide, rfl⟩⟩).imp
    (fun _ h => ⟨h.1, h.2.1, h.2.2.1, h.2.2.2.1⟩)

/-! ### Claim C9 -/

/-- C9 (as stated, refuted): with `keepSystemPrompt = true` and exactly one message,
`ResetContextHistory` returns the engine as it was: the message, the rendered
buffer, the filled length and the cache are all kept. -/
theorem C9_counterexample :
    IsModelLoaded demo_inserted = true ∧ demo_inserted.Messages.length = 1 ∧
    ResetContextHistory demo demo_inserted true = some demo_inserted ∧
    demo_inserted.Messages ≠ [] ∧ demo_inserted.ContextHistory ≠ [] ∧
    demo_inserted.FilledContextCharLength = 21 ∧ (CachedTokens demo_inserted).length = 21 := by
  decide

/-- C9 (amended): on a loaded engine, `ResetContextHistory(false)` leaves the message
list empty, the rendered buffer empty, the filled length 0 and the cache of the
sequence empty, whatever the number of messages; `ResetContextHistory(true)` with
zero or one message only clears the generation flag and changes neither
messages, buffer, filled length nor cache. -/
theorem C9_reset_clears_or_keeps (env : Env) (s : FLlamaInternal) (ctx : llama_context)
    (hl : s.bIsModelLoaded = true) (hc : s.Context = some ctx) :
    (∃ s', ResetContextHistory env s false = some s' ∧ s'.Messages = [] ∧
      s'.ContextHistory = [] ∧ s'.FilledContextCharLength = 0 ∧ CachedTokens s' = [] ∧
      IsGenerating s' = false) ∧
    (s.Messages.length ≤ 1 →
      ResetContextHistory env s true = some { s with bGenerationActive := false }) := by
  constructor
  · refine ⟨{ s with
        bGenerationActive := false
        ContextHistory := []
        Messages := []
        Context := some (llama_memory_clear ctx)
        FilledContextCharLength := 0 }, ?_, rfl, rfl, rfl, rfl, rfl⟩
    unfold ResetContextHistory
    simp only [hl, Bool.not_true, Bool.false_eq_true, if_false, stop_if_generating, hc]
  · intro hle
    unfold ResetContextHistory
    have : ¬ s.Messages.length > 1 := by omega
    simp only [hl, Bool.not_true, Bool.false_eq_true, if_false, stop_if_generating, if_true,
      this]

/-- C9 (amended), instance: the full reset of `demo_replied`. -/
theorem C9_reset_witness :
    (∃ s', ResetContextHistory demo demo_replied false = some s' ∧ s'.Messages = [] ∧
      s'.ContextHistory = [] ∧ s'.FilledContextCharLength = 0 ∧ CachedTokens s' = [] ∧
      IsGenerating s' = false) ∧
    (demo_replied.Messages.length ≤ 1 →
      ResetContextHistory demo demo_replied true
        = some { demo_replied with bGenerationActive := false }) :=
  C9_reset_clears_or_keeps demo demo_replied
    { n_ctx := 64, seq0 := (demo_render [hello_message] true
        ++ ['o', 'k']).map (fun c => (c.toNat : Int)) }
    (by decide) (by decide)

/-! ### Claim C10 -/

/-- C10 (failing input): the reloaded engine is loaded and holds two messages, the
first of which renders to 11 bytes.  `ResetContextHistory(true)` delegates to
`RollbackContextHistoryByMessages(count - 1)` as claimed, but no state with
only the first message comes out of it: the rollback throws at
`FullPrompt.substr`, because the reload left a filled length of 0 under the two
messages. -/
theorem C10_reset_keep_after_reload_throws :
    IsModelLoaded demo_reloaded = true ∧ 1 < demo_reloaded.Messages.length ∧
    demo_reloaded.FilledContextCharLength = 0 ∧
    RenderFromScratch demo demo_reloaded (demo_reloaded.Messages.take 1) false = some 11 ∧
    ResetContextHistory demo demo_reloaded true
      = RollbackContextHistoryByMessages demo demo_reloaded
          ((demo_reloaded.Messages.length : Int) - 1) ∧
    ResetContextHistory demo demo_reloaded true = none := by
  decide

/-! ### Claim C11 -/

/-- Claim C11: for every engine state, `ResetContextHistory(false)` run twice gives
the same outcome as run once (the second run changes nothing), and on a loaded
engine with a live context that outcome is the empty state: no messages, empty
rendered buffer, filled length 0 and an empty cache. -/
theorem C11_full_reset_is_idempotent (env : Env) (s : FLlamaInternal) :
    (ResetContextHistory env s false).bind (fun s1 => ResetContextHistory env s1 false)
      = ResetContextHistory env s false ∧
    (s.bIsModelLoaded = true → ∀ ctx, s.Context = some ctx →
      ∃ s1, ResetContextHistory env s false = some s1 ∧ s1.Messages = [] ∧
        s1.ContextHistory = [] ∧ s1.FilledContextCharLength = 0 ∧
        CachedTokens s1 = [] ∧ s1.bIsModelLoaded = true) := by
  constructor
  · cases hl : s.bIsModelLoaded with
    | false =>
      have h : ResetContextHistory env s false = some s := by
        unfold ResetContextHistory; simp [hl]
      rw [h]; exact h
    | true =>
      cases hc : s.Context with
      | none =>
        have h : ResetContextHistory env s false = none := by
          unfold ResetContextHistory
          rw [if_neg (by simp [hl]), stop_if_generating]
          simp only [Bool.false_eq_true, if_false, hc]
        rw [h]; rfl
      | some ctx =>
        rw [ResetContextHistory_full env s ctx hl hc, Option.some_bind]
        exact ResetContextHistory_full env
          { s with bGenerationActive := false, ContextHistory := [], Messages := [],
                   Context := some (llama_memory_clear ctx), FilledContextCharLength := 0 }
          (llama_memory_clear ctx) hl rfl
  · intro hl ctx hc
    exact ⟨_, ResetContextHistory_full env s ctx hl hc, rfl, rfl, rfl, rfl, hl⟩

/-- Claim C11 at the engine holding `hello` and the reply `ok`. -/
theorem C11_full_reset_witness :
    (ResetContextHistory demo demo_replied false).bind
        (fun s1 => ResetContextHistory demo s1 false)
      = ResetContextHistory demo demo_replied false ∧
    ∃ s1, ResetContextHistory demo demo_replied false = some s1 ∧ s1.Messages = [] ∧
      s1.ContextHistory = [] ∧ s1.FilledContextCharLength = 0 ∧
      CachedTokens s1 = [] ∧ s1.bIsModelLoaded = true :=
  ⟨(C11_full_reset_is_idempotent demo demo_replied).1,
   (C11_full_reset_is_idempotent demo demo_replied).2 (by rfl) ⟨64, CachedTokens demo_replied⟩
     (by rfl)⟩

/-! ### Claim C12 -/

/-- Claim C12, evaluated on the engine left by `UnloadModel` (no model loaded,
context handle null): `RollbackContextHistoryByMessages` and
`ResetContextHistory` return the engine unchanged, but
`RollbackContextHistoryByTokens` has no loaded check and asks the null context
for its memory, so it does not return; the same holds on an engine that never
loaded a model. -/
theorem C12_token_rollback_skips_loaded_check :
    (UnloadModel demo_replied).bIsModelLoaded = false ∧
    RollbackContextHistoryByMessages demo (UnloadModel demo_replied) 1
      = some (UnloadModel demo_replied) ∧
    ResetContextHistory demo (UnloadModel demo_replied) false
      = some (UnloadModel demo_replied) ∧
    ResetContextHistory demo (UnloadModel demo_replied) true
      = some (UnloadModel demo_replied) ∧
    RollbackContextHistoryByTokens (UnloadModel demo_replied) 1 = none ∧
    RollbackContextHistoryByTokens demo_fresh 1 = none := by
  refine ⟨rfl, rfl, rfl, rfl, rfl, rfl⟩

/-! ### Claim C13 -/

/-- Claim C13, evaluated on the loaded engine holding the 21 cached positions of
the rendered prompt `hello`: `RollbackContextHistoryByTokens(1)` leaves 19
positions and `RollbackContextHistoryByTokens(0)` leaves 20, one fewer than the
`k - n` of the claim each time, because the count of used tokens is taken from
the largest position `k - 1`; the message list, the rendered buffer and the
filled length stay as they were. -/
theorem C13_token_rollback_erases_one_more :
    (CachedTokens demo_inserted).length = 21 ∧
    (∃ s1, RollbackContextHistoryByTokens demo_inserted 1 = some s1 ∧
      CachedTokens s1 = (CachedTokens demo_inserted).take 19 ∧
      s1.Messages = demo_inserted.Messages ∧
      s1.ContextHistory = demo_inserted.ContextHistory ∧
      s1.FilledContextCharLength = demo_inserted.FilledContextCharLength) ∧
    (∃ s0, RollbackContextHistoryByTokens demo_inserted 0 = some s0 ∧
      CachedTokens s0 = (CachedTokens demo_inserted).take 20) := by
  refine ⟨by rfl, ⟨_, rfl, by rfl, rfl, rfl, rfl⟩, ⟨_, rfl, by rfl⟩⟩

/-! ### Claim C14 -/

/-- Claim C14 fails as stated: with a model file that cannot be loaded, the load
task queues the error event with code 10 and then the completion task, and the
tick of the game thread hands the completion callback the code 15, not the
code 10 of the error event. -/
theorem C14_counterexample :
    ∃ n1, native_load_failed = some n1 ∧
      n1.GameThreadTasks =
        [{ TaskId := 2, TaskFunction := GTTask.Error 10 },
         { TaskId := 1, TaskFunction := GTTask.ModelLoadFailed true }] ∧
      n1.OnGameThreadTick.delivered =
        [NativeEvent.Error 10, NativeEvent.ModelLoadedCallback 15] :=
  ⟨_, rfl, rfl, rfl⟩

/-- Claim C14, amended: when `LoadModelFromParams` fails inside the load task (all
callbacks bound, game-thread queue empty before), the task queues an error
event whose code is 10 or 11 and after it the completion task; the tick of the
game thread delivers the error first and then calls the completion callback
with the fixed code 15; `IsModelLoaded()` is false after the task and after
the tick. -/
theorem C14_load_failure_error_then_code_15 (env : Env) (lib : FStringLib)
    (n : FLlamaNative) (P : FLLMModelParams) (TaskId : Int)
    (hE : n.Internal.OnError = true) (hO : n.OnError = true)
    (hq : n.GameThreadTasks = [])
    (hfail : (LoadModelFromParams env (UnloadModel n.Internal) P).2 = false) :
    ∃ code id1 id2 n1, (code = 10 ∨ code = 11) ∧
      n.LoadModelTask env lib P true TaskId = some n1 ∧
      n1.GameThreadTasks =
        [{ TaskId := id1, TaskFunction := GTTask.Error code },
         { TaskId := id2, TaskFunction := GTTask.ModelLoadFailed true }] ∧
      n1.OnGameThreadTick.delivered =
        n.delivered ++ [NativeEvent.Error code, NativeEvent.ModelLoadedCallback 15] ∧
      n1.IsModelLoaded = false ∧ n1.OnGameThreadTick.IsModelLoaded = false := by
  obtain ⟨code, hcode, htr, hld⟩ :=
    LoadModelFromParams_failure env (UnloadModel n.Internal) P hE hfail
  have h1 : n.Listen lib (UnloadModel n.Internal)
      = { n with Internal := UnloadModel n.Internal } := Listen_none lib n _ rfl
  have h2 : FLlamaNative.Listen lib { n with Internal := UnloadModel n.Internal }
      (LoadModelFromParams env (UnloadModel n.Internal) P).1
      = FLlamaNative.InternalCallback lib
          { n with Internal := (LoadModelFromParams env (UnloadModel n.Internal) P).1 }
          (Event.Error code) := Listen_one lib _ _ _ htr
  have hld1 : (LoadModelFromParams env (UnloadModel n.Internal) P).1.bIsModelLoaded = false :=
    hld.trans rfl
  refine ⟨code, n.TaskIdCounter + 1,
    (if TaskId = -1 then n.TaskIdCounter + 1 + 1 else TaskId), ?_⟩
  unfold FLlamaNative.LoadModelTask
  simp only [h1, h2, hfail]
  refine ⟨_, hcode, rfl, ?_, ?_, ?_, ?_⟩
  · by_cases ht : TaskId = -1 <;>
      simp [FLlamaNative.EnqueueGTTask, FLlamaNative.InternalCallback,
        FLlamaNative.InternalOnError, FLlamaNative.GetNextTaskId, hq, ht]
  · by_cases ht : TaskId = -1 <;>
      simp [FLlamaNative.OnGameThreadTick, FLlamaNative.RunGTTask, FLlamaNative.call,
        FLlamaNative.EnqueueGTTask, FLlamaNative.InternalCallback,
        FLlamaNative.InternalOnError, FLlamaNative.GetNextTaskId, hq, ht, hO]
  · by_cases ht : TaskId = -1 <;>
      simp [FLlamaNative.IsModelLoaded, IsModelLoaded, FLlamaNative.EnqueueGTTask,
        FLlamaNative.InternalCallback, FLlamaNative.InternalOnError,
        FLlamaNative.GetNextTaskId, ht, hld1]
  · by_cases ht : TaskId = -1 <;>
      simp [FLlamaNative.OnGameThreadTick, FLlamaNative.RunGTTask, FLlamaNative.call,
        FLlamaNative.IsModelLoaded, IsModelLoaded, FLlamaNative.EnqueueGTTask,
        FLlamaNative.InternalCallback, FLlamaNative.InternalOnError,
        FLlamaNative.GetNextTaskId, hq, ht, hO, hld1]

/-- Claim C14, amended, at a runtime that loads the model file but cannot create
the context: the error event carries 10 or 11 and the callback receives 15. -/
theorem C14_load_failure_witness :
    ∃ code id1 id2 n1, (code = 10 ∨ code = 11) ∧
      native_fresh.LoadModelTask demo_no_context demo_lib {} true 1 = some n1 ∧
      n1.GameThreadTasks =
        [{ TaskId := id1, TaskFunction := GTTask.Error code },
         { TaskId := id2, TaskFunction := GTTask.ModelLoadFailed true }] ∧
      n1.OnGameThreadTick.delivered =
        native_fresh.delivered ++ [NativeEvent.Error code, NativeEvent.ModelLoadedCallback 15] ∧
      n1.IsModelLoaded = false ∧ n1.OnGameThreadTick.IsModelLoaded = false :=
  C14_load_failure_error_then_code_15 demo_no_context demo_lib native_fresh {} 1
    rfl rfl rfl rfl

/-! ### Claim C15 -/

/-- Claim C15 (as stated, refuted): the model holds a default template `d`, an
empty text under the name `blank` and a template `c` under the name
`Tokenizer.Chat_Template`.  Loading with the source name `blank` succeeds and
the lookup finds a template, yet the active template is the default and not
the one found; loading with the source name `Tokenizer.Chat_Template`, which is
non-empty, is not the string `tokenizer.chat_template` and is found by the
lookup, also leaves the default template active. -/
theorem C15_counterexample :
    ((LoadModelFromParams demo_named demo_fresh
        { CustomChatTemplate := { TemplateSource := "blank".toList } }).2 = true ∧
      demo_named.model_chat_template (some "blank".toList) = some [] ∧
      TemplateAsClaimed demo_named
        { CustomChatTemplate := { TemplateSource := "blank".toList } } = [] ∧
      (LoadModelFromParams demo_named demo_fresh
        { CustomChatTemplate := { TemplateSource := "blank".toList } }).1.Template = ['d']) ∧
    ((LoadModelFromParams demo_named demo_fresh
        { CustomChatTemplate := { TemplateSource := "Tokenizer.Chat_Template".toList } }).2
        = true ∧
      "Tokenizer.Chat_Template".toList ≠ "tokenizer.chat_template".toList ∧
      demo_named.model_chat_template (some "Tokenizer.Chat_Template".toList) = some ['c'] ∧
      TemplateAsClaimed demo_named
        { CustomChatTemplate := { TemplateSource := "Tokenizer.Chat_Template".toList } }
        = ['c'] ∧
      (LoadModelFromParams demo_named demo_fresh
        { CustomChatTemplate := { TemplateSource := "Tokenizer.Chat_Template".toList } }).1.Template
        = ['d']) := by
  refine ⟨⟨by rfl, by rfl, by rfl, by rfl⟩, ⟨by rfl, by decide, by rfl, by rfl, by rfl⟩⟩

/-- Claim C15 (amended): after a successful `LoadModelFromParams` the active
template is the one the priority order selects: empty in embedding mode;
otherwise the custom text when it is non-empty; otherwise the template the
model holds under the source name, when that name is non-empty, differs from
`tokenizer.chat_template` also when case is ignored, the lookup finds a
template and the template found is a non-empty text; otherwise the default
template of the model, empty when it has none.  Outside embedding mode a
non-empty custom text is selected whatever the name finds, and without custom
text a non-empty template found under such a name is selected whatever the
default is. -/
theorem C15_template_selected_by_priority (env : Env) (s : FLlamaInternal)
    (P : FLLMModelParams)
    (hok : (LoadModelFromParams env s P).2 = true) :
    (LoadModelFromParams env s P).1.Template = TemplateByPriority env P ∧
    (LoadModelFromParams env s P).1.bIsModelLoaded = true ∧
    (P.Advanced.bEmbeddingMode = false → P.CustomChatTemplate.Jinja ≠ [] →
      (LoadModelFromParams env s P).1.Template = P.CustomChatTemplate.Jinja) ∧
    (∀ t, P.Advanced.bEmbeddingMode = false → P.CustomChatTemplate.Jinja = [] →
      P.CustomChatTemplate.TemplateSource ≠ [] →
      EqualsIgnoreCase P.CustomChatTemplate.TemplateSource
        "tokenizer.chat_template".toList = false →
      env.model_chat_template (some P.CustomChatTemplate.TemplateSource) = some t →
      t ≠ [] → (LoadModelFromParams env s P).1.Template = t) := by
  have main : (LoadModelFromParams env s P).1.Template = TemplateByPriority env P ∧
      (LoadModelFromParams env s P).1.bIsModelLoaded = true := by
    cases s
    unfold LoadModelFromParams at hok ⊢
    unfold TemplateByPriority
    generalize "tokenizer.chat_template".toList = K at hok ⊢
    generalize "Custom Jinja".toList = K1 at hok ⊢
    generalize "embedding mode, templates not used".toList = K2 at hok ⊢
    cases hm : env.model_load_from_file with
    | false =>
      rw [hm] at hok
      simp at hok
    | true =>
      cases hi : env.init_from_model P.MaxContextLength with
      | none =>
        rw [hm, hi] at hok
        simp at hok
      | some n =>
        cases he : P.Advanced.bEmbeddingMode with
        | true => simp
        | false =>
          by_cases hj : P.CustomChatTemplate.Jinja = []
          · by_cases hn : P.CustomChatTemplate.TemplateSource ≠ [] ∧
                EqualsIgnoreCase P.CustomChatTemplate.TemplateSource K = false
            · cases hf : env.model_chat_template (some P.CustomChatTemplate.TemplateSource) with
              | none =>
                cases hd : env.model_chat_template none <;> simp [hj, hn, hf, hd]
              | some t =>
                by_cases ht : t = []
                · cases hd : env.model_chat_template none <;> simp [hj, hn, hf, hd, ht]
                · simp [hj, hn, hf, ht]
            · cases hd : env.model_chat_template none <;> simp [hj, hn, hd]
          · by_cases hs : P.CustomChatTemplate.TemplateSource = [] <;> simp [hj, hs]
  refine ⟨main.1, main.2, ?_, ?_⟩
  · intro he hj
    rw [main.1]
    simp [TemplateByPriority, he, hj]
  · intro t he hj hs hk hf ht
    rw [main.1]
    unfold TemplateByPriority
    generalize "tokenizer.chat_template".toList = K at hk ⊢
    simp [he, hj, hs, hk, hf, ht]

/-- Claim C15 (amended) at a model that holds a default template `d` and a template
`n` under the name `tool_use`: the named template is selected. -/
theorem C15_template_selected_witness :
    (LoadModelFromParams demo_named demo_fresh
      { CustomChatTemplate := { TemplateSource := "tool_use".toList } }).1.Template = ['n'] :=
  (C15_template_selected_by_priority demo_named demo_fresh
    { CustomChatTemplate := { TemplateSource := "tool_use".toList } } (by rfl)).2.2.2
    ['n'] (by rfl) (by rfl) (by decide) (by rfl) (by rfl) (by decide)

/-! ### Claim C16 -/

/-- Claim C16, evaluated with a formatter that reports `-1` for every call: whether
the buffer is empty or holds 64 bytes, `ApplyTemplateFromMessagesToBuffer` does
not return (the negative length, compared as `size_t`, exceeds the buffer size
and goes to `resize`, which throws), so no error 101 is emitted and no
negative value is returned. -/
theorem C16_negative_length_resizes_and_throws :
    ApplyTemplateFromMessagesToBuffer demo_unsupported demo_loaded ['t'] [hello_message]
      [] false = none ∧
    ApplyTemplateFromMessagesToBuffer demo_unsupported demo_loaded ['t'] [hello_message]
      (List.replicate 64 NUL) false = none ∧
    ApplyTemplateFromMessagesToBuffer demo_unsupported demo_loaded [] [hello_message]
      (List.replicate 64 NUL) true = none := by
  refine ⟨?_, ?_, ?_⟩ <;>
    exact ApplyTemplateFromMessagesToBuffer_negative _ _ _ _ _ _ 0 (by norm_num)
      (by simp) rfl

/-! ### Claim C17 -/

/-- Claim C17, evaluated on the loaded engine holding the rendered prompt `hello`:
the filled length (21) lies within the buffer (21 bytes) before `UnloadModel`,
and after it the buffer is empty while the filled length is still 21, so the
predicate `0 <= FilledContextCharLength <= ContextHistory.size()` is not
preserved by `UnloadModel`. -/
theorem C17_unload_keeps_filled_length :
    FilledWithinBuffer demo_fresh ∧
    FilledWithinBuffer demo_inserted ∧
    (UnloadModel demo_inserted).ContextHistory = [] ∧
    (UnloadModel demo_inserted).FilledContextCharLength = 21 ∧
    ¬ FilledWithinBuffer (UnloadModel demo_inserted) := by
  refine ⟨by decide, by decide, rfl, by rfl, by decide⟩

/-! ### Claim C18 -/

/-- Claim C18 fails as stated: on the wrapper with a loaded model,
`ImpersonateTemplatedPrompt` of the User prompt `hello` returns with the chat
history of the snapshot unchanged (the message is not in it); the prompt only
sits in the queue of the background thread, as an insert without reply. -/
theorem C18_counterexample :
    native_loaded.IsModelLoaded = true ∧
    (native_loaded.ImpersonateTemplatedPrompt { Prompt := hello }).ModelState.ChatHistory
      = native_loaded.ModelState.ChatHistory ∧
    ({ Role := EChatTemplateRole.User, Content := hello } : FStructuredChatMessage) ∉
      (native_loaded.ImpersonateTemplatedPrompt { Prompt := hello }).ModelState.ChatHistory ∧
    (native_loaded.ImpersonateTemplatedPrompt { Prompt := hello }).BackgroundTasks =
      [{ TaskId := 4, TaskFunction := BGTask.InsertTemplatedPrompt
          { Prompt := hello, bGenerateReply := false } false }] := by
  refine ⟨rfl, rfl, by decide, rfl⟩

/-- Claim C18, amended: when no model is loaded, `ImpersonateTemplatedPrompt`
appends the message (role and content of the prompt) to the chat history of
the snapshot before it returns; when a model is loaded, it leaves the snapshot
as it is and appends to the queue of the background thread an insert of the
prompt with reply generation turned off. -/
theorem C18_impersonated_prompt_sync_only_when_unloaded (n : FLlamaNative)
    (Prompt : FLlamaChatPrompt) :
    (n.IsModelLoaded = false →
      (n.ImpersonateTemplatedPrompt Prompt).ModelState.ChatHistory =
        n.ModelState.ChatHistory ++ [{ Role := Prompt.Role, Content := Prompt.Prompt }]) ∧
    (n.IsModelLoaded = true →
      (n.ImpersonateTemplatedPrompt Prompt).ModelState = n.ModelState ∧
      ∃ id, (n.ImpersonateTemplatedPrompt Prompt).BackgroundTasks =
        n.BackgroundTasks ++
          [⟨id, BGTask.InsertTemplatedPrompt { Prompt with bGenerateReply := false } false⟩]) := by
  constructor
  · intro hl
    unfold FLlamaNative.ImpersonateTemplatedPrompt
    rw [hl]
    simp only [Bool.false_eq_true, if_false, FLlamaNative.call]
    split_ifs <;> rfl
  · intro hl
    unfold FLlamaNative.ImpersonateTemplatedPrompt FLlamaNative.InsertTemplatedPrompt
    rw [hl]
    simp only [if_true, Bool.not_true, Bool.false_and, Bool.false_eq_true, if_false]
    unfold FLlamaNative.EnqueueBGTask FLlamaNative.GetNextTaskId FLlamaNative.StartLLMThread
    refine ⟨?_, n.TaskIdCounter + 1, ?_⟩
    · split_ifs <;> rfl
    · split_ifs <;> rfl

/-- Claim C18, amended, on a fresh wrapper (no model) and on the loaded one. -/
theorem C18_impersonated_prompt_witness :
    (native_fresh.ImpersonateTemplatedPrompt { Prompt := hello }).ModelState.ChatHistory =
      native_fresh.ModelState.ChatHistory ++
        [{ Role := EChatTemplateRole.User, Content := hello }] ∧
    (native_loaded.ImpersonateTemplatedPrompt { Prompt := hello }).ModelState
      = native_loaded.ModelState :=
  ⟨(C18_impersonated_prompt_sync_only_when_unloaded native_fresh { Prompt := hello }).1 rfl,
   ((C18_impersonated_prompt_sync_only_when_unloaded native_loaded { Prompt := hello }).2
      rfl).1⟩

/-! ### Claim C19 -/

/-- Claim C19: `ImpersonateTemplatedToken(t, r, eos)` turns the chat history `H` of
the snapshot into `H` with `t` appended to the content of its last message
when `H` is non-empty and that message has role `r`, and into `H` followed by
the new message `(r, t)` otherwise; and when `eos` is set and the
response callback is bound, the last callback invoked is the response event and
it carries the full content of the last message. -/
theorem C19_impersonated_token_extends_last_or_appends (lib : FStringLib) (n : FLlamaNative)
    (t : List Char) (r : EChatTemplateRole) (eos : Bool) :
    (n.ImpersonateTemplatedToken lib t r eos).ModelState.ChatHistory =
      (match n.ModelState.ChatHistory.getLast? with
       | some m =>
         if m.Role = r then
           n.ModelState.ChatHistory.dropLast ++ [{ Role := m.Role, Content := m.Content ++ t }]
         else n.ModelState.ChatHistory ++ [{ Role := r, Content := t }]
       | none => n.ModelState.ChatHistory ++ [{ Role := r, Content := t }]) ∧
    (eos = true → n.OnResponseGenerated = true →
      ∃ m, (n.ImpersonateTemplatedToken lib t r eos).ModelState.ChatHistory.getLast? = some m ∧
        (n.ImpersonateTemplatedToken lib t r eos).delivered.getLast?
          = some (NativeEvent.ResponseGenerated m.Content)) := by
  have hmsg : ∃ m : FStructuredChatMessage,
      (n.ImpersonatedMessage t r).1.ModelState.ChatHistory =
        (match n.ModelState.ChatHistory.getLast? with
         | some m =>
           if m.Role = r then
             n.ModelState.ChatHistory.dropLast ++ [{ Role := m.Role, Content := m.Content ++ t }]
           else n.ModelState.ChatHistory ++ [{ Role := r, Content := t }]
         | none => n.ModelState.ChatHistory ++ [{ Role := r, Content := t }]) ∧
      (n.ImpersonatedMessage t r).1.ModelState.ChatHistory.getLast? = some m ∧
      (n.ImpersonatedMessage t r).2 = m.Content := by
    unfold FLlamaNative.ImpersonatedMessage
    cases hH : n.ModelState.ChatHistory.getLast? with
    | none => exact ⟨{ Role := r, Content := t }, rfl, by simp, rfl⟩
    | some m =>
      by_cases hr : m.Role = r
      · have hb : (m.Role == r) = true := by simp [hr]
        refine ⟨{ Role := m.Role, Content := m.Content ++ t }, ?_, ?_, ?_⟩ <;> simp [hb, hr]
      · have hb : (m.Role == r) = false := by simp [hr]
        refine ⟨{ Role := r, Content := t }, ?_, ?_, ?_⟩ <;> simp [hb, hr]
  obtain ⟨m, h1, h2, h3⟩ := hmsg
  obtain ⟨d, hd⟩ := ImpersonatedTokenCallbacks_eq lib (n.ImpersonatedMessage t r).1 t
    (n.ImpersonatedMessage t r).2
  unfold FLlamaNative.ImpersonateTemplatedToken
  simp only [hd]
  constructor
  · cases eos
    · exact h1
    · rw [if_pos rfl, ImpersonatedEndOfStream_history]
      exact h1
  · intro he ho
    subst he
    rw [if_pos rfl, ImpersonatedEndOfStream_history]
    refine ⟨m, h2, ?_⟩
    have hlast := ImpersonatedEndOfStream_response
      { (n.ImpersonatedMessage t r).1 with delivered := d } (n.ImpersonatedMessage t r).2
      ((ImpersonatedMessage_callback n t r).trans ho)
    rw [hlast, h3]

/-- Claim C19 on a snapshot whose last message is the Assistant message `hello`:
the end-of-stream token ` x` is appended to it and the response event carries
`hello x`. -/
theorem C19_impersonated_token_witness :
    ∃ m, ((native_fresh.ImpersonateTemplatedToken demo_lib hello EChatTemplateRole.Assistant
          false).ImpersonateTemplatedToken demo_lib [' ', 'x'] EChatTemplateRole.Assistant
          true).ModelState.ChatHistory.getLast? = some m ∧
      ((native_fresh.ImpersonateTemplatedToken demo_lib hello EChatTemplateRole.Assistant
          false).ImpersonateTemplatedToken demo_lib [' ', 'x'] EChatTemplateRole.Assistant
          true).delivered.getLast? = some (NativeEvent.ResponseGenerated m.Content) :=
  (C19_impersonated_token_extends_last_or_appends demo_lib
    (native_fresh.ImpersonateTemplatedToken demo_lib hello EChatTemplateRole.Assistant false)
    [' ', 'x'] EChatTemplateRole.Assistant true).2 rfl rfl

/-! ### Claim C20 -/

/-- Claim C20, evaluated on a fresh wrapper: `LoadModel` followed at once by
`InsertTemplatedPrompt` makes two calls of `EnqueueBGTask` before a spawned
thread has executed its first statement `bThreadIsActive = true`; both calls
find the flag false and both call `StartLLMThread`, so two worker threads are
started.  When the first thread has set the flag before the second call, one
thread is started. -/
theorem C20_second_enqueue_starts_second_thread :
    ∃ n1, native_fresh.LoadModel false true = some n1 ∧ n1.ThreadsStarted = 1 ∧
      n1.bThreadIsActive = false ∧
      (n1.InsertTemplatedPrompt { Prompt := hello } false).ThreadsStarted = 2 ∧
      (n1.InsertTemplatedPrompt { Prompt := hello } false).BackgroundTasks.length = 2 ∧
      (n1.LLMThreadEntry.InsertTemplatedPrompt { Prompt := hello } false).ThreadsStarted = 1 :=
  ⟨_, rfl, rfl, rfl, rfl, rfl, rfl⟩

/-! ### Claim C21 -/

/-- Claim C21, evaluated on the engine holding `hello` and the reply `ok` (filled
buffer `user:hello;assistant:ok;`, 23 cached positions):
`RollbackContextHistoryByMessages(1)` renders `user:hello;`, a prefix of the old
filled buffer, and tokenizes the old buffer without that prefix,
`assistant:ok;`, to 13 tokens, as claimed; but the 13 tokens are handed to
`RollbackContextHistoryByTokens`, which counts from the largest position, and
9 positions remain in the cache: 14 positions were erased, not 13. -/
theorem C21_message_rollback_erases_one_more :
    ∃ s1, RollbackContextHistoryByMessages demo demo_replied 1 = some s1 ∧
      demo_replied.ContextHistory.take demo_replied.FilledContextCharLength.toNat
        = s1.ContextHistory ++ "assistant:ok;".toList ∧
      s1.ContextHistory = demo_render [hello_message] false ∧
      (demo.tokenize "assistant:ok;".toList false).length = 13 ∧
      (CachedTokens demo_replied).length = 23 ∧
      CachedTokens s1 = (CachedTokens demo_replied).take 9 := by
  refine ⟨_, rfl, by decide, by decide, by decide, by decide, by decide⟩

/-! ### Claim C22 -/

/-- Claim C22, evaluated with the empty template, the User message `hello` and an
empty buffer, on a formatter that treats the null template pointer as its
default format and the empty template string as an unknown format: the probe
pass is made with the null pointer and asks for 11 bytes, the buffer is grown to
11 bytes, and the second pass is made with the empty string and fails, so the
call returns `-1` and the buffer holds 11 zero bytes, not the rendering.  With
the non-empty template `t` both passes use `t` and the call returns 11 and the
rendering. -/
theorem C22_empty_template_probes_null_renders_empty :
    (llama_chat_apply_template demo_chatml none [hello_message] false []).1 = 11 ∧
    (ApplyTemplateFromMessagesToBuffer demo_chatml demo_loaded [] [hello_message] [] false).map
      (fun r => (r.2.1, r.2.2)) = some (List.replicate 11 NUL, -1) ∧
    (ApplyTemplateFromMessagesToBuffer demo_chatml demo_loaded ['t'] [hello_message] []
      false).map (fun r => (r.2.1, r.2.2)) = some (demo_render [hello_message] false, 11) := by
  refine ⟨by rfl, by rfl, by rfl⟩

/-! ### Claim C24 -/

/-- Claim C24, evaluated on the engine with 4 positions and 4 cached tokens and a
sampler that draws `o` and then `k`: the piece `o` is appended to the response,
streamed and decoded; the piece `k` is appended to the response and then the
context check returns from `Generate` with error 31, before the per-token
callback is reached.  The returned response is `ok`, the streamed text is `o`. -/
theorem C24_context_exceeded_returns_unstreamed_piece :
    (Generate demo demo_full [] true).map
      (fun r => (r.2, streamed (r.1.trace.drop demo_full.trace.length),
        (r.1.trace.drop demo_full.trace.length).getLast?))
      = some (['o', 'k'], ['o'], some (Event.Error 31)) := by
  rfl

/-! ### Claim C25 -/

/-- Claim C25, evaluated on a wrapper with the separators `.`, `?`, `!`: the pieces
`Hi.` and ` How are` are generated and the generation completes with the
response `Hi. How are`, whose text after the last sentence-ending punctuation
is ` How are`.  The partial `Hi.` is emitted with the first piece; on
completion the listener emits `GetLastSentence` of the whole text, which is
`Hi.` again.  The trailing text is in no partial. -/
theorem C25_final_partial_repeats_last_sentence :
    partials native_partials.delivered = [] ∧
    (native_generated.GameThreadTasks.map (fun Task => Task.TaskFunction)).getLast? =
      some (GTTask.ResponseGenerated "Hi. How are".toList "Hi.".toList) ∧
    partials native_generated.OnGameThreadTick.delivered = ["Hi.".toList, "Hi.".toList] ∧
    native_generated.OnGameThreadTick.delivered.getLast? =
      some (NativeEvent.ResponseGenerated "Hi. How are".toList) ∧
    GetLastSentence demo_lib "Hi. How are".toList = "Hi.".toList := by
  refine ⟨by rfl, by rfl, by rfl, by rfl, by rfl⟩

/-! ### Claim C26 -/

/-- Claim C26 fails as stated: a message stored with the role `Unknown` carries the
name `unknown`, which `GetStructuredChatHistory` matches with none of `system`,
`user`, `assistant` and reports with its fallback role `Assistant`. -/
theorem C26_counterexample :
    RoleForEnum EChatTemplateRole.Unknown = "unknown".toList ∧
    FLlamaNative.GetStructuredChatHistory
      { native_fresh with Internal := { native_fresh.Internal with
          Messages := [{ role := RoleForEnum EChatTemplateRole.Unknown, content := hello }] } } []
      = [{ Role := EChatTemplateRole.Assistant, Content := hello }] := by
  refine ⟨by rfl, by rfl⟩

/-- Claim C26, amended: while no generation is active, a message list stored
through `RoleForEnum` with roles among User, Assistant and System is reported
by `GetStructuredChatHistory` with the same roles, in the same order; a message
stored with the role Unknown is reported with the role Assistant. -/
theorem C26_known_roles_round_trip (n : FLlamaNative)
    (stored : List (EChatTemplateRole × List Char)) (out : List FStructuredChatMessage)
    (hg : n.IsGenerating = false)
    (hm : n.Internal.Messages =
      stored.map (fun p => { role := RoleForEnum p.1, content := p.2 })) :
    (n.GetStructuredChatHistory out).map (fun m => m.Role) =
      stored.map (fun p =>
        if p.1 = EChatTemplateRole.Unknown then EChatTemplateRole.Assistant else p.1) := by
  unfold FLlamaNative.GetStructuredChatHistory
  rw [hg, hm]
  simp only [Bool.false_eq_true, if_false, List.map_map]
  apply List.map_congr_left
  intro p _
  cases hp : p.1 <;> simp [Function.comp, hp] <;> decide

/-- Claim C26, amended, at a wrapper whose engine holds a System, a User and an
Assistant message. -/
theorem C26_known_roles_witness :
    (FLlamaNative.GetStructuredChatHistory
      { native_fresh with Internal := { native_fresh.Internal with
          Messages := [(EChatTemplateRole.System, hello), (EChatTemplateRole.User, hello),
            (EChatTemplateRole.Assistant, hello)].map
              (fun p => { role := RoleForEnum p.1, content := p.2 }) } } []).map
        (fun m => m.Role) =
      [(EChatTemplateRole.System, hello), (EChatTemplateRole.User, hello),
        (EChatTemplateRole.Assistant, hello)].map (fun p =>
        if p.1 = EChatTemplateRole.Unknown then EChatTemplateRole.Assistant else p.1) :=
  C26_known_roles_round_trip _ _ [] rfl rfl

/-! ### Claim C27 -/

/-- Claim C27, evaluated on the engine holding `hello` and the reply `ok`: after
`UnloadModel` and a successful `LoadModelFromParams` the rendered buffer is
empty and the filled length is 0, but the message list still holds the two
messages of the previous session, and the prompt `hi` inserted next is rendered
after them: 32 bytes are rendered and 32 tokens decoded, not the 8 of
`user:hi;`. -/
theorem C27_reload_keeps_messages :
    (LoadModelFromParams demo (UnloadModel demo_replied) { MaxContextLength := 64 }).2 = true ∧
    demo_reloaded.ContextHistory = [] ∧ demo_reloaded.FilledContextCharLength = 0 ∧
    demo_reloaded.Messages = demo_replied.Messages ∧ demo_reloaded.Messages.length = 2 ∧
    (InsertTemplatedPrompt demo demo_reloaded "hi".toList EChatTemplateRole.User false false).map
      (fun r => (r.1.ContextHistory, (CachedTokens r.1).length))
      = some ("user:hello;assistant:ok;user:hi;".toList, 32) := by
  refine ⟨by rfl, by rfl, by rfl, by rfl, by rfl, by rfl⟩

/-! ### Claim C28 -/

/-- Claim C28, evaluated on the loaded engine with the raw prompt `ab` and reply
generation: `Generate` produces `ok` and hands it to the generation-complete
callback, the buffer receives `ab` and then `ok`, the message list and the
filled length stay as they were, but `InsertRawPrompt` returns the empty
string, not `ok`. -/
theorem C28_raw_prompt_returns_empty_string :
    (InsertRawPrompt demo demo_loaded raw_ab true).map
      (fun r => (r.2, completions r.1.trace, r.1.ContextHistory, r.1.Messages,
        r.1.FilledContextCharLength))
      = some ([], [(['o', 'k'], 2)], demo_loaded.ContextHistory ++ raw_ab ++ ['o', 'k'],
          demo_loaded.Messages, demo_loaded.FilledContextCharLength) := by
  rfl

/-! ### Claim C23 -/

/-- Claim C23 (as stated, refuted): in paced mode with 2 sub-batches, 8 positions
and 2 cached tokens, the prompt `0123456789` has 10 tokens; `ProcessPrompt`
submits the first sub-batch of 5 tokens, then leaves at the context check of
the second one, so the tokens that reached the cache are the first 5 only and
the last 5 tokens of the prompt are dropped. -/
theorem C23_counterexample :
    demo_paced.LastLoadedParams.Advanced.PromptProcessingPacingSleep ≠ 0 ∧
    demo_paced.LastLoadedParams.Advanced.PromptProcessingPacingSplitN = 2 ∧
    demo.tokenize raw_digits (UsedContext demo_paced == 0)
      = [48, 49, 50, 51, 52, 53, 54, 55, 56, 57] ∧
    (ProcessPrompt demo demo_paced raw_digits EChatTemplateRole.Unknown).map
      (fun r => (CachedTokens r.1).drop (CachedTokens demo_paced).length)
      = some [48, 49, 50, 51, 52] := by
  decide

/-- Claim C23 (amended): in paced mode with a split count `N >= 1` (model and
context present) and a prompt of `T` tokens, `ProcessPrompt` cuts the token
sequence into the `N` consecutive sub-batches `PacedBatches tokens N`, whose
concatenation is the token sequence and each of which has `T / N` or
`T / N + 1` tokens, and submits them in that order, each after a context check,
until a check or a decode fails.  So whenever the call returns, the tokens that
reached the cache are the concatenation of the first `k` sub-batches for some
`k <= N`, and `k = N` exactly when no check and no decode failed.  When the
token sequence fits into the context behind the cached tokens (cache and prompt
not both empty) and the decode of every sub-batch succeeds, all `N` sub-batches
are submitted: the call reports `T` tokens and the cache has grown by exactly
the token sequence. -/
theorem C23_paced_batches_partition_the_prompt (env : Env) (s : FLlamaInternal)
    (ctx : llama_context) (Prompt : List Char) (Role : EChatTemplateRole)
    (tokens : List llama_token) (N : Nat)
    (hm : s.LlamaModel = true) (hc : s.Context = some ctx)
    (hp : s.LastLoadedParams.Advanced.PromptProcessingPacingSleep ≠ 0)
    (hsplit : s.LastLoadedParams.Advanced.PromptProcessingPacingSplitN = (N : Int))
    (hN : 1 ≤ N)
    (htok : env.tokenize Prompt (llama_memory_seq_pos_max ctx == 0) = tokens) :
    ProcessPrompt env s Prompt Role =
      (match SubmitBatches env (PacedBatches tokens N) s with
       | none => none
       | some (PacedExit.returned s1 value) => some (s1, value)
       | some (PacedExit.done s1) =>
         some (ProcessPromptDone s1 (tokens.length : Int) Role)) ∧
    (PacedBatches tokens N).flatten = tokens ∧
    (PacedBatches tokens N).length = N ∧
    (∀ b ∈ PacedBatches tokens N,
      b.length = tokens.length / N ∨ b.length = tokens.length / N + 1) ∧
    (∀ s1 value, ProcessPrompt env s Prompt Role = some (s1, value) →
      ∃ k, k ≤ N ∧
        CachedTokens s1 = ctx.seq0 ++ ((PacedBatches tokens N).take k).flatten ∧
        (k = N ↔ ∃ s2, SubmitBatches env (PacedBatches tokens N) s
          = some (PacedExit.done s2))) ∧
    (ctx.seq0.length + tokens.length ≤ ctx.n_ctx → ctx.n_ctx < 2 ^ 63 →
      (ctx.seq0 ≠ [] ∨ tokens ≠ []) →
      (∀ k, k < N →
        env.decode_fails (ctx.seq0 ++ ((PacedBatches tokens N).take k).flatten)
          ((PacedBatches tokens N).getD k []) = false) →
      ProcessPrompt env s Prompt Role = some (ProcessPromptDone
        { s with Context := some { ctx with seq0 := ctx.seq0 ++ tokens } }
        (tokens.length : Int) Role)) := by
  have hsum : (PacedSizes (tokens.length / N) (tokens.length % N) N 0).sum = tokens.length := by
    rw [PacedSizes_sum]
    have h1 : tokens.length % N < N := Nat.mod_lt _ (by omega)
    have h2 := Nat.div_add_mod tokens.length N
    simp only [Nat.zero_add, Nat.zero_min, Nat.sub_zero]
    rw [Nat.min_eq_right (Nat.le_of_lt h1)]
    linarith [Nat.mul_comm N (tokens.length / N)]
  have hlen : ((PacedBatches tokens N).map List.length)
      = PacedSizes (tokens.length / N) (tokens.length % N) N 0 :=
    SplitBySizes_lengths tokens _ (by omega)
  have hflat : (PacedBatches tokens N).flatten = tokens := SplitBySizes_flatten tokens _ hsum
  have hcount : (PacedBatches tokens N).length = N := by
    have := congrArg List.length hlen
    simpa [PacedSizes_length] using this
  have hrun : ProcessPrompt env s Prompt Role =
      (match SubmitBatches env (PacedBatches tokens N) s with
       | none => none
       | some (PacedExit.returned s1 value) => some (s1, value)
       | some (PacedExit.done s1) =>
         some (ProcessPromptDone s1 (tokens.length : Int) Role)) := by
    unfold ProcessPrompt
    rw [if_neg (by simp [hm]), hc]
    simp only [htok, hsplit]
    rw [if_neg hp, if_neg (by omega)]
    have hq : Int.tdiv (tokens.length : Int) (N : Int) = ((tokens.length / N : Nat) : Int) :=
      (Int.ofNat_tdiv _ _).symm
    have hr : Int.tmod (tokens.length : Int) (N : Int) = ((tokens.length % N : Nat) : Int) :=
      (Int.ofNat_tmod _ _).symm
    simp only [hq, hr, Int.toNat_ofNat]
    have hloop := ProcessPromptPaced_eq_SubmitBatches env (tokens.length / N)
      (tokens.length % N) tokens N 0 0 s (by omega)
    simp only [Nat.cast_zero, List.drop_zero] at hloop
    rw [hloop]
    rfl
  have hcached : CachedTokens s = ctx.seq0 := by simp [CachedTokens, hc]
  refine ⟨hrun, hflat, hcount, ?_, ?_, ?_⟩
  · intro b hb
    have hmem : b.length ∈ (PacedBatches tokens N).map List.length :=
      List.mem_map_of_mem _ hb
    rw [hlen] at hmem
    exact PacedSizes_mem _ _ _ _ _ hmem
  · intro s1 value hres
    rw [hrun] at hres
    cases hsub : SubmitBatches env (PacedBatches tokens N) s with
    | none =>
      rw [hsub] at hres
      simp at hres
    | some ex =>
      obtain ⟨k, hk, hcache, hiff⟩ := SubmitBatches_prefix env _ s ex hsub
      rw [hcount] at hk hiff
      rw [hcached] at hcache
      refine ⟨k, hk, ?_, ?_⟩
      · rw [hsub] at hres
        cases ex with
        | done s3 =>
          simp only [Option.some.injEq] at hres
          have h1 : s1 = (ProcessPromptDone s3 (tokens.length : Int) Role).1 := by
            rw [hres]
          rw [h1, CachedTokens_ProcessPromptDone]
          exact hcache
        | returned s3 v =>
          simp only [Option.some.injEq, Prod.mk.injEq] at hres
          rw [← hres.1]
          exact hcache
      · rw [hiff]
        constructor
        · rintro ⟨s2, h2⟩
          exact ⟨s2, by rw [h2]⟩
        · rintro ⟨s2, h2⟩
          exact ⟨s2, Option.some.inj h2⟩
  · intro hfit hn hne hdec
    obtain ⟨n, c⟩ := ctx
    simp only at hfit hn hne hdec
    have hall := SubmitBatches_all env n hn (PacedBatches tokens N) s c hc
      (by rw [hflat]; exact hfit)
      (by
        rcases hne with h | h
        · exact Or.inl h
        · exact Or.inr (PacedBatches_head_ne_nil tokens N hN h))
      (by
        intro k hk
        exact hdec k (by rw [hcount] at hk; exact hk))
    rw [hrun, hall, hflat]

/-- Claim C23 (amended) on the engine in paced mode with 2 sub-batches, 8 positions
and 2 cached tokens, for the prompt `ab`: both sub-batches, of one token each,
are submitted, the call reports 2 tokens and the cache grows by the token
sequence. -/
theorem C23_paced_batches_witness :
    PacedBatches (demo.tokenize raw_ab false) 2 = [[97], [98]] ∧
    ProcessPrompt demo demo_paced raw_ab EChatTemplateRole.Unknown
      = some (ProcessPromptDone
          { demo_paced with Context := some { n_ctx := 8, seq0 := [97, 98] ++ [97, 98] } }
          2 EChatTemplateRole.Unknown) :=
  ⟨by decide,
   (C23_paced_batches_partition_the_prompt demo demo_paced ⟨8, [97, 98]⟩ raw_ab
      EChatTemplateRole.Unknown [97, 98] 2 (by decide) (by decide) (by decide) (by decide)
      (by decide) (by decide)).2.2.2.2.2 (by decide) (by decide) (by decide) (by decide)⟩

/-! ### Claim C29 -/

/-- Claim C29: with `TrimStartAndEnd` dropping the whitespace at both ends, and no
sentence-ending character being whitespace: for a text without sentence-ending
character `GetLastSentence` returns the text; for a text with one it returns a
contiguous part `body ++ [p]` of the text, where `p` is the last
sentence-ending character of the text (none follows it), `body` holds no
sentence-ending character, and the part neither starts nor ends with
whitespace; and `GetLastSentence` applied to its own result returns that
result. -/
theorem C29_last_sentence_trimmed_and_idempotent (lib : FStringLib) (ws : Char → Bool)
    (hT : ∀ x, lib.TrimStartAndEnd x = TrimWhitespace ws x)
    (hws : ∀ c, IsSentenceEndingPunctuation c = true → ws c = false) (s : List Char) :
    ((∀ c ∈ s, IsSentenceEndingPunctuation c = false) → GetLastSentence lib s = s) ∧
    ((∃ c ∈ s, IsSentenceEndingPunctuation c = true) →
      ∃ pre body p post, s = pre ++ (body ++ [p]) ++ post ∧
        GetLastSentence lib s = body ++ [p] ∧
        IsSentenceEndingPunctuation p = true ∧
        (∀ c ∈ post, IsSentenceEndingPunctuation c = false) ∧
        (∀ c ∈ body, IsSentenceEndingPunctuation c = false) ∧
        (∀ c, (body ++ [p]).head? = some c → ws c = false) ∧ ws p = false) ∧
    GetLastSentence lib (GetLastSentence lib s) = GetLastSentence lib s := by
  have hnone : ∀ x : List Char, (∀ c ∈ x, IsSentenceEndingPunctuation c = false) →
      GetLastSentence lib x = x := by
    intro x hx
    rcases LastPunctuationBelow_spec x with ⟨_, h⟩ | ⟨a, p, post, hxs, hp, _, _⟩
    · unfold GetLastSentence
      rw [h]
    · have := hx p (by rw [hxs]; simp)
      rw [hp] at this
      exact absurd this (by simp)
  have hsome : ∀ x : List Char, (∃ c ∈ x, IsSentenceEndingPunctuation c = true) →
      ∃ pre body p post, x = pre ++ (body ++ [p]) ++ post ∧
        GetLastSentence lib x = body ++ [p] ∧
        IsSentenceEndingPunctuation p = true ∧
        (∀ c ∈ post, IsSentenceEndingPunctuation c = false) ∧
        (∀ c ∈ body, IsSentenceEndingPunctuation c = false) ∧
        (∀ c, (body ++ [p]).head? = some c → ws c = false) ∧ ws p = false := by
    intro x ⟨c, hc, hcp⟩
    rcases LastPunctuationBelow_spec x with ⟨hno, _⟩ | ⟨a, p, post, hxs, hp, hpost, _⟩
    · have := hno c hc
      rw [hcp] at this
      exact absurd this (by simp)
    · obtain ⟨pre, mid, ha, hmid, hget⟩ := GetLastSentence_eq lib a post p hp hpost
      have hwp := hws p hp
      rw [hT, TrimWhitespace_append_singleton ws mid p hwp] at hget
      refine ⟨pre ++ mid.takeWhile ws, mid.dropWhile ws, p, post, ?_, ?_, hp, hpost, ?_, ?_, hwp⟩
      · rw [hxs, ha]
        have := List.takeWhile_append_dropWhile ws mid
        simp only [List.append_assoc, List.singleton_append]
        rw [← List.append_assoc (mid.takeWhile ws), this]
      · rw [hxs]; exact hget
      · intro d hd
        exact hmid d (List.dropWhile_suffix ws |>.subset hd)
      · exact head_dropWhile_append_singleton ws mid p hwp
  refine ⟨hnone s, hsome s, ?_⟩
  by_cases hex : ∃ c ∈ s, IsSentenceEndingPunctuation c = true
  · obtain ⟨pre, body, p, post, _, hget, hp, _, hbody, hhead, hwp⟩ := hsome s hex
    rw [hget]
    obtain ⟨pre1, mid1, hb, hmid1, hget1⟩ := GetLastSentence_eq lib body [] p hp (by simp)
    rw [hget1, hT, TrimWhitespace_append_singleton ws mid1 p hwp]
    have hpre1 : pre1 = [] := by
      rcases LastPunctuationBelow_spec body with ⟨_, hn⟩ | ⟨a0, q, m, hb0, hq, _, _⟩
      · have h1 : GetLastSentence lib (body ++ [p]) = lib.TrimStartAndEnd (body ++ [p]) := by
          unfold GetLastSentence
          rw [LastPunctuationBelow_last body [] p hp (by simp)]
          simp only [LastPunctuationBelow_append body [p] body.length (le_refl _), hn]
          congr 1
          simp
        rw [h1, hT, TrimWhitespace_append_singleton ws body p hwp] at hget1
        rw [hT, TrimWhitespace_append_singleton ws mid1 p hwp] at hget1
        have h2 : body.dropWhile ws = mid1.dropWhile ws := by
          have := congrArg List.dropLast hget1
          simpa using this
        rw [dropWhile_of_head ws body p hhead] at h2
        have h3 : body.length ≤ mid1.length := by
          rw [h2]
          exact (List.dropWhile_suffix ws).length_le
        have h4 := congrArg List.length hb
        simp at h4
        exact List.length_eq_zero.mp (by omega)
      · have := hbody q (by rw [hb0]; simp)
        rw [hq] at this
        exact absurd this (by simp)
    rw [hpre1, List.nil_append] at hb
    rw [← hb, dropWhile_of_head ws body p hhead]
  · have hno : ∀ c ∈ s, IsSentenceEndingPunctuation c = false := by
      intro c hc
      cases h : IsSentenceEndingPunctuation c with
      | false => rfl
      | true => exact absurd ⟨c, hc, h⟩ hex
    rw [hnone s hno]
    exact hnone s hno

/-- Claim C29 with blanks as whitespace, on the text ` Hi. How are you? ok`: the
result is `How are you?`. -/
theorem C29_last_sentence_witness :
    (∃ pre body p post, " Hi. How are you? ok".toList = pre ++ (body ++ [p]) ++ post ∧
        GetLastSentence demo_lib " Hi. How are you? ok".toList = body ++ [p] ∧
        IsSentenceEndingPunctuation p = true ∧
        (∀ c ∈ post, IsSentenceEndingPunctuation c = false) ∧
        (∀ c ∈ body, IsSentenceEndingPunctuation c = false) ∧
        (∀ c, (body ++ [p]).head? = some c → (c == ' ') = false) ∧ (p == ' ') = false) ∧
    GetLastSentence demo_lib " Hi. How are you? ok".toList = "How are you?".toList :=
  ⟨(C29_last_sentence_trimmed_and_idempotent demo_lib (fun c => c == ' ') (fun _ => rfl)
      (by
        intro c h
        unfold IsSentenceEndingPunctuation at h
        simp only [Bool.or_eq_true, beq_iff_eq] at h
        rcases h with (h | h) | h <;> rw [h] <;> decide)
      " Hi. How are you? ok".toList).2.1 ⟨'.', by decide, by decide⟩,
   by rfl⟩

/-! ### Claim C30 -/

/-- Claim C30: on a loaded engine (model and context present) whose message list
renders, without assistant opening, to a text that fits under the filled part
of the buffer, `RollbackContextHistoryByMessages(n)` with `n` negative or
greater than the message count returns and leaves the message list as it
was. -/
theorem C30_out_of_range_count_removes_no_message (env : Env) (s : FLlamaInternal) (n : Int)
    (ctx : llama_context) (t : List Char)
    (hl : s.bIsModelLoaded = true) (hm : s.LlamaModel = true) (hc : s.Context = some ctx)
    (h32 : -2 ^ 31 ≤ n) (h32u : n < 2 ^ 31) (hlen : s.Messages.length < 2 ^ 63)
    (hn : n < 0 ∨ (s.Messages.length : Int) < n)
    (hr : Renders env s.Template s.Messages false t)
    (hfit : (t.length : Int) ≤ s.FilledContextCharLength)
    (hbuf : s.FilledContextCharLength ≤ (s.ContextHistory.length : Int)) :
    ∃ s1, RollbackContextHistoryByMessages env s n = some s1 ∧ s1.Messages = s.Messages :=
  ⟨_, RollbackContextHistoryByMessages_keep env s n ctx t hl hm hc
    (size_t_of_int32_above n _ h32 h32u hlen hn) hr hfit hbuf, rfl⟩

/-- Claim C30 on the engine holding the single message `hello`: the count 2 of
`RemoveLastUserInput` removes nothing. -/
theorem C30_out_of_range_count_witness :
    ∃ s1, RollbackContextHistoryByMessages demo demo_inserted 2 = some s1 ∧
      s1.Messages = demo_inserted.Messages :=
  C30_out_of_range_count_removes_no_message demo demo_inserted 2
    { n_ctx := 64, seq0 := (demo_render [hello_message] true).map (fun c => (c.toNat : Int)) }
    (demo_render [hello_message] false)
    (by decide) (by decide) (by decide) (by decide) (by decide) (by decide)
    (Or.inr (by decide))
    ⟨⟨by decide, rfl⟩, ⟨by decide, rfl⟩⟩ (by decide) (by decide)

end LlamaCore
